import Mathlib

/-!
# cfn-infra: custom resources for MSK, Elasticsearch and EKS

A shallow embedding of `custom_resources/msk/postprocesskafka/main.go` (the session object
`Kafka`, the probe `createKafkaTopic`, the discovery loop `createTopic` and the handler
`createTopics`), of `custom_resources/msk/preprocesskafka/main.go` (`listConfigurations`,
`createConfig` and `vpcCidr`), of `custom_resources/es/publishlogoptions/main.go` (the
resource policies and the handler `publishLog`) and of
`custom_resources/eks/ekscluster/main.go` (`removeElbIngressTags` and `createCluster`).
The broker side (the `sarama` client and the cluster behind it) is a parameter: a record of
state-passing operations over an arbitrary world state.  Every call on a broker is appended
to a trace, so that statements about which requests a run issues are statements about
lists.  The AWS services are records of responses; where the order of the calls matters, a
response is a function of the calls made before it.
-/

/-! ## The AWS SDK -/

namespace Sdk

/-- Error of an SDK call: its text `Error()`, and its `Code()` and `Message()` when it is
an `awserr.Error`. -/
structure AwsError where
  Error : String
  aerr : Option (String × String)

/-- Go `aws.StringValue`: the string behind a pointer, empty for nil. -/
def aws.StringValue : Option String → String
  | none => ""
  | some s => s

/-- Go `aws.Int64Value`: the integer behind a pointer, zero for nil. -/
def aws.Int64Value : Option Int → Int
  | none => 0
  | some n => n

end Sdk

namespace PostProcessKafka

open Sdk


/-! ## Data model -/

/-- Topic configuration, `kafkaTopicConfig` in the source.  The numeric fields are Go `int`. -/
structure kafkaTopicConfig where
  Name : String
  ReplicationFactor : Int
  NumOfPartitions : Int
deriving DecidableEq, Repr

/-- Session object `Kafka` of the source: the comma-joined broker string, the topics to
create and the controller handle (the empty string while no controller is known). -/
structure Kafka where
  BrokerConn : String
  Topics : List kafkaTopicConfig
  BrokerController : String
deriving DecidableEq, Repr

/-- Kafka error code of a broker that is not the controller. -/
def NOT_CONTROLLER : Int := 41

/-- Kafka error code of a topic that already exists. -/
def TOPIC_ALREADY_EXISTS : Int := 36

/-- Kafka error code of a request that went through. -/
def SUCCESS : Int := 0

/-! ## The client library's types -/

/-- Conversion `int32(n)` of a Go `int`: the value wraps into the signed 32-bit range. -/
def int32 (n : Int) : Int := (n + 2 ^ 31) % 2 ^ 32 - 2 ^ 31

/-- Conversion `int16(n)` of a Go `int`: the value wraps into the signed 16-bit range. -/
def int16 (n : Int) : Int := (n + 2 ^ 15) % 2 ^ 16 - 2 ^ 15

/-- One second as a `time.Duration`, which counts nanoseconds. -/
def time.Second : Int := 1000000000

/-- Fields of `sarama.TopicDetail` that the source sets; maps are association lists. -/
structure TopicDetail where
  NumPartitions : Int
  ReplicationFactor : Int
  ConfigEntries : List (String × Option String)
deriving DecidableEq, Repr

/-- Fields of `sarama.CreateTopicsRequest` that the source sets. -/
structure CreateTopicsRequest where
  Timeout : Int
  TopicDetails : List (String × TopicDetail)
deriving DecidableEq, Repr

/-- Error entry `sarama.TopicError` of a response; `Err` is the numeric `KError`. -/
structure TopicError where
  Err : Int
deriving DecidableEq, Repr

/-- Response `sarama.CreateTopicsResponse`: the map `TopicErrors`, as the list of its
entries in the order in which a `range` loop visits them. -/
structure CreateTopicsResponse where
  TopicErrors : List (String × TopicError)
deriving DecidableEq, Repr

/-- Outcome `(response, err)` of `broker.CreateTopics`. -/
inductive CreateTopicsResult where
  | ok (response : CreateTopicsResponse)
  | error (err : String)
deriving DecidableEq, Repr

/-! ## The broker side and the trace of calls -/

/-- Call on a `sarama.Broker`, with what it returned. -/
inductive Call where
  | Open (err : Option String)
  | Connected (err : Option String)
  | CreateTopics (request : CreateTopicsRequest) (result : CreateTopicsResult)
  | Close
deriving DecidableEq, Repr

/-- Trace entry: the call, the address of the broker it was made on, and the value
`k.BrokerController` had when it was made. -/
structure Event where
  controller : String
  brokerConn : String
  call : Call
deriving DecidableEq, Repr

/-- Behaviour of the client library and of the cluster behind it, over a world state `σ`.
`KError_Error` is the text of the library's `KError.Error()`, which is what `%v` prints for
a `KError`. -/
structure Sarama (σ : Type) where
  Open : String → σ → Option String × σ
  Connected : String → σ → Option String × σ
  CreateTopics : String → CreateTopicsRequest → σ → CreateTopicsResult × σ
  Close : String → σ → σ
  KError_Error : Int → String

/-- World of a run: the state of the broker side and the calls made so far, oldest first. -/
structure World (σ : Type) where
  st : σ
  trace : List Event

/-- Outcome of a method of `Kafka`: the returned error, the session and the world after it. -/
structure Result (σ : Type) where
  err : Option String
  k : Kafka
  w : World σ

/-- Append one call to the trace and move the broker side to `st`. -/
def World.record {σ : Type} (w : World σ) (k : Kafka) (brokerConn : String) (c : Call)
    (st : σ) : World σ :=
  { st := st, trace := w.trace ++ [{ controller := k.BrokerController,
                                     brokerConn := brokerConn, call := c }] }

/-! ## `strings.Split` -/

/-- Go `strings.Split(s, sep)` for a one-character separator. -/
def strings.Split (s : String) (sep : Char) : List String :=
  (s.toList.splitOn sep).map String.mk

/-! ## `createKafkaTopic` -/

/-- Request that `createKafkaTopic` builds for a topic configuration. -/
def createTopicsRequest (conf : kafkaTopicConfig) : CreateTopicsRequest :=
  { Timeout := time.Second * 15
    TopicDetails := [(conf.Name, { NumPartitions := int32 conf.NumOfPartitions
                                   ReplicationFactor := int16 conf.ReplicationFactor
                                   ConfigEntries := [] })] }

/-- Loop `for _, val := range t` of `createKafkaTopic`: every branch of its body returns,
so the first entry visited decides; with no entry the function falls through to
`defer broker.Close()` and `return nil`. -/
def createKafkaTopic.topicErrors {σ : Type} (net : Sarama σ) (k : Kafka) (brokerConn : String)
    (w : World σ) : List (String × TopicError) → Result σ
  | [] => { err := none, k := k, w := w.record k brokerConn Call.Close (net.Close brokerConn w.st) }
  | (_, val) :: _ =>
    if val.Err = NOT_CONTROLLER then
      { err := none, k := k, w := w }
    else if val.Err = TOPIC_ALREADY_EXISTS then
      { err := none, k := { k with BrokerController := brokerConn }, w := w }
    else if val.Err = SUCCESS then
      { err := none, k := { k with BrokerController := brokerConn }, w := w }
    else
      { err := some ("Error occurred while creating the topic. Error code : "
                      ++ net.KError_Error val.Err
                      ++ ". Check kafka error codes at https://kafka.apache.org/protocol#protocol_error_codes")
        k := k, w := w }

/-- Method `createKafkaTopic` of the source: one probe of `brokerConn` with one topic. -/
def createKafkaTopic {σ : Type} (net : Sarama σ) (k : Kafka) (brokerConn : String)
    (conf : kafkaTopicConfig) (w : World σ) : Result σ :=
  let o := net.Open brokerConn w.st
  let w1 := w.record k brokerConn (Call.Open o.1) o.2
  match o.1 with
  | some err =>
    { err := some ("error occurred while opening broker connection : " ++ err), k := k, w := w1 }
  | none =>
    let c := net.Connected brokerConn w1.st
    let w2 := w1.record k brokerConn (Call.Connected c.1) c.2
    match c.1 with
    | some err =>
      { err := some ("error occurred while connecting to the broker : " ++ err), k := k, w := w2 }
    | none =>
      if conf.Name = "" then
        { err := some "An empty string was provided for topic name. Exiting.", k := k, w := w2 }
      else
        let request := createTopicsRequest conf
        let r := net.CreateTopics brokerConn request w2.st
        let w3 := w2.record k brokerConn (Call.CreateTopics request r.1) r.2
        match r.1 with
        | CreateTopicsResult.error err =>
          { err := some ("error occurred while creating the topic " ++ conf.Name ++ ": " ++ err)
            k := k, w := w3 }
        | CreateTopicsResult.ok response =>
          createKafkaTopic.topicErrors net k brokerConn w3 response.TopicErrors

/-! ## `createTopic` -/

/-- Inner loop of `createTopic`, over the topics that remain for the broker `brokerCon`. -/
def createTopic.topics {σ : Type} (net : Sarama σ) (brokerCon : String) :
    List kafkaTopicConfig → Kafka → World σ → Result σ
  | [], k, w => { err := none, k := k, w := w }
  | topicConfig :: rest, k, w =>
    if k.BrokerController ≠ "" ∧ brokerCon = k.BrokerController then
      let r := createKafkaTopic net k k.BrokerController topicConfig w
      match r.err with
      | some err => { err := some err, k := r.k, w := r.w }
      | none => createTopic.topics net brokerCon rest r.k r.w
    else
      let r := createKafkaTopic net k brokerCon topicConfig w
      match r.err with
      | some err => { err := some err, k := r.k, w := r.w }
      | none => createTopic.topics net brokerCon rest r.k r.w

/-- Outer loop of `createTopic`, over the broker addresses that remain. -/
def createTopic.brokers {σ : Type} (net : Sarama σ) : List String → Kafka → World σ → Result σ
  | [], k, w => { err := none, k := k, w := w }
  | brokerCon :: rest, k, w =>
    if k.BrokerController ≠ "" ∧ brokerCon ≠ k.BrokerController then
      createTopic.brokers net rest k w
    else
      let r := createTopic.topics net brokerCon k.Topics k w
      match r.err with
      | some err => { err := some err, k := r.k, w := r.w }
      | none => createTopic.brokers net rest r.k r.w

/-- Method `createTopic` of the source. -/
def createTopic {σ : Type} (net : Sarama σ) (k : Kafka) (w : World σ) : Result σ :=
  createTopic.brokers net (strings.Split k.BrokerConn ',') k w

/-! ## Observations on traces and on the broker side -/

/-- Creation requests of a trace, oldest first, each with the address it was sent to. -/
def attempts (tr : List Event) : List (String × CreateTopicsRequest) :=
  tr.filterMap fun e =>
    match e.call with
    | Call.CreateTopics request _ => some (e.brokerConn, request)
    | _ => none

/-- Error code that decides a probe: the code of the first entry that the loop over
`TopicErrors` visits, if the request returned a response that has one. -/
def CreateTopicsResult.code : CreateTopicsResult → Option Int
  | CreateTopicsResult.ok response =>
    match response.TopicErrors with
    | [] => none
    | (_, val) :: _ => some val.Err
  | CreateTopicsResult.error _ => none

/-- Every connection to `b` opens and passes the connectivity check. -/
def Sarama.Connects {σ : Type} (net : Sarama σ) (b : String) : Prop :=
  ∀ st, (net.Open b st).1 = none ∧ (net.Connected b st).1 = none

/-- Every creation request that a probe sends to `b` is answered with `code`. -/
def Sarama.Answers {σ : Type} (net : Sarama σ) (b : String) (code : Int) : Prop :=
  ∀ conf st, (net.CreateTopics b (createTopicsRequest conf) st).1.code = some code

/-- Result of the creation request that a probe of `b` with `conf` sends from the state
`st`, once the connection has been opened and checked. -/
def Sarama.response {σ : Type} (net : Sarama σ) (b : String) (conf : kafkaTopicConfig)
    (st : σ) : CreateTopicsResult :=
  (net.CreateTopics b (createTopicsRequest conf) (net.Connected b (net.Open b st).2).2).1

/-- Whether an event is a creation request that was answered with success or with
topic already exists. -/
def Event.accepted (e : Event) : Bool :=
  match e.call with
  | Call.CreateTopics _ result =>
    result.code = some SUCCESS || result.code = some TOPIC_ALREADY_EXISTS
  | _ => false

/-- Address of the first broker of a trace that accepted a creation request. -/
def firstAccepted (tr : List Event) : Option String :=
  (tr.find? Event.accepted).map Event.brokerConn

/-- Controller handle that stands for an optional address: empty when there is none. -/
def handleOf : Option String → String
  | none => ""
  | some b => b

/-- Addresses that received a creation request for the topic `name`, oldest first. -/
def attemptsOn (name : String) (tr : List Event) : List String :=
  ((attempts tr).filter fun a => a.2.TopicDetails.map Prod.fst = [name]).map Prod.fst

/-- Agreement of the handles recorded in a trace with its answers: the handle recorded in
each event is the address of the first broker that accepted a creation request before the
event, and empty when none had. -/
def Consistent (tr : List Event) : Prop :=
  ∀ pre e post, tr = pre ++ e :: post → e.controller = handleOf (firstAccepted pre)

/-- Invariant of a session over brokers with non-empty addresses: the handle `h` is the
address of the first broker of the trace that accepted a creation request, and so it was
at every earlier call. -/
def SessionInv (h : String) (tr : List Event) : Prop :=
  h = handleOf (firstAccepted tr) ∧ Consistent tr ∧ ∀ e ∈ tr, e.brokerConn ≠ ""

/-- Every creation request of the trace that the broker at `c` answered was answered
with topic already exists. -/
def AlreadyExistsAt (c : String) (tr : List Event) : Prop :=
  ∀ e ∈ tr, e.brokerConn = c → ∀ request result,
    e.call = Call.CreateTopics request result → result.code = some TOPIC_ALREADY_EXISTS

/-- The trace holds a creation request for the topic `t` that was sent to the broker at `c`
and that the broker answered from some state of the broker side with a response on which the
probe returns no error: success, topic already exists, not controller, or no entry. -/
def AnsweredAt {σ : Type} (net : Sarama σ) (c : String) (t : kafkaTopicConfig)
    (tr : List Event) : Prop :=
  ∃ e ∈ tr, ∃ st, e.brokerConn = c
    ∧ e.call = Call.CreateTopics (createTopicsRequest t)
        (net.CreateTopics c (createTopicsRequest t) st).1
    ∧ ((net.CreateTopics c (createTopicsRequest t) st).1.code = some SUCCESS
      ∨ (net.CreateTopics c (createTopicsRequest t) st).1.code = some TOPIC_ALREADY_EXISTS
      ∨ (net.CreateTopics c (createTopicsRequest t) st).1.code = some NOT_CONTROLLER
      ∨ (net.CreateTopics c (createTopicsRequest t) st).1
          = CreateTopicsResult.ok { TopicErrors := [] })

/-- Error that `createKafkaTopic` returns for a call that failed to set up the connection:
a failed `Open` or a failed `Connected`; none for every other call. -/
def Event.failure (e : Event) : Option String :=
  match e.call with
  | Call.Open (some err) => some ("error occurred while opening broker connection : " ++ err)
  | Call.Connected (some err) => some ("error occurred while connecting to the broker : " ++ err)
  | _ => none

/-- A connection failure ends what it happens in: no call of the trace but the last failed
to set up a connection, and if the last one did, its error is the error returned. -/
def FailureEnds {σ : Type} (r : Result σ) : Prop :=
  (∀ e ∈ r.w.trace.dropLast, e.failure = none)
    ∧ ∀ e m, r.w.trace.getLast? = some e → e.failure = some m → r.err = some m

/-! ## Library functions of the handler -/

/-- Go `strings.Join(elems, sep)`. -/
def strings.Join : List String → String → String
  | [], _ => ""
  | [a], _ => a
  | a :: b :: rest, sep => a ++ sep ++ strings.Join (b :: rest) sep

/-- Scan of `strings.ReplaceAll` over the characters that remain: `skip` counts the
characters of a match that are still to be passed over. -/
def strings.ReplaceAll.scan (old new : List Char) : Nat → List Char → List Char
  | _, [] => []
  | skip + 1, _ :: cs => strings.ReplaceAll.scan old new skip cs
  | 0, c :: cs =>
    if old.isPrefixOf (c :: cs) then new ++ strings.ReplaceAll.scan old new (old.length - 1) cs
    else c :: strings.ReplaceAll.scan old new 0 cs

/-- Go `strings.ReplaceAll(s, old, new)`: the non-overlapping occurrences of `old`, found
from the left, are replaced by `new`; an empty `old` matches before every character and at
the end. -/
def strings.ReplaceAll (s old new : String) : String :=
  if old.toList = [] then
    String.mk (new.toList ++ s.toList.flatMap fun c => c :: new.toList)
  else
    String.mk (strings.ReplaceAll.scan old.toList new.toList 0 s.toList)

/-- Whether a string is a decimal number as `strconv.Atoi` reads it: an optional sign and
then one or more digits. -/
def isNumber (s : String) : Bool :=
  match s.toList with
  | '-' :: rest => !rest.isEmpty && rest.all Char.isDigit
  | '+' :: rest => !rest.isEmpty && rest.all Char.isDigit
  | cs => !cs.isEmpty && cs.all Char.isDigit

/-- Value of a list of decimal digits. -/
def digitsValue (cs : List Char) : Nat :=
  cs.foldl (fun n c => 10 * n + (c.toNat - 48)) 0

/-- Go `strconv.Atoi(s)` on a 64-bit platform: the value and the error.  A string that is
not a number gives 0 and a syntax error; a number outside the range of `int` gives the
nearest bound and a range error. -/
def strconv.Atoi (s : String) : Int × Option String :=
  if isNumber s then
    match s.toList with
    | '-' :: rest =>
      if digitsValue rest ≤ 2 ^ 63 then (-(digitsValue rest : Int), none)
      else (-(2 ^ 63), some "value out of range")
    | '+' :: rest =>
      if digitsValue rest < 2 ^ 63 then ((digitsValue rest : Int), none)
      else (2 ^ 63 - 1, some "value out of range")
    | cs =>
      if digitsValue cs < 2 ^ 63 then ((digitsValue cs : Int), none)
      else (2 ^ 63 - 1, some "value out of range")
  else (0, some "invalid syntax")

/-! ## The collaborators of `createTopics` -/

/-- Responses of the services behind `createTopics`: the hosted zone name of Route 53, the
TLS bootstrap broker string and the zookeeper connect string of MSK, each a string pointer
or an error, and the resolver `net.LookupIP` with the addresses and the error it returns. -/
structure Services where
  GetHostedZone : String → Except AwsError (Option String)
  GetBootstrapBrokers : String → Except AwsError (Option String)
  DescribeCluster : String → Except AwsError (Option String)
  LookupIP : String → List String × Option String

/-- Call on one of the services, with its argument. -/
inductive ServiceCall where
  | GetHostedZone (Id : String)
  | GetBootstrapBrokers (ClusterArn : String)
  | DescribeCluster (ClusterArn : String)
  | LookupIP (host : String)
deriving DecidableEq, Repr

/-- Element of the resource property `TopicList`. -/
structure TopicProperties where
  Name : String
  ReplicationFactor : String
  NumOfPartitions : String
deriving DecidableEq, Repr

/-- Event `cfn.Event` as `createTopics` reads it: the request type and the resource
properties `ClusterArn`, `HostedZone` and `TopicList` (none when it is not a list). -/
structure cfn.Event where
  RequestType : String
  ClusterArn : String
  HostedZone : String
  TopicList : Option (List TopicProperties)
deriving DecidableEq, Repr

/-- Request type of a creation. -/
def cfn.RequestCreate : String := "Create"

/-- Request type of an update. -/
def cfn.RequestUpdate : String := "Update"

/-- Request type of a deletion. -/
def cfn.RequestDelete : String := "Delete"

/-- What `createTopics` returns, `(physicalResourceId, data, err)`, with the calls it made
on the services, oldest first, and the world of the brokers after it. -/
structure Output (σ : Type) where
  physicalResourceId : String
  data : Option (List (String × String))
  err : Option String
  calls : List ServiceCall
  w : World σ

/-- Method `recordSet` of the source. -/
def recordSet (svc : Services) (zoneId : String) : String × Option String :=
  match svc.GetHostedZone zoneId with
  | Except.error err => ("", some ("unable to get hosted zone : " ++ err.Error))
  | Except.ok name => (aws.StringValue name, none)

/-- Method `brokerConString` of the source. -/
def brokerConString (svc : Services) (clusterArn : String) : String × Option String :=
  match svc.GetBootstrapBrokers clusterArn with
  | Except.error err =>
    match err.aerr with
    | some (code, message) => ("", some ("unable to describe brokerlist: " ++ code ++ "-" ++ message))
    | none => ("", some ("unable to describe brokerlist : " ++ err.Error))
  | Except.ok brokers => (aws.StringValue brokers, none)

/-- Method `zookeeperConString` of the source. -/
def zookeeperConString (svc : Services) (clusterArn : String) : String × Option String :=
  match svc.DescribeCluster clusterArn with
  | Except.error err =>
    match err.aerr with
    | some (code, message) => ("", some ("unable to describe cluster: " ++ code ++ "-" ++ message))
    | none => ("", some ("unable to describe cluster : " ++ err.Error))
  | Except.ok zookeepers => (aws.StringValue zookeepers, none)

/-! ## `createTopics` -/

/-- Loop of `createTopics` that builds `brokerListSsl`: `n` is `len(brokerList)`, `i` the
index of the element at the head of what remains. -/
def brokerListSsl.loop (n : Nat) : Nat → List String → String → String
  | _, [], brokerListSsl => brokerListSsl
  | i, broker :: rest, brokerListSsl =>
    if i = n - 1 then
      brokerListSsl.loop n (i + 1) rest (brokerListSsl ++ "SSL://" ++ broker)
    else
      brokerListSsl.loop n (i + 1) rest ("SSL://" ++ broker ++ "," ++ brokerListSsl)

/-- Broker string that `createTopics` returns under `Brokers`. -/
def brokerListSsl (brokers : String) : String :=
  brokerListSsl.loop (strings.Split brokers ',').length 0 (strings.Split brokers ',') ""

/-- Host names that `createTopics` resolves: the zookeeper string without `:2181`, split
at commas. -/
def zkList (zookeepers : String) : List String :=
  strings.Split (strings.ReplaceAll zookeepers ":2181" "") ','

/-- List `zookeeperList` of `createTopics`: the addresses of every host name, in order;
the error of a lookup is dropped. -/
def zookeeperList (svc : Services) (zookeepers : String) : List String :=
  (zkList zookeepers).flatMap fun zk => (svc.LookupIP zk).1

/-- Topic configuration that `createTopics` reads from an element of `TopicList`: the
errors of `strconv.Atoi` are dropped. -/
def thisTopic (topic : TopicProperties) : kafkaTopicConfig :=
  { Name := topic.Name
    ReplicationFactor := (strconv.Atoi topic.ReplicationFactor).1
    NumOfPartitions := (strconv.Atoi topic.NumOfPartitions).1 }

/-- List `listOfTopics` of `createTopics`. -/
def listOfTopics (event : cfn.Event) : List kafkaTopicConfig :=
  match event.TopicList with
  | some topics => topics.map thisTopic
  | none => []

/-- Case `cfn.RequestCreate` of `createTopics`. -/
def createTopics.create {σ : Type} (svc : Services) (net : Sarama σ) (event : cfn.Event)
    (w : World σ) : Output σ :=
  let zone := recordSet svc event.HostedZone
  let calls1 := [ServiceCall.GetHostedZone event.HostedZone]
  match zone.2 with
  | some err => { physicalResourceId := "", data := none, err := some err, calls := calls1, w := w }
  | none =>
    let brokers := brokerConString svc event.ClusterArn
    let calls2 := calls1 ++ [ServiceCall.GetBootstrapBrokers event.ClusterArn]
    match brokers.2 with
    | some err =>
      { physicalResourceId := "", data := none, err := some err, calls := calls2, w := w }
    | none =>
      let zookeepers := zookeeperConString svc event.ClusterArn
      let calls3 := calls2 ++ [ServiceCall.DescribeCluster event.ClusterArn]
      match zookeepers.2 with
      | some err =>
        { physicalResourceId := "", data := none, err := some err, calls := calls3, w := w }
      | none =>
        let calls4 := calls3 ++ (zkList zookeepers.1).map ServiceCall.LookupIP
        let zk := strings.Join (zookeeperList svc zookeepers.1) ","
        let kafkaApi : Kafka :=
          { BrokerConn := brokers.1, Topics := listOfTopics event, BrokerController := "" }
        let r := createTopic net kafkaApi w
        match r.err with
        | some err =>
          { physicalResourceId := "", data := none, err := some err, calls := calls4, w := r.w }
        | none =>
          { physicalResourceId := ""
            data := some [("Brokers", brokerListSsl brokers.1), ("Zookeepers", zk),
                          ("ZoneName", zone.1)]
            err := none, calls := calls4, w := r.w }

/-- Handler `createTopics` of the source: an update sets the request type to a creation
and calls the handler again; a deletion, like any other request type, returns the zero
values without a call. -/
def createTopics {σ : Type} (svc : Services) (net : Sarama σ) (event : cfn.Event)
    (w : World σ) : Output σ :=
  if event.RequestType = cfn.RequestCreate then
    createTopics.create svc net event w
  else if _h : event.RequestType = cfn.RequestUpdate then
    createTopics svc net { event with RequestType := cfn.RequestCreate } w
  else
    { physicalResourceId := "", data := none, err := none, calls := [], w := w }
termination_by (if event.RequestType = cfn.RequestUpdate then 1 else 0)
decreasing_by
  simp [_h, cfn.RequestCreate, cfn.RequestUpdate]

/-! ## Concrete broker sides -/

/-- Text of the library's `KError.Error()` for the codes that a topic creation is commonly
answered with; a code outside this table is given the library's fallback text. -/
def saramaKErrorText (code : Int) : String :=
  if code = 0 then "kafka server: Not an error, why are you printing me?"
  else if code = 36 then "kafka server: Topic with this name already exists."
  else if code = 37 then "kafka server: Number of partitions is invalid."
  else if code = 38 then "kafka server: Replication-factor is invalid."
  else if code = 39 then "kafka server: Replica assignment is invalid."
  else if code = 40 then "kafka server: Configuration is invalid."
  else if code = 41 then "kafka server: This is not the correct controller for this cluster."
  else "Unknown error, how did this happen? Error code = " ++ toString code

/-- Broker side without state: every connection opens, and the broker at `b` answers each
topic of a creation request with the code `answer b`. -/
def scripted (answer : String → Int) : Sarama Unit where
  Open := fun _ st => (none, st)
  Connected := fun _ st => (none, st)
  CreateTopics := fun b request st =>
    (CreateTopicsResult.ok { TopicErrors := request.TopicDetails.map fun d => (d.1, { Err := answer b }) }, st)
  Close := fun _ st => st
  KError_Error := saramaKErrorText

/-- Cluster that holds a list of topic names: the broker at `controller` answers a topic
it does not hold with success and holds it from then on, answers a topic it holds with
topic already exists, and every other broker answers not controller. -/
def cluster (controller : String) : Sarama (List String) where
  Open := fun _ st => (none, st)
  Connected := fun _ st => (none, st)
  CreateTopics := fun b request st =>
    if b = controller then
      (CreateTopicsResult.ok { TopicErrors := request.TopicDetails.map fun d =>
          (d.1, { Err := if d.1 ∈ st then TOPIC_ALREADY_EXISTS else SUCCESS }) },
        st ++ (request.TopicDetails.map Prod.fst).filter fun n => n ∉ st)
    else
      (CreateTopicsResult.ok { TopicErrors := request.TopicDetails.map fun d =>
          (d.1, { Err := NOT_CONTROLLER }) }, st)
  Close := fun _ st => st
  KError_Error := saramaKErrorText

/-- Two brokers, the second of which is the controller. -/
def twoBrokers : Kafka :=
  { BrokerConn := "b1:9094,b2:9094"
    Topics := [{ Name := "orders", ReplicationFactor := 3, NumOfPartitions := 1 },
               { Name := "events", ReplicationFactor := 3, NumOfPartitions := 2 }]
    BrokerController := "" }

/-- Answers of a cluster in which `b2:9094` is the controller and accepts every topic. -/
def secondIsController (b : String) : Int :=
  if b = "b2:9094" then SUCCESS else NOT_CONTROLLER

/-- World of a fresh run over a stateless broker side. -/
def fresh : World Unit := { st := (), trace := [] }

/-- Broker side without state on which the connectivity check of the broker at `down`
fails; every other connection opens, and the broker at `b` answers with `answer b`. -/
def refusing (down : String) (answer : String → Int) : Sarama Unit where
  Open := fun _ st => (none, st)
  Connected := fun b st => (if b = down then some "dial tcp: connection refused" else none, st)
  CreateTopics := fun b request st =>
    (CreateTopicsResult.ok { TopicErrors := request.TopicDetails.map fun d => (d.1, { Err := answer b }) }, st)
  Close := fun _ st => st
  KError_Error := saramaKErrorText

/-- Broker side without state: every connection opens, and the broker at `b` answers the
topic named `n` of a creation request with the code `answer b n`. -/
def scriptedBy (answer : String → String → Int) : Sarama Unit where
  Open := fun _ st => (none, st)
  Connected := fun _ st => (none, st)
  CreateTopics := fun b request st =>
    (CreateTopicsResult.ok
      { TopicErrors := request.TopicDetails.map fun d => (d.1, { Err := answer b d.1 }) }, st)
  Close := fun _ st => st
  KError_Error := saramaKErrorText

/-- Answers of a cluster in which `b1:9094` is not the controller when it is asked for
the topic orders and is the controller when it is asked for any other topic, and in
which no other broker is the controller. -/
def lateController (b n : String) : Int :=
  if b = "b1:9094" ∧ n ≠ "orders" then SUCCESS else NOT_CONTROLLER

/-- Topic named orders of `twoBrokers`. -/
def orders : kafkaTopicConfig := { Name := "orders", ReplicationFactor := 3, NumOfPartitions := 1 }
/-- Services that answer: a hosted zone, two brokers, and two zookeeper hosts of which
the first resolves to one address and the second fails to resolve. -/
def sampleServices : Services where
  GetHostedZone := fun _ => Except.ok (some "simple.abc.com")
  GetBootstrapBrokers := fun _ => Except.ok (some "b1:9094,b2:9094")
  DescribeCluster := fun _ => Except.ok (some "z1:2181,z2:2181")
  LookupIP := fun host => if host = "z1" then (["10.0.0.1"], none) else ([], some "no such host")

/-- Creation event whose one topic has a replication factor that is not a number. -/
def sampleEvent : cfn.Event :=
  { RequestType := cfn.RequestCreate, ClusterArn := "arn:aws:kafka:cluster/mm"
    HostedZone := "Z2GEXWLLVCEQ3M"
    TopicList := some [{ Name := "orders", ReplicationFactor := "three", NumOfPartitions := "1" }] }

end PostProcessKafka

/-! # Preparation of the MSK cluster: `custom_resources/msk/preprocesskafka/main.go` -/

namespace PreProcessKafka

open Sdk

/-- Revision `kafka.ConfigurationRevision` of a configuration. -/
structure ConfigurationRevision where
  Revision : Option Int
deriving DecidableEq, Repr

/-- Fields of `kafka.Configuration` that the source reads. -/
structure Configuration where
  Name : Option String
  Arn : Option String
  LatestRevision : ConfigurationRevision
deriving DecidableEq, Repr

/-- Input struct `ClusterConfig` of `createConfig`. -/
structure ClusterConfig where
  Name : String
  Description : String
  Kafka_Versions : List String
deriving DecidableEq, Repr

/-- Request `kafka.CreateConfigurationInput`; the server properties, a byte slice in the
source, are carried as text. -/
structure CreateConfigurationInput where
  Description : String
  KafkaVersions : List String
  Name : String
  ServerProperties : String
deriving DecidableEq, Repr

/-- Error code `kafka.ErrCodeConflictException` of the SDK. -/
def kafka.ErrCodeConflictException : String := "ConflictException"

/-- MSK service client: the response of `ListConfigurationsWithContext(ctx, nil)`, the
list `Configurations` or an error, and the response of `CreateConfigurationWithContext`
to a request, the field `Arn` of the output or an error. -/
structure MSKclient where
  ListConfigurations : Except AwsError (List Configuration)
  CreateConfiguration : CreateConfigurationInput → Except AwsError (Option String)

/-- Fields of `ec2.Vpc` that the source reads. -/
structure Vpc where
  VpcId : Option String
  CidrBlock : Option String
deriving DecidableEq, Repr

/-- EC2 service client: the response of `DescribeVpcsWithContext` to a list of VPC ids, the
list `Vpcs` or an error. -/
structure Ec2Client where
  DescribeVpcs : List String → Except AwsError (List Vpc)

/-- Loop of `listConfigurations` over the configurations that remain, and the `return`
after it. -/
def listConfigurations.loop (name : String) : List Configuration → String × Option String
  | [] => ("", some ("Unable to list MSK cluster configuration by name " ++ name))
  | config :: rest =>
    if name = aws.StringValue config.Name
        ∧ aws.Int64Value config.LatestRevision.Revision = 1 then
      (aws.StringValue config.Arn, none)
    else
      listConfigurations.loop name rest

/-- Method `listConfigurations` of the source. -/
def listConfigurations (k : MSKclient) (name : String) : String × Option String :=
  match k.ListConfigurations with
  | Except.error err => ("", some ("Unable to list MSK cluster configurations : " ++ err.Error))
  | Except.ok out => listConfigurations.loop name out

/-- Loop of `vpcCidr` over `out.Vpcs`, and the `return` after it: both branches of the
body return, so only the first VPC is looked at. -/
def vpcCidr.loop (vpcId : String) : List Vpc → String × Option String
  | [] => ("", none)
  | vpc :: _ =>
    if vpcId = aws.StringValue vpc.VpcId then
      (aws.StringValue vpc.CidrBlock, none)
    else
      ("", some ("vpc matching the ID " ++ vpcId ++ " could not be found"))

/-- Method `vpcCidr` of the source. -/
def vpcCidr (e : Ec2Client) (vpcId : String) : String × Option String :=
  match e.DescribeVpcs [vpcId] with
  | Except.error err => ("", some ("unable to describe VPC : " ++ err.Error))
  | Except.ok out => vpcCidr.loop vpcId out

/-- Method `createConfig` of the source. -/
def createConfig (k : MSKclient) (conf : ClusterConfig) (serverProps : String) :
    String × Option String :=
  let param : CreateConfigurationInput :=
    { Description := conf.Description
      KafkaVersions := conf.Kafka_Versions
      Name := conf.Name
      ServerProperties := serverProps }
  match k.CreateConfiguration param with
  | Except.error err =>
    match err.aerr with
    | some (code, message) =>
      if code = kafka.ErrCodeConflictException then
        listConfigurations k conf.Name
      else
        ("", some ("unable to create cluster configuration: " ++ message))
    | none => ("", some ("unable to create cluster configuration :" ++ err.Error))
  | Except.ok out => (aws.StringValue out, none)

/-- Whether a configuration is the one `listConfigurations` looks for. -/
def Configuration.matches (name : String) (config : Configuration) : Bool :=
  name = aws.StringValue config.Name ∧ aws.Int64Value config.LatestRevision.Revision = 1

/-- Client of the test `Test_MockListMSKConfig`, with a second revision in front. -/
def mockMsk : MSKclient where
  ListConfigurations := Except.ok
    [{ Name := some "SampleConfig1", Arn := some "arn:aws:msk:us-west-2:1234567891:older"
       LatestRevision := { Revision := some 2 } },
     { Name := some "SampleConfig1", Arn := some "arn:aws:msk:us-west-2:1234567891:mymskconfig"
       LatestRevision := { Revision := some 1 } }]
  CreateConfiguration := fun _ =>
    Except.error
      { Error := "ConflictException: A resource with this name already exists."
        aerr := some ("ConflictException", "A resource with this name already exists.") }

/-- Client whose response holds the requested VPC in second place. -/
def mockEc2 : Ec2Client where
  DescribeVpcs := fun _ => Except.ok
    [{ VpcId := some "vpc-5678", CidrBlock := some "10.16.0.0/12" },
     { VpcId := some "vpc-1234", CidrBlock := some "10.0.0.0/12" }]

/-- Config of the test `Test_MockCreateMSKConfig`. -/
def sampleConfig : ClusterConfig :=
  { Name := "SampleConfig1", Description := "mymskconfig", Kafka_Versions := ["1.1.1", "2.2.1"] }

/-- Client whose response to `DescribeVpcs` holds no VPC. -/
def emptyEc2 : Ec2Client where
  DescribeVpcs := fun _ => Except.ok []

end PreProcessKafka

/-! # Publication of Elasticsearch logs: `custom_resources/es/publishlogoptions/main.go` -/

namespace PublishLogOptions

open Sdk

/-! ## Data model -/

/-- Input struct `esDomainConfig` of the source. -/
structure esDomainConfig where
  Domain : String
  DomainArn : String
  IndexSlowLogsArn : String
  SearchSlowLogsArn : String
  ESApplicationLogsArn : String
deriving DecidableEq, Repr

/-- Principal `principal` of a policy statement. -/
structure principal where
  Service : String
deriving DecidableEq, Repr

/-- Policy statement `statementEntry` of the source. -/
structure statementEntry where
  Effect : String
  Principal : principal
  Action : List String
  Resource : String
deriving DecidableEq, Repr

/-- Policy `policyDocument` of the source. -/
structure policyDocument where
  Version : String
  Statement : List statementEntry
deriving DecidableEq, Repr

/-- Input struct `resPolicyInput` of the source. -/
structure resPolicyInput where
  policyName : String
  logKind : String
deriving DecidableEq, Repr

/-- Log kind of the search slow logs. -/
def SEARCHSLOWLOGS : String := "Search-logs"

/-- Log kind of the index slow logs. -/
def INDEXSLOWLOGS : String := "Index-logs"

/-- Log kind of the application error logs. -/
def ESAPPLOGS : String := "Application-logs"

/-- Option `elasticsearchservice.LogPublishingOption` of a request. -/
structure LogPublishingOption where
  Enabled : Option Bool
  CloudWatchLogsLogGroupArn : Option String
deriving DecidableEq, Repr

/-- Request `elasticsearchservice.UpdateElasticsearchDomainConfigInput`; the map
`LogPublishingOptions` is the list of its entries in the order of the map literal. -/
structure UpdateElasticsearchDomainConfigInput where
  DomainName : String
  LogPublishingOptions : List (String × LogPublishingOption)
deriving DecidableEq, Repr

/-- Call on the CloudWatch Logs client or on the Elasticsearch client, with its request. -/
inductive ApiCall where
  | PutResourcePolicy (PolicyName : String) (PolicyDocument : String)
  | DeleteResourcePolicy (PolicyName : String)
  | UpdateElasticsearchDomainConfig (param : UpdateElasticsearchDomainConfigInput)
deriving DecidableEq, Repr

/-- What the program calls: `json.Marshal` on a policy, and the three service calls, each of
which answers a request in view of the calls made before it (oldest first).  A call that
returns no output of interest answers with its error; `UpdateElasticsearchDomainConfig`
answers with the field `DomainConfig.LogPublishingOptions.Status.State` of its output. -/
structure Services where
  Marshal : policyDocument → Except String String
  PutResourcePolicy : List ApiCall → String → String → Option AwsError
  DeleteResourcePolicy : List ApiCall → String → Option AwsError
  UpdateElasticsearchDomainConfig :
    List ApiCall → UpdateElasticsearchDomainConfigInput → Except AwsError (Option String)

/-- Event `cfn.Event` as the handler reads it: the request type and the four resource
properties, each a string. -/
structure cfn.Event where
  RequestType : String
  DomainName : String
  IndexSlowLogsArn : String
  SearchSlowLogsArn : String
  ESApplicationLogsArn : String
deriving DecidableEq, Repr

/-- Request type of a creation. -/
def cfn.RequestCreate : String := "Create"

/-- Request type of an update. -/
def cfn.RequestUpdate : String := "Update"

/-- Request type of a deletion. -/
def cfn.RequestDelete : String := "Delete"

/-- What the handler returns, `(physicalResourceId, data, err)`, with the calls made so
far, oldest first. -/
structure Output where
  physicalResourceId : String
  data : Option (List (String × String))
  err : Option String
  calls : List ApiCall
deriving DecidableEq, Repr

/-! ## The resource policies -/

/-- Branches of `resourcePolicy` that choose the resource of the policy; none is the
branch that returns the error. -/
def resourcePolicy.resource (config : esDomainConfig) (policyConfig : resPolicyInput) :
    Option String :=
  if policyConfig.logKind = SEARCHSLOWLOGS then
    some config.SearchSlowLogsArn
  else if policyConfig.logKind = INDEXSLOWLOGS then
    some config.IndexSlowLogsArn
  else if policyConfig.logKind = ESAPPLOGS then
    some config.ESApplicationLogsArn
  else
    none

/-- Policy that `resourcePolicy` builds for a resource. -/
def resourcePolicy.policy (resource : String) : policyDocument :=
  { Version := "2012-10-17"
    Statement := [{ Effect := "Allow"
                    Principal := { Service := "es.amazonaws.com" }
                    Action := ["logs:PutLogEvents", "logs:CreateLogStream"]
                    Resource := resource }] }

/-- Method `resourcePolicy` of the source: the returned error and the calls after it. -/
def resourcePolicy (svc : Services) (config : esDomainConfig) (policyConfig : resPolicyInput)
    (calls : List ApiCall) : Option String × List ApiCall :=
  match resourcePolicy.resource config policyConfig with
  | none => (some "invalid log type", calls)
  | some resource =>
    match svc.Marshal (resourcePolicy.policy resource) with
    | Except.error err => (some ("Error marshaling policy : " ++ err), calls)
    | Except.ok b =>
      let calls1 := calls ++ [ApiCall.PutResourcePolicy policyConfig.policyName b]
      match svc.PutResourcePolicy calls policyConfig.policyName b with
      | some err =>
        (some ("unable to create a resource policy for ES access to cloudwatch logs "
                ++ resource ++ " : " ++ err.Error), calls1)
      | none => (none, calls1)

/-- Method `delResourcePolicy` of the source: the returned error and the calls after it.
An error of the call that is not an `awserr.Error` passes the `if` without a branch and
reaches the `return nil` at the end. -/
def delResourcePolicy (svc : Services) (policyName : String) (calls : List ApiCall) :
    Option String × List ApiCall :=
  let calls1 := calls ++ [ApiCall.DeleteResourcePolicy policyName]
  match svc.DeleteResourcePolicy calls policyName with
  | some err =>
    match err.aerr with
    | some (code, _) =>
      if code = "ResourceNotFoundException" then
        (none, calls1)
      else
        (some ("unable to delete resource policy " ++ policyName ++ ": " ++ err.Error), calls1)
    | none => (none, calls1)
  | none => (none, calls1)

/-! ## The log publishing options -/

/-- Method `publishLog` of `esclient`: the returned state, the returned error and the
calls after it. -/
def esclient.publishLog (svc : Services) (config : esDomainConfig) (calls : List ApiCall) :
    (String × Option String) × List ApiCall :=
  let indexSlow : LogPublishingOption :=
    { Enabled := some true, CloudWatchLogsLogGroupArn := some config.IndexSlowLogsArn }
  let searchSlow : LogPublishingOption :=
    { Enabled := some true, CloudWatchLogsLogGroupArn := some config.SearchSlowLogsArn }
  let appLogs : LogPublishingOption :=
    { Enabled := some true, CloudWatchLogsLogGroupArn := some config.ESApplicationLogsArn }
  let param : UpdateElasticsearchDomainConfigInput :=
    { DomainName := config.Domain
      LogPublishingOptions := [("INDEX_SLOW_LOGS", indexSlow), ("SEARCH_SLOW_LOGS", searchSlow),
                               ("ES_APPLICATION_LOGS", appLogs)] }
  let calls1 := calls ++ [ApiCall.UpdateElasticsearchDomainConfig param]
  match svc.UpdateElasticsearchDomainConfig calls param with
  | Except.error err =>
    (("", some ("Error occurred while creating a log publish option: " ++ err.Error)), calls1)
  | Except.ok state => ((aws.StringValue state, none), calls1)

/-- Method `deletePublishLog` of `esclient`: the returned error and the calls after it. -/
def esclient.deletePublishLog (svc : Services) (config : esDomainConfig)
    (calls : List ApiCall) : Option String × List ApiCall :=
  let indexSlow : LogPublishingOption := { Enabled := some false, CloudWatchLogsLogGroupArn := none }
  let searchSlow : LogPublishingOption := { Enabled := some false, CloudWatchLogsLogGroupArn := none }
  let appLogs : LogPublishingOption := { Enabled := some false, CloudWatchLogsLogGroupArn := none }
  let param : UpdateElasticsearchDomainConfigInput :=
    { DomainName := config.Domain
      LogPublishingOptions := [("INDEX_SLOW_LOGS", indexSlow), ("SEARCH_SLOW_LOGS", searchSlow),
                               ("ES_APPLICATION_LOGS", appLogs)] }
  let calls1 := calls ++ [ApiCall.UpdateElasticsearchDomainConfig param]
  match svc.UpdateElasticsearchDomainConfig calls param with
  | Except.error err =>
    (some ("Unable to disable publish logs in DELETE operation of the stack : " ++ err.Error),
      calls1)
  | Except.ok _ => (none, calls1)

/-! ## The handler `publishLog` -/

/-- Case `cfn.RequestCreate` of the handler. -/
def publishLog.create (svc : Services) (config : esDomainConfig)
    (indexSlowLogInput searchSlowLogInput esAppLogInput : resPolicyInput)
    (calls : List ApiCall) : Output :=
  let r1 := resourcePolicy svc config indexSlowLogInput calls
  match r1.1 with
  | some err => { physicalResourceId := "", data := none, err := some err, calls := r1.2 }
  | none =>
    let r2 := resourcePolicy svc config searchSlowLogInput r1.2
    match r2.1 with
    | some err => { physicalResourceId := "", data := none, err := some err, calls := r2.2 }
    | none =>
      let r3 := resourcePolicy svc config esAppLogInput r2.2
      match r3.1 with
      | some err => { physicalResourceId := "", data := none, err := some err, calls := r3.2 }
      | none =>
        let r4 := esclient.publishLog svc config r3.2
        match r4.1.2 with
        | some err => { physicalResourceId := "", data := none, err := some err, calls := r4.2 }
        | none =>
          { physicalResourceId := "", data := some [("LogPublishingOptionsStatus", r4.1.1)]
            err := none, calls := r4.2 }

/-- Case `cfn.RequestDelete` of the handler. -/
def publishLog.delete (svc : Services) (config : esDomainConfig)
    (indexSlowLogInput searchSlowLogInput esAppLogInput : resPolicyInput)
    (calls : List ApiCall) : Output :=
  let r1 := delResourcePolicy svc indexSlowLogInput.policyName calls
  match r1.1 with
  | some err => { physicalResourceId := "", data := none, err := some err, calls := r1.2 }
  | none =>
    let r2 := delResourcePolicy svc searchSlowLogInput.policyName r1.2
    match r2.1 with
    | some err => { physicalResourceId := "", data := none, err := some err, calls := r2.2 }
    | none =>
      let r3 := delResourcePolicy svc esAppLogInput.policyName r2.2
      match r3.1 with
      | some err => { physicalResourceId := "", data := none, err := some err, calls := r3.2 }
      | none =>
        let r4 := esclient.deletePublishLog svc config r3.2
        match r4.1 with
        | some err => { physicalResourceId := "", data := none, err := some err, calls := r4.2 }
        | none => { physicalResourceId := "", data := none, err := none, calls := r4.2 }

/-- Handler `publishLog` of the source, which calls itself in the case of an update.  A
call of the handler takes one unit of `fuel`; the result is none when the fuel does not
suffice for the handler to return.  The policy names are the strings that the source hands
to `fmt.Sprintf` as format, which it returns as they are for a domain name without a
percent sign. -/
def publishLog (svc : Services) : Nat → cfn.Event → List ApiCall → Option Output
  | 0, _, _ => none
  | fuel + 1, event, calls =>
    let config : esDomainConfig :=
      { Domain := event.DomainName
        DomainArn := ""
        IndexSlowLogsArn := event.IndexSlowLogsArn
        SearchSlowLogsArn := event.SearchSlowLogsArn
        ESApplicationLogsArn := event.ESApplicationLogsArn }
    let indexSlowLogInput : resPolicyInput :=
      { policyName := "AES-" ++ config.Domain ++ "-" ++ INDEXSLOWLOGS, logKind := INDEXSLOWLOGS }
    let searchSlowLogInput : resPolicyInput :=
      { policyName := "AES-" ++ config.Domain ++ "-" ++ SEARCHSLOWLOGS, logKind := SEARCHSLOWLOGS }
    let esAppLogInput : resPolicyInput :=
      { policyName := "AES-" ++ config.Domain ++ "-" ++ ESAPPLOGS, logKind := ESAPPLOGS }
    if event.RequestType = cfn.RequestCreate then
      some (publishLog.create svc config indexSlowLogInput searchSlowLogInput esAppLogInput calls)
    else if event.RequestType = cfn.RequestUpdate then
      publishLog svc fuel { event with RequestType := cfn.RequestUpdate } calls
    else if event.RequestType = cfn.RequestDelete then
      some (publishLog.delete svc config indexSlowLogInput searchSlowLogInput esAppLogInput calls)
    else
      some { physicalResourceId := "", data := none, err := none, calls := calls }

/-! ## Concrete services -/

/-- Text of a JSON string whose characters need no escape. -/
def jsonText (s : String) : String := "\x22" ++ s ++ "\x22"

/-- Text that `json.Marshal` gives for a policy whose strings need no escape. -/
def marshalPlain (p : policyDocument) : String :=
  "\x7b\x22Version\x22:" ++ jsonText p.Version ++ ",\x22Statement\x22:["
    ++ String.intercalate "," (p.Statement.map fun s =>
        "\x7b\x22Effect\x22:" ++ jsonText s.Effect
          ++ ",\x22Principal\x22:\x7b\x22Service\x22:" ++ jsonText s.Principal.Service ++ "\x7d"
          ++ ",\x22Action\x22:[" ++ String.intercalate "," (s.Action.map jsonText) ++ "]"
          ++ ",\x22Resource\x22:" ++ jsonText s.Resource ++ "\x7d")
    ++ "]\x7d"

/-- Names of the resource policies that exist after a list of calls on a service that held
the policies `initial` before them. -/
def policiesAfter (initial : List String) (calls : List ApiCall) : List String :=
  calls.foldl (fun held call =>
    match call with
    | ApiCall.PutResourcePolicy name _ => if name ∈ held then held else held ++ [name]
    | ApiCall.DeleteResourcePolicy name => held.filter fun n => n ≠ name
    | ApiCall.UpdateElasticsearchDomainConfig _ => held) initial

/-- Services that keep resource policies by name, `initial` at the start: a policy is put
without error, the deletion of a policy that exists succeeds, the deletion of a policy that
does not exist fails with ResourceNotFoundException, and the domain update answers with
the state Processing. -/
def policyStore (initial : List String) : Services where
  Marshal := fun p => Except.ok (marshalPlain p)
  PutResourcePolicy := fun _ _ _ => none
  DeleteResourcePolicy := fun calls name =>
    if name ∈ policiesAfter initial calls then none
    else some { Error := "ResourceNotFoundException: Policy with name [" ++ name ++ "] does not exist."
                aerr := some ("ResourceNotFoundException",
                              "Policy with name [" ++ name ++ "] does not exist.") }
  UpdateElasticsearchDomainConfig := fun _ _ => Except.ok (some "Processing")

/-- Services on which the deletion of a resource policy fails with an error that is not an
`awserr.Error`. -/
def unreachableLogs : Services where
  Marshal := fun p => Except.ok (marshalPlain p)
  PutResourcePolicy := fun _ _ _ => none
  DeleteResourcePolicy := fun _ _ =>
    some { Error := "dial tcp: lookup logs.us-west-2.amazonaws.com: no such host", aerr := none }
  UpdateElasticsearchDomainConfig := fun _ _ => Except.ok (some "Processing")

/-- Domain config of the tests of the source. -/
def sampleDomain : esDomainConfig :=
  { Domain := "mlsdataplatform-qa"
    DomainArn := ""
    IndexSlowLogsArn := "arn:aws:logs:us-west-2:508718283261:log-group:index-logs:*"
    SearchSlowLogsArn := "arn:aws:logs:us-west-2:508718283261:log-group:search-logs:*"
    ESApplicationLogsArn := "arn:aws:logs:us-west-2:508718283261:log-group:application-logs:*" }

/-- Update event for the domain of the tests. -/
def updateEvent : cfn.Event :=
  { RequestType := cfn.RequestUpdate
    DomainName := "mlsdataplatform-qa"
    IndexSlowLogsArn := "arn:aws:logs:us-west-2:508718283261:log-group:index-logs:*"
    SearchSlowLogsArn := "arn:aws:logs:us-west-2:508718283261:log-group:search-logs:*"
    ESApplicationLogsArn := "arn:aws:logs:us-west-2:508718283261:log-group:application-logs:*" }

end PublishLogOptions

/-! # The EKS cluster: `custom_resources/eks/ekscluster/main.go` -/

namespace EksCluster

open Sdk

/-! ## Go slices of strings -/

/-- Go value of type `[]string`: none is the nil slice, and `some []` is a slice that is
empty and not nil. -/
abbrev Slice := Option (List String)

/-- Elements of a slice, which a `range` loop visits in order. -/
def Slice.elems : Slice → List String
  | none => []
  | some l => l

/-- Go `append(s, more...)`: appending nothing returns `s`, nil or not. -/
def append (s : Slice) (more : List String) : Slice :=
  match more with
  | [] => s
  | x :: rest => some (s.elems ++ x :: rest)

/-- Go `aws.StringValueSlice`: a slice made with `make`, hence never nil, of the strings
behind the pointers. -/
def aws.StringValueSlice (src : List (Option String)) : Slice :=
  some (src.map aws.StringValue)

/-- Go `reflect.DeepEqual` on two slices of strings: both nil or both not nil, and the same
elements in the same order. -/
def reflect.DeepEqual (a b : Slice) : Bool :=
  decide (a = b)

/-- Loops of `manageEksCluster` that fill a slice of the config, nil at the start, with one
`append` for each item of a list of the event. -/
def sliceOf (items : List String) : Slice :=
  items.foldl (fun s i => append s [i]) none

/-! ## Data model -/

/-- Struct `EksClusterConfig` of the source. -/
structure EksClusterConfig where
  Name : String
  RoleArn : String
  Version : String
  PrivateSubnets : Slice
  PublicSubnets : Slice
  SecurityGroupIds : Slice
  EndpointPublicAccess : Bool
  EndpointPrivateAccess : Bool
deriving DecidableEq, Repr

/-- Struct `EksClusterOutput` of the source. -/
structure EksClusterOutput where
  Arn : String
  Endpoint : String
  CertificateAuthorityData : String
  OidcIssuer : String
  SecGroup : Slice
  Subnets : Slice
  Version : String
deriving DecidableEq, Repr

/-- Zero value `EksClusterOutput{}`. -/
def EksClusterOutput.zero : EksClusterOutput :=
  { Arn := "", Endpoint := "", CertificateAuthorityData := "", OidcIssuer := ""
    SecGroup := none, Subnets := none, Version := "" }

/-- Tag `ec2.Tag`. -/
structure Tag where
  Key : String
  Value : String
deriving DecidableEq, Repr

/-- Call on the EC2 client, with its request. -/
inductive Ec2Call where
  | DeleteTags (Tags : List Tag) (Resources : List String)
deriving DecidableEq, Repr

/-- EC2 client: the error of `DeleteTags` for the tags and the resources of a request, in
view of the calls made before it, oldest first. -/
structure Ec2Client where
  DeleteTags : List Ec2Call → List Tag → List String → Option AwsError

/-- Fields of `eks.VpcConfigRequest`. -/
structure VpcConfigRequest where
  SecurityGroupIds : List String
  SubnetIds : List String
  EndpointPrivateAccess : Bool
  EndpointPublicAccess : Bool
deriving DecidableEq, Repr

/-- Request `eks.CreateClusterInput`, without its request token, which is the time of the
call; `LoggingTypes` are the types of its one log setup, which is enabled. -/
structure CreateClusterInput where
  Name : String
  Version : String
  RoleArn : String
  ResourcesVpcConfig : VpcConfigRequest
  LoggingTypes : List String
deriving DecidableEq, Repr

/-- Request `eks.UpdateClusterConfigInput`, without its request token. -/
structure UpdateClusterConfigInput where
  Name : String
  ResourcesVpcConfig : VpcConfigRequest
deriving DecidableEq, Repr

/-- Fields of `eks.Cluster` that the source reads. -/
structure Cluster where
  Arn : Option String
  Endpoint : Option String
  CertificateAuthorityData : Option String
  OidcIssuer : Option String
  SubnetIds : List (Option String)
  SecurityGroupIds : List (Option String)
  Version : Option String
deriving DecidableEq, Repr

/-- Call on the EKS client, with its request. -/
inductive EksCall where
  | CreateCluster (input : CreateClusterInput)
  | DescribeCluster (Name : String)
  | UpdateClusterConfig (input : UpdateClusterConfigInput)
  | UpdateClusterVersion (Name : String) (Version : String)
deriving DecidableEq, Repr

/-- EKS client: what each call answers to a request in view of the calls made before it,
oldest first; the calls that create and describe answer with the field `Cluster` of their
output, the calls that update with their error. -/
structure EksClient where
  CreateCluster : List EksCall → CreateClusterInput → Except AwsError Cluster
  DescribeCluster : List EksCall → String → Except AwsError Cluster
  UpdateClusterConfig : List EksCall → UpdateClusterConfigInput → Option AwsError
  UpdateClusterVersion : List EksCall → String → String → Option AwsError

/-- Error code `eks.ErrCodeResourceInUseException` of the SDK. -/
def eks.ErrCodeResourceInUseException : String := "ResourceInUseException"

/-- What a method of `EksClient` returns, `(EksClusterOutput, error)`, with the calls made
so far. -/
structure Returned where
  out : EksClusterOutput
  err : Option String
  calls : List EksCall
deriving DecidableEq, Repr

/-! ## `removeElbIngressTags` -/

/-- One of the two loops of `removeElbIngressTags`, which have the same body: over the
subnets that remain, with the calls made so far. -/
def removeElbIngressTags.loop (e : Ec2Client) (commonTag : Tag) :
    List String → List Ec2Call → Option String × List Ec2Call
  | [], calls => (none, calls)
  | subnet :: rest, calls =>
    let tags := [commonTag]
    let calls1 := calls ++ [Ec2Call.DeleteTags tags [subnet]]
    match e.DeleteTags calls tags [subnet] with
    | some err =>
      (some ("unable to create tags for subnet " ++ subnet ++ ": " ++ err.Error), calls1)
    | none => removeElbIngressTags.loop e commonTag rest calls1

/-- Method `removeElbIngressTags` of the source: the returned error and the calls after
it. -/
def removeElbIngressTags (e : Ec2Client) (config : EksClusterConfig) (calls : List Ec2Call) :
    Option String × List Ec2Call :=
  let commonTagKey := "kubernetes.io/cluster/" ++ config.Name
  let commonTag : Tag := { Key := commonTagKey, Value := "shared" }
  let r := removeElbIngressTags.loop e commonTag config.PublicSubnets.elems calls
  match r.1 with
  | some err => (some err, r.2)
  | none => removeElbIngressTags.loop e commonTag config.PrivateSubnets.elems r.2

/-- Every request of `removeElbIngressTags.loop` for the subnets `subnets`, made in turn
after the calls `calls`, is answered without error. -/
def AllDeleted (e : Ec2Client) (commonTag : Tag) (calls : List Ec2Call)
    (subnets : List String) : Prop :=
  ∀ pre subnet post, subnets = pre ++ subnet :: post →
    e.DeleteTags (calls ++ pre.map fun s => Ec2Call.DeleteTags [commonTag] [s])
      [commonTag] [subnet] = none

/-! ## The methods of `EksClient` -/

/-- Method `upgradeVersion` of the source. -/
def upgradeVersion (e : EksClient) (config : EksClusterConfig) (calls : List EksCall) :
    Option String × List EksCall :=
  let calls1 := calls ++ [EksCall.UpdateClusterVersion config.Name config.Version]
  match e.UpdateClusterVersion calls config.Name config.Version with
  | some err =>
    (some ("Error occurred while upgrading the version of EKS cluster : " ++ err.Error), calls1)
  | none => (none, calls1)

/-- Method `upgradeConfig` of the source. -/
def upgradeConfig (e : EksClient) (config : EksClusterConfig) (calls : List EksCall) :
    Option String × List EksCall :=
  let allSubnets := append config.PrivateSubnets config.PublicSubnets.elems
  let input : UpdateClusterConfigInput :=
    { Name := config.Name
      ResourcesVpcConfig :=
        { SubnetIds := allSubnets.elems
          SecurityGroupIds := config.SecurityGroupIds.elems
          EndpointPublicAccess := config.EndpointPublicAccess
          EndpointPrivateAccess := config.EndpointPrivateAccess } }
  let calls1 := calls ++ [EksCall.UpdateClusterConfig input]
  match e.UpdateClusterConfig calls input with
  | some err => (some ("unable to update eks cluster configuration :" ++ err.Error), calls1)
  | none => (none, calls1)

/-- Method `getCluster` of the source. -/
def getCluster (e : EksClient) (clusterName : String) (calls : List EksCall) : Returned :=
  let calls1 := calls ++ [EksCall.DescribeCluster clusterName]
  match e.DescribeCluster calls clusterName with
  | Except.error _ =>
    { out := EksClusterOutput.zero
      err := some ("Unable to describe the cluster " ++ clusterName), calls := calls1 }
  | Except.ok cluster =>
    { out := { Arn := aws.StringValue cluster.Arn
               Endpoint := aws.StringValue cluster.Endpoint
               CertificateAuthorityData := aws.StringValue cluster.CertificateAuthorityData
               OidcIssuer := aws.StringValue cluster.OidcIssuer
               Subnets := aws.StringValueSlice cluster.SubnetIds
               SecGroup := aws.StringValueSlice cluster.SecurityGroupIds
               Version := aws.StringValue cluster.Version }
      err := none, calls := calls1 }

/-- Case `eks.ErrCodeResourceInUseException` of `createCluster`. -/
def createCluster.inUse (e : EksClient) (config : EksClusterConfig) (allSubnets : Slice)
    (calls : List EksCall) : Returned :=
  let g := getCluster e config.Name calls
  match g.err with
  | some err => { out := EksClusterOutput.zero, err := some err, calls := g.calls }
  | none =>
    let u :=
      if !reflect.DeepEqual g.out.Subnets allSubnets
          || !reflect.DeepEqual g.out.SecGroup config.SecurityGroupIds then
        upgradeConfig e config g.calls
      else
        (none, g.calls)
    match u.1 with
    | some err => { out := EksClusterOutput.zero, err := some err, calls := u.2 }
    | none =>
      let v :=
        if config.Version ≠ g.out.Version then
          upgradeVersion e config u.2
        else
          (none, u.2)
      match v.1 with
      | some err => { out := EksClusterOutput.zero, err := some err, calls := v.2 }
      | none => getCluster e config.Name v.2

/-- Method `createCluster` of the source. -/
def createCluster (e : EksClient) (config : EksClusterConfig) (calls : List EksCall) :
    Returned :=
  let allSubnets := append config.PublicSubnets config.PrivateSubnets.elems
  let input : CreateClusterInput :=
    { Name := config.Name
      Version := config.Version
      RoleArn := config.RoleArn
      ResourcesVpcConfig :=
        { SecurityGroupIds := config.SecurityGroupIds.elems
          SubnetIds := allSubnets.elems
          EndpointPrivateAccess := config.EndpointPrivateAccess
          EndpointPublicAccess := config.EndpointPublicAccess }
      LoggingTypes := ["api", "audit", "authenticator", "controllerManager", "scheduler"] }
  let calls1 := calls ++ [EksCall.CreateCluster input]
  match e.CreateCluster calls input with
  | Except.error err =>
    match err.aerr with
    | some (code, message) =>
      if code = eks.ErrCodeResourceInUseException then
        createCluster.inUse e config allSubnets calls1
      else
        { out := EksClusterOutput.zero
          err := some ("unable to create the eks cluster: " ++ message), calls := calls1 }
    | none =>
      { out := EksClusterOutput.zero
        err := some ("unable to create the eks cluster - : " ++ err.Error), calls := calls1 }
  | Except.ok cluster =>
    { out := { EksClusterOutput.zero with
               Arn := aws.StringValue cluster.Arn
               Endpoint := aws.StringValue cluster.Endpoint
               CertificateAuthorityData := aws.StringValue cluster.CertificateAuthorityData }
      err := none, calls := calls1 }

/-! ## Concrete clients -/

/-- EC2 client on which every call succeeds. -/
def obligingEc2 : Ec2Client where
  DeleteTags := fun _ _ _ => none

/-- EC2 client on which the deletion of tags fails for the subnet `bad` and succeeds for
every other resource. -/
def failingEc2 (bad : String) : Ec2Client where
  DeleteTags := fun _ _ resources =>
    if bad ∈ resources then
      some { Error := "InvalidID: The ID " ++ bad ++ " is not valid"
             aerr := some ("InvalidID", "The ID " ++ bad ++ " is not valid") }
    else none

/-- EKS client of an account that holds the cluster `cluster`: a creation is refused
because the cluster exists, a description answers with the cluster, and every update
succeeds. -/
def existing (cluster : Cluster) : EksClient where
  CreateCluster := fun _ input =>
    Except.error { Error := "ResourceInUseException: Cluster already exists with name: "
                              ++ input.Name
                   aerr := some ("ResourceInUseException",
                                 "Cluster already exists with name: " ++ input.Name) }
  DescribeCluster := fun _ _ => Except.ok cluster
  UpdateClusterConfig := fun _ _ => none
  UpdateClusterVersion := fun _ _ _ => none

/-- Cluster with two subnets, no security group of its own, and version 1.14. -/
def demoCluster : Cluster :=
  { Arn := some "arn:aws:eks:us-west-2:1234567891:cluster/demo"
    Endpoint := some "https://demo.eks.amazonaws.com"
    CertificateAuthorityData := some "LS0tLS1CRUdJTg=="
    OidcIssuer := some "https://oidc.eks.us-west-2.amazonaws.com/id/demo"
    SubnetIds := [some "subnet-1", some "subnet-2"]
    SecurityGroupIds := []
    Version := some "1.14" }

/-- Config that the handler builds from an event with one public subnet, one private
subnet and an empty list of security groups. -/
def demoConfig : EksClusterConfig :=
  { Name := "demo"
    RoleArn := "arn:aws:iam::1234567891:role/eks"
    Version := "1.14"
    PrivateSubnets := sliceOf ["subnet-2"]
    PublicSubnets := sliceOf ["subnet-1"]
    SecurityGroupIds := sliceOf []
    EndpointPublicAccess := true
    EndpointPrivateAccess := false }

end EksCluster

namespace PostProcessKafka

open Sdk

/-! ## The probe and the two loops -/

variable {σ : Type}

theorem code_eq_some {r : CreateTopicsResult} {c : Int} (h : r.code = some c) :
    ∃ n val rest, r = CreateTopicsResult.ok { TopicErrors := (n, val) :: rest } ∧ val.Err = c := by
  cases r with
  | error e => simp [CreateTopicsResult.code] at h
  | ok response =>
    obtain ⟨errs⟩ := response
    cases errs with
    | nil => simp [CreateTopicsResult.code] at h
    | cons hd tl =>
      obtain ⟨n, val⟩ := hd
      simp [CreateTopicsResult.code] at h
      exact ⟨n, val, tl, rfl, h⟩

theorem attempts_append (a b : List Event) : attempts (a ++ b) = attempts a ++ attempts b := by
  simp [attempts, List.filterMap_append]

/-- A probe that is answered: the trace and the session after it. -/
theorem createKafkaTopic_answered (net : Sarama σ) (k : Kafka) (b : String)
    (conf : kafkaTopicConfig) (w : World σ) (code : Int)
    (hconn : net.Connects b) (hname : conf.Name ≠ "") (hans : net.Answers b code) :
    attempts (createKafkaTopic net k b conf w).w.trace
        = attempts w.trace ++ [(b, createTopicsRequest conf)]
      ∧ (code = NOT_CONTROLLER →
          (createKafkaTopic net k b conf w).err = none ∧ (createKafkaTopic net k b conf w).k = k)
      ∧ (code = SUCCESS ∨ code = TOPIC_ALREADY_EXISTS →
          (createKafkaTopic net k b conf w).err = none
            ∧ (createKafkaTopic net k b conf w).k = { k with BrokerController := b }) := by
  have h1 := (hconn w.st).1
  have h2 := (hconn (net.Open b w.st).2).2
  obtain ⟨n, val, rest, hr, hval⟩ := code_eq_some
    (hans conf (net.Connected b (net.Open b w.st).2).2)
  simp only [createKafkaTopic, World.record, h1, h2, hname, if_false, hr,
    createKafkaTopic.topicErrors, hval]
  refine ⟨?_, ?_, ?_⟩
  · split_ifs <;> simp [attempts, List.filterMap_append]
  · intro hc; simp [hc]
  · intro hc
    rcases hc with hc | hc <;> simp [hc, NOT_CONTROLLER, SUCCESS, TOPIC_ALREADY_EXISTS]

theorem createKafkaTopic_frame (net : Sarama σ) (k : Kafka) (b : String)
    (conf : kafkaTopicConfig) (w : World σ) :
    (createKafkaTopic net k b conf w).k = k
      ∨ (createKafkaTopic net k b conf w).k = { k with BrokerController := b } := by
  simp only [createKafkaTopic]
  split
  · exact Or.inl rfl
  · split
    · exact Or.inl rfl
    · split
      · exact Or.inl rfl
      · split
        · exact Or.inl rfl
        · rename_i response _
          rcases h : response.TopicErrors with _ | ⟨⟨n, val⟩, rest⟩
          · exact Or.inl rfl
          · simp only [createKafkaTopic.topicErrors]
            split_ifs <;> simp

theorem topics_notController (net : Sarama σ) (b : String) (hconn : net.Connects b)
    (hans : net.Answers b NOT_CONTROLLER) (ts : List kafkaTopicConfig) :
    ∀ (k : Kafka) (w : World σ), k.BrokerController = "" → (∀ t ∈ ts, t.Name ≠ "") →
      (createTopic.topics net b ts k w).err = none
        ∧ (createTopic.topics net b ts k w).k = k
        ∧ attempts (createTopic.topics net b ts k w).w.trace
            = attempts w.trace ++ ts.map fun t => (b, createTopicsRequest t) := by
  induction ts with
  | nil => intro k w _ _; simp [createTopic.topics]
  | cons t rest ih =>
    intro k w hk hn
    have hp := createKafkaTopic_answered net k b t w NOT_CONTROLLER hconn
      (hn t (List.mem_cons_self _ _)) hans
    obtain ⟨ha, h41, -⟩ := hp
    obtain ⟨he, hk2⟩ := h41 rfl
    have ih2 := ih (createKafkaTopic net k b t w).k (createKafkaTopic net k b t w).w
      (by rw [hk2]; exact hk) (fun t ht => hn t (List.mem_cons_of_mem _ ht))
    simp only [createTopic.topics, hk, ne_eq, not_true_eq_false, false_and, if_false, he]
    rw [hk2] at ih2 ⊢
    refine ⟨ih2.1, ih2.2.1, ?_⟩
    rw [ih2.2.2, ha]; simp

theorem topics_controller (net : Sarama σ) (b : String) (code : Int) (hconn : net.Connects b)
    (hcode : code = SUCCESS ∨ code = TOPIC_ALREADY_EXISTS)
    (hans : net.Answers b code) (hb : b ≠ "") (ts : List kafkaTopicConfig) :
    ∀ (k : Kafka) (w : World σ), (k.BrokerController = "" ∨ k.BrokerController = b) →
      (∀ t ∈ ts, t.Name ≠ "") →
      (createTopic.topics net b ts k w).err = none
        ∧ (createTopic.topics net b ts k w).k
            = (if ts = [] then k else { k with BrokerController := b })
        ∧ attempts (createTopic.topics net b ts k w).w.trace
            = attempts w.trace ++ ts.map fun t => (b, createTopicsRequest t) := by
  induction ts with
  | nil => intro k w _ _; simp [createTopic.topics]
  | cons t rest ih =>
    intro k w hk hn
    obtain ⟨ha, -, h0⟩ := createKafkaTopic_answered net k b t w code hconn
      (hn t (List.mem_cons_self _ _)) hans
    obtain ⟨he, hk2⟩ := h0 hcode
    have ih2 := ih (createKafkaTopic net k b t w).k (createKafkaTopic net k b t w).w
      (by rw [hk2]; exact Or.inr rfl) (fun t ht => hn t (List.mem_cons_of_mem _ ht))
    have hstep : createTopic.topics net b (t :: rest) k w
        = createTopic.topics net b rest (createKafkaTopic net k b t w).k
            (createKafkaTopic net k b t w).w := by
      rcases hk with hk | hk
      · simp only [createTopic.topics, hk, ne_eq, not_true_eq_false, false_and, if_false, he]
      · have hkb : k.BrokerController ≠ "" := by rw [hk]; exact hb
        simp only [createTopic.topics, hk, ne_eq, hb, not_false_eq_true, and_self, if_true, he]
    rw [hstep]
    refine ⟨ih2.1, ?_, ?_⟩
    · rw [ih2.2.1, hk2]; by_cases hr : rest = [] <;> simp [hr]
    · rw [ih2.2.2, ha]; simp

theorem brokers_skip (net : Sarama σ) (bs : List String) (k : Kafka) (w : World σ)
    (hk : k.BrokerController ≠ "") (hbs : ∀ b ∈ bs, b ≠ k.BrokerController) :
    createTopic.brokers net bs k w = { err := none, k := k, w := w } := by
  induction bs with
  | nil => rfl
  | cons b rest ih =>
    have hb := hbs b (List.mem_cons_self _ _)
    simp only [createTopic.brokers, ne_eq, hk, not_false_eq_true, hb, and_self, if_true]
    exact ih (fun b hb => hbs b (List.mem_cons_of_mem _ hb))

theorem brokers_noTopics (net : Sarama σ) (bs : List String) (k : Kafka) (w : World σ)
    (hk : k.Topics = []) :
    createTopic.brokers net bs k w = { err := none, k := k, w := w } := by
  induction bs with
  | nil => rfl
  | cons b rest ih =>
    simp only [createTopic.brokers, hk, createTopic.topics]
    split_ifs
    · exact ih
    · exact ih

theorem brokers_notController (net : Sarama σ) (bs : List String)
    (hconn : ∀ b ∈ bs, net.Connects b) (hans : ∀ b ∈ bs, net.Answers b NOT_CONTROLLER)
    (k : Kafka) (hk : k.BrokerController = "") (hn : ∀ t ∈ k.Topics, t.Name ≠ "") :
    ∀ w : World σ,
      (createTopic.brokers net bs k w).err = none
        ∧ (createTopic.brokers net bs k w).k = k
        ∧ attempts (createTopic.brokers net bs k w).w.trace
            = attempts w.trace
                ++ bs.flatMap fun b => k.Topics.map fun t => (b, createTopicsRequest t) := by
  induction bs with
  | nil => intro w; simp [createTopic.brokers]
  | cons b rest ih =>
    intro w
    obtain ⟨he, hk2, ha⟩ := topics_notController net b (hconn b (List.mem_cons_self _ _))
      (hans b (List.mem_cons_self _ _)) k.Topics k w hk hn
    have ih2 := ih (fun b hb => hconn b (List.mem_cons_of_mem _ hb))
      (fun b hb => hans b (List.mem_cons_of_mem _ hb)) (createTopic.topics net b k.Topics k w).w
    simp only [createTopic.brokers, hk, ne_eq, not_true_eq_false, false_and, if_false, he, hk2]
    refine ⟨ih2.1, ih2.2.1, ?_⟩
    rw [ih2.2.2, ha]; simp

theorem brokers_append (net : Sarama σ) (l1 l2 : List String) :
    ∀ (k : Kafka) (w : World σ), (createTopic.brokers net l1 k w).err = none →
      createTopic.brokers net (l1 ++ l2) k w
        = createTopic.brokers net l2 (createTopic.brokers net l1 k w).k
            (createTopic.brokers net l1 k w).w := by
  induction l1 with
  | nil => intro k w _; rfl
  | cons b rest ih =>
    intro k w h
    simp only [List.cons_append, createTopic.brokers] at h ⊢
    split_ifs at h ⊢ with hg
    · exact ih k w h
    · cases hr : (createTopic.topics net b k.Topics k w).err with
      | some e => simp [hr] at h
      | none =>
        simp only [hr] at h ⊢
        exact ih _ _ h

/-- Discovery with the controller at the head of what remains after the brokers `pre`. -/
theorem brokers_discover (net : Sarama σ) (pre post : List String) (c : String)
    (k : Kafka) (w : World σ)
    (hk : k.BrokerController = "") (hn : ∀ t ∈ k.Topics, t.Name ≠ "")
    (hc : c ≠ "") (hpost : c ∉ post)
    (hconn : ∀ b ∈ pre ++ [c], net.Connects b)
    (hpre : ∀ b ∈ pre, net.Answers b NOT_CONTROLLER)
    (hat : net.Answers c SUCCESS) :
    (createTopic.brokers net (pre ++ c :: post) k w).err = none
      ∧ (createTopic.brokers net (pre ++ c :: post) k w).k
          = (if k.Topics = [] then k else { k with BrokerController := c })
      ∧ attempts (createTopic.brokers net (pre ++ c :: post) k w).w.trace
          = attempts w.trace
              ++ (pre ++ [c]).flatMap fun b => k.Topics.map fun t => (b, createTopicsRequest t) := by
  by_cases ht : k.Topics = []
  · rw [brokers_noTopics net _ k w ht]; simp [ht]
  · obtain ⟨he, hk1, ha⟩ := brokers_notController net pre
      (fun b hb => hconn b (List.mem_append_left _ hb)) hpre k hk hn w
    rw [brokers_append net pre (c :: post) k w he, hk1]
    obtain ⟨he2, hk2, ha2⟩ := topics_controller net c SUCCESS
      (hconn c (by simp)) (Or.inl rfl) hat hc k.Topics k
      (createTopic.brokers net pre k w).w (Or.inl hk) hn
    simp only [ht, if_false] at hk2 ⊢
    simp only [createTopic.brokers, hk, ne_eq, not_true_eq_false, false_and, if_false, he2, hk2]
    rw [brokers_skip net post _ _ (by simpa using hc)
      (by intro b hb hbc; simp at hbc; exact hpost (hbc ▸ hb))]
    refine ⟨rfl, rfl, ?_⟩
    simp only []
    rw [ha2, ha]; simp
/-! ## Discovery of the controller -/

/-- C1: from a session without a known controller, over distinct non-empty broker
addresses of which those before position `c` answer not controller and the one at `c`
answers success, `createTopic` sends one creation request per topic to each of the
addresses up to and including `c`, in address order, none to a later address, and
returns no error. -/
theorem createTopic_discovers_controller (net : Sarama σ) (k : Kafka) (w : World σ)
    (bs : List String) (c : Nat)
    (hbs : strings.Split k.BrokerConn ',' = bs)
    (hstart : k.BrokerController = "")
    (hnames : ∀ t ∈ k.Topics, t.Name ≠ "")
    (hnodup : bs.Nodup) (hne : ∀ b ∈ bs, b ≠ "") (hc : c < bs.length)
    (hconn : ∀ b ∈ bs.take (c + 1), net.Connects b)
    (hbefore : ∀ b ∈ bs.take c, net.Answers b NOT_CONTROLLER)
    (hat : net.Answers (bs.get ⟨c, hc⟩) SUCCESS) :
    (createTopic net k w).err = none
      ∧ attempts (createTopic net k w).w.trace
          = attempts w.trace
              ++ (bs.take (c + 1)).flatMap fun b =>
                  k.Topics.map fun t => (b, createTopicsRequest t) := by
  have hsplit : bs = bs.take c ++ bs.get ⟨c, hc⟩ :: bs.drop (c + 1) := by
    conv_lhs => rw [← List.take_append_drop c bs]
    rw [List.drop_eq_getElem_cons hc]; rfl
  have htake : bs.take (c + 1) = bs.take c ++ [bs.get ⟨c, hc⟩] := by
    rw [List.take_succ, List.getElem?_eq_getElem hc]; rfl
  have hnd := hnodup
  rw [hsplit, List.nodup_append] at hnd
  have hpost : bs.get ⟨c, hc⟩ ∉ bs.drop (c + 1) := (List.nodup_cons.1 hnd.2.1).1
  have h := brokers_discover net (bs.take c) (bs.drop (c + 1)) (bs.get ⟨c, hc⟩) k w hstart
    hnames (hne _ (List.get_mem bs c hc)) hpost (by rw [← htake]; exact hconn) hbefore hat
  rw [← hsplit, ← htake] at h
  unfold createTopic
  rw [hbs]
  exact ⟨h.1, h.2.2⟩

/-- Witness of C1: two brokers, the second of which is the controller, and two topics. -/
theorem createTopic_discovers_controller_witness :
    strings.Split twoBrokers.BrokerConn ',' = ["b1:9094", "b2:9094"]
      ∧ (createTopic (scripted secondIsController) twoBrokers fresh).err = none
      ∧ attempts (createTopic (scripted secondIsController) twoBrokers fresh).w.trace
          = attempts fresh.trace
              ++ (["b1:9094", "b2:9094"].take (1 + 1)).flatMap fun b =>
                  twoBrokers.Topics.map fun t => (b, createTopicsRequest t) :=
  ⟨by decide,
   createTopic_discovers_controller (scripted secondIsController) twoBrokers fresh
    ["b1:9094", "b2:9094"] 1 (by decide) rfl (by decide) (by decide) (by decide) (by decide)
    (fun _ _ _ => ⟨rfl, rfl⟩)
    (fun b hb conf st => by
      have hb1 : b = "b1:9094" := by simpa using hb
      subst hb1; rfl)
    (fun conf st => rfl)⟩


/-! ## A sweep that finds no controller -/

theorem createKafkaTopic_notAccepted (net : Sarama σ) (k : Kafka) (b : String)
    (conf : kafkaTopicConfig) (w : World σ)
    (hconn : net.Connects b) (hname : conf.Name ≠ "") (hans : net.Answers b NOT_CONTROLLER) :
    ∀ e ∈ (createKafkaTopic net k b conf w).w.trace, e.accepted = true → e ∈ w.trace := by
  have h1 := (hconn w.st).1
  have h2 := (hconn (net.Open b w.st).2).2
  have h3 := hans conf (net.Connected b (net.Open b w.st).2).2
  obtain ⟨n, val, rest, hr, hval⟩ := code_eq_some h3
  simp only [createKafkaTopic, World.record, h1, h2, hname, if_false, hr,
    createKafkaTopic.topicErrors, hval, if_true]
  intro e he hacc
  simp only [List.append_assoc, List.mem_append, List.mem_cons, List.mem_singleton,
    List.not_mem_nil, or_false] at he
  rcases he with he | he | he | he
  · exact he
  · subst he; simp [Event.accepted] at hacc
  · subst he; simp [Event.accepted] at hacc
  · subst he
    simp [Event.accepted, CreateTopicsResult.code, hval, NOT_CONTROLLER, SUCCESS,
      TOPIC_ALREADY_EXISTS] at hacc

theorem topics_notAccepted (net : Sarama σ) (b : String) (hconn : net.Connects b)
    (hans : net.Answers b NOT_CONTROLLER) (ts : List kafkaTopicConfig) :
    ∀ (k : Kafka) (w : World σ), k.BrokerController = "" → (∀ t ∈ ts, t.Name ≠ "") →
      ∀ e ∈ (createTopic.topics net b ts k w).w.trace, e.accepted = true → e ∈ w.trace := by
  induction ts with
  | nil => intro k w _ _ e he _; exact he
  | cons t rest ih =>
    intro k w hk hn e he hacc
    obtain ⟨-, h41, -⟩ := createKafkaTopic_answered net k b t w NOT_CONTROLLER hconn
      (hn t (List.mem_cons_self _ _)) hans
    obtain ⟨her, hk2⟩ := h41 rfl
    simp only [createTopic.topics, hk, ne_eq, not_true_eq_false, false_and, if_false, her] at he
    exact createKafkaTopic_notAccepted net k b t w hconn (hn t (List.mem_cons_self _ _)) hans e
      (ih _ _ (by rw [hk2]; exact hk) (fun t ht => hn t (List.mem_cons_of_mem _ ht)) e he hacc)
      hacc

theorem brokers_notAccepted (net : Sarama σ) (bs : List String)
    (hconn : ∀ b ∈ bs, net.Connects b) (hans : ∀ b ∈ bs, net.Answers b NOT_CONTROLLER)
    (k : Kafka) (hk : k.BrokerController = "") (hn : ∀ t ∈ k.Topics, t.Name ≠ "") :
    ∀ w : World σ, ∀ e ∈ (createTopic.brokers net bs k w).w.trace,
      e.accepted = true → e ∈ w.trace := by
  induction bs with
  | nil => intro w e he _; exact he
  | cons b rest ih =>
    intro w e he hacc
    obtain ⟨her, hk2, -⟩ := topics_notController net b (hconn b (List.mem_cons_self _ _))
      (hans b (List.mem_cons_self _ _)) k.Topics k w hk hn
    simp only [createTopic.brokers, hk, ne_eq, not_true_eq_false, false_and, if_false, her,
      hk2] at he
    exact topics_notAccepted net b (hconn b (List.mem_cons_self _ _))
      (hans b (List.mem_cons_self _ _)) k.Topics k w hk hn e
      (ih (fun b hb => hconn b (List.mem_cons_of_mem _ hb))
        (fun b hb => hans b (List.mem_cons_of_mem _ hb)) _ e he hacc) hacc

/-- C10: when every connection opens and every creation request is answered not
controller, `createTopic` probes every broker address with every topic, returns no error
and leaves the controller handle unknown, no request of the run having been accepted. -/
theorem createTopic_full_sweep (net : Sarama σ) (k : Kafka) (w : World σ)
    (hstart : k.BrokerController = "")
    (hnames : ∀ t ∈ k.Topics, t.Name ≠ "")
    (hconn : ∀ b ∈ strings.Split k.BrokerConn ',', net.Connects b)
    (hans : ∀ b ∈ strings.Split k.BrokerConn ',', net.Answers b NOT_CONTROLLER) :
    (createTopic net k w).err = none
      ∧ (createTopic net k w).k.BrokerController = ""
      ∧ attempts (createTopic net k w).w.trace
          = attempts w.trace
              ++ (strings.Split k.BrokerConn ',').flatMap (fun b =>
                  k.Topics.map fun t => (b, createTopicsRequest t))
      ∧ ∀ e ∈ (createTopic net k w).w.trace, e.accepted = true → e ∈ w.trace := by
  obtain ⟨he, hk, ha⟩ := brokers_notController net _ hconn hans k hstart hnames w
  refine ⟨he, ?_, ha, brokers_notAccepted net _ hconn hans k hstart hnames w⟩
  unfold createTopic
  rw [hk]; exact hstart

/-- Witness of C10: two brokers that both answer not controller. -/
theorem createTopic_full_sweep_witness :
    (createTopic (scripted fun _ => NOT_CONTROLLER) twoBrokers fresh).err = none
      ∧ (createTopic (scripted fun _ => NOT_CONTROLLER) twoBrokers fresh).k.BrokerController = ""
      ∧ attempts (createTopic (scripted fun _ => NOT_CONTROLLER) twoBrokers fresh).w.trace
          = attempts fresh.trace
              ++ (strings.Split twoBrokers.BrokerConn ',').flatMap (fun b =>
                  twoBrokers.Topics.map fun t => (b, createTopicsRequest t))
      ∧ ∀ e ∈ (createTopic (scripted fun _ => NOT_CONTROLLER) twoBrokers fresh).w.trace,
          e.accepted = true → e ∈ fresh.trace :=
  createTopic_full_sweep (scripted fun _ => NOT_CONTROLLER) twoBrokers fresh rfl (by decide)
    (fun _ _ _ => ⟨rfl, rfl⟩) (fun _ _ _ _ => rfl)


/-! ## Requests per topic -/

theorem attemptsOn_append (name : String) (a b : List Event) :
    attemptsOn name (a ++ b) = attemptsOn name a ++ attemptsOn name b := by
  simp [attemptsOn, attempts_append]

theorem requests_other_name (b name : String) (ts : List kafkaTopicConfig)
    (h : name ∉ ts.map kafkaTopicConfig.Name) :
    ((ts.map fun t => (b, createTopicsRequest t)).filter
      fun a => a.2.TopicDetails.map Prod.fst = [name]) = [] := by
  induction ts with
  | nil => rfl
  | cons t rest ih =>
    simp only [List.map_cons, List.mem_cons, not_or] at h
    have hne : ¬ t.Name = name := fun e => h.1 e.symm
    have hd : decide ((b, createTopicsRequest t).2.TopicDetails.map Prod.fst = [name])
        = false := by simp [createTopicsRequest, hne]
    rw [List.map_cons, List.filter_cons, hd]
    exact ih h.2

theorem requests_of_name (b : String) (ts : List kafkaTopicConfig) (t0 : kafkaTopicConfig)
    (hnd : (ts.map kafkaTopicConfig.Name).Nodup) (hmem : t0 ∈ ts) :
    (((ts.map fun t => (b, createTopicsRequest t)).filter
      fun a => a.2.TopicDetails.map Prod.fst = [t0.Name]).map Prod.fst) = [b] := by
  induction ts with
  | nil => simp at hmem
  | cons t rest ih =>
    simp only [List.map_cons, List.nodup_cons] at hnd
    by_cases hname : t.Name = t0.Name
    · have hrest := requests_other_name b t0.Name rest (hname ▸ hnd.1)
      have hd : decide ((b, createTopicsRequest t).2.TopicDetails.map Prod.fst = [t0.Name])
          = true := by simp [createTopicsRequest, hname]
      rw [List.map_cons, List.filter_cons, hd, if_pos rfl, hrest]
      rfl
    · have hmem2 : t0 ∈ rest := by
        rcases List.mem_cons.1 hmem with h | h
        · exact absurd (h ▸ rfl) hname
        · exact h
      have hd : decide ((b, createTopicsRequest t).2.TopicDetails.map Prod.fst = [t0.Name])
          = false := by simp [createTopicsRequest, hname]
      rw [List.map_cons, List.filter_cons, hd]
      exact ih hnd.2 hmem2

theorem attemptsOn_sweep (bs : List String) (ts : List kafkaTopicConfig) (t0 : kafkaTopicConfig)
    (hnd : (ts.map kafkaTopicConfig.Name).Nodup) (hmem : t0 ∈ ts) :
    (((bs.flatMap fun b => ts.map fun t => (b, createTopicsRequest t)).filter
      fun a => a.2.TopicDetails.map Prod.fst = [t0.Name]).map Prod.fst) = bs := by
  induction bs with
  | nil => rfl
  | cons b rest ih =>
    rw [List.flatMap_cons, List.filter_append, List.map_append, ih,
      requests_of_name b ts t0 hnd hmem]
    rfl

/-- C2, as the code has it: under the hypotheses of the discovery, every topic of the
list, a later one like the first, receives one creation request at each broker address up
to and including position `c`, in address order, and none at a later address; a later
topic is probed at the addresses before `c` again. -/
theorem createTopic_probes_each_topic (net : Sarama σ) (k : Kafka) (w : World σ)
    (bs : List String) (c : Nat) (t : kafkaTopicConfig)
    (hbs : strings.Split k.BrokerConn ',' = bs)
    (hstart : k.BrokerController = "")
    (hnames : ∀ t ∈ k.Topics, t.Name ≠ "")
    (htopics : (k.Topics.map kafkaTopicConfig.Name).Nodup) (ht : t ∈ k.Topics)
    (hnodup : bs.Nodup) (hne : ∀ b ∈ bs, b ≠ "") (hc : c < bs.length)
    (hconn : ∀ b ∈ bs.take (c + 1), net.Connects b)
    (hbefore : ∀ b ∈ bs.take c, net.Answers b NOT_CONTROLLER)
    (hat : net.Answers (bs.get ⟨c, hc⟩) SUCCESS) :
    attemptsOn t.Name (createTopic net k w).w.trace
      = attemptsOn t.Name w.trace ++ bs.take (c + 1) := by
  have hsplit : bs = bs.take c ++ bs.get ⟨c, hc⟩ :: bs.drop (c + 1) := by
    conv_lhs => rw [← List.take_append_drop c bs]
    rw [List.drop_eq_getElem_cons hc]; rfl
  have htake : bs.take (c + 1) = bs.take c ++ [bs.get ⟨c, hc⟩] := by
    rw [List.take_succ, List.getElem?_eq_getElem hc]; rfl
  have hnd := hnodup
  rw [hsplit, List.nodup_append] at hnd
  have hpost : bs.get ⟨c, hc⟩ ∉ bs.drop (c + 1) := (List.nodup_cons.1 hnd.2.1).1
  have h := brokers_discover net (bs.take c) (bs.drop (c + 1)) (bs.get ⟨c, hc⟩) k w hstart
    hnames (hne _ (List.get_mem bs c hc)) hpost (by rw [← htake]; exact hconn) hbefore hat
  rw [← hsplit, ← htake] at h
  unfold createTopic
  rw [hbs]
  unfold attemptsOn
  rw [h.2.2, List.filter_append, List.map_append, attemptsOn_sweep _ _ t htopics ht]

/-- Witness of C2 as amended: the second topic of two, with the controller second. -/
theorem createTopic_probes_each_topic_witness :
    attemptsOn "events" (createTopic (scripted secondIsController) twoBrokers fresh).w.trace
      = attemptsOn "events" fresh.trace ++ ["b1:9094", "b2:9094"].take (1 + 1) :=
  createTopic_probes_each_topic (scripted secondIsController) twoBrokers fresh
    ["b1:9094", "b2:9094"] 1 { Name := "events", ReplicationFactor := 3, NumOfPartitions := 2 }
    (by decide) rfl (by decide) (by decide) (by decide) (by decide) (by decide) (by decide)
    (fun _ _ _ => ⟨rfl, rfl⟩)
    (fun b hb conf st => by
      have hb1 : b = "b1:9094" := by simpa using hb
      subst hb1; rfl)
    (fun conf st => rfl)

/-- C2 fails as stated: with the controller in second position, the second topic receives
two creation requests, the first of them at the broker that is not the controller. -/
theorem later_topic_probed_before_controller :
    (scripted secondIsController).Answers "b1:9094" NOT_CONTROLLER
      ∧ (scripted secondIsController).Answers "b2:9094" SUCCESS
      ∧ attemptsOn "events" (createTopic (scripted secondIsController) twoBrokers fresh).w.trace
          = ["b1:9094", "b2:9094"]
      ∧ attemptsOn "events" (createTopic (scripted secondIsController) twoBrokers fresh).w.trace
          ≠ ["b2:9094"] :=
  ⟨fun _ _ => rfl, fun _ _ => rfl, by decide, by decide⟩


/-! ## One probe -/

theorem createKafkaTopic_other_code (net : Sarama σ) (k : Kafka) (b : String)
    (conf : kafkaTopicConfig) (w : World σ) (code : Int)
    (hopen : (net.Open b w.st).1 = none)
    (hconn : (net.Connected b (net.Open b w.st).2).1 = none)
    (hname : conf.Name ≠ "")
    (hcode : (net.response b conf w.st).code = some code)
    (h41 : code ≠ NOT_CONTROLLER) (h36 : code ≠ TOPIC_ALREADY_EXISTS) (h0 : code ≠ SUCCESS) :
    (createKafkaTopic net k b conf w).err
        = some ("Error occurred while creating the topic. Error code : "
            ++ net.KError_Error code
            ++ ". Check kafka error codes at https://kafka.apache.org/protocol#protocol_error_codes")
      ∧ (createKafkaTopic net k b conf w).k = k := by
  unfold Sarama.response at hcode
  obtain ⟨n, val, rest, hr, hval⟩ := code_eq_some hcode
  simp [createKafkaTopic, World.record, hopen, hconn, hname, hr,
    createKafkaTopic.topicErrors, hval, h41, h36, h0]

theorem topics_stop_at_error (net : Sarama σ) (b : String) (t : kafkaTopicConfig)
    (rest : List kafkaTopicConfig) (k : Kafka) (w : World σ) (e : String)
    (h : (createKafkaTopic net k b t w).err = some e) :
    (createTopic.topics net b (t :: rest) k w).err = some e
      ∧ (createTopic.topics net b (t :: rest) k w).w = (createKafkaTopic net k b t w).w := by
  simp only [createTopic.topics]
  split_ifs with hg
  · rw [← hg.2, h]; simp
  · rw [h]; simp

theorem brokers_stop_at_error (net : Sarama σ) (b : String) (rest : List String) (k : Kafka)
    (w : World σ) (e : String)
    (hj : k.BrokerController = "" ∨ k.BrokerController = b)
    (h : (createTopic.topics net b k.Topics k w).err = some e) :
    (createTopic.brokers net (b :: rest) k w).err = some e
      ∧ (createTopic.brokers net (b :: rest) k w).w
          = (createTopic.topics net b k.Topics k w).w := by
  have hg : ¬ (k.BrokerController ≠ "" ∧ b ≠ k.BrokerController) := by
    rintro ⟨h1, h2⟩
    rcases hj with hj | hj
    · exact h1 hj
    · exact h2 hj.symm
  simp [createTopic.brokers, if_neg hg, h]

set_option maxRecDepth 100000 in
/-- C3 at a failing input: a broker answers code 38 (invalid replication factor).  The
error of `createKafkaTopic` carries the library's text for the code, in which the number
38 does not occur; `createTopic` returns that error after this one creation request. -/
theorem createKafkaTopic_error_text_lacks_code :
    (createKafkaTopic (scripted fun _ => 38) twoBrokers "b1:9094"
        { Name := "orders", ReplicationFactor := 3, NumOfPartitions := 1 } fresh).err
      = some ("Error occurred while creating the topic. Error code : "
          ++ "kafka server: Replication-factor is invalid."
          ++ ". Check kafka error codes at https://kafka.apache.org/protocol#protocol_error_codes")
    ∧ ¬ ("38".toList <:+: ("Error occurred while creating the topic. Error code : "
          ++ "kafka server: Replication-factor is invalid."
          ++ ". Check kafka error codes at https://kafka.apache.org/protocol#protocol_error_codes").toList)
    ∧ (createTopic (scripted fun _ => 38) twoBrokers fresh).err
      = (createKafkaTopic (scripted fun _ => 38) twoBrokers "b1:9094"
          { Name := "orders", ReplicationFactor := 3, NumOfPartitions := 1 } fresh).err
    ∧ attempts (createTopic (scripted fun _ => 38) twoBrokers fresh).w.trace
      = [("b1:9094", createTopicsRequest
          { Name := "orders", ReplicationFactor := 3, NumOfPartitions := 1 })] := by
  refine ⟨by decide, by decide, by decide, by decide⟩

/-- C4 fails as stated: a probe with an empty topic name opens the connection and checks
it before it looks at the name, so its trace holds these two calls. -/
theorem empty_name_opens_connection :
    (createKafkaTopic (scripted fun _ => SUCCESS) twoBrokers "b1:9094"
        { Name := "", ReplicationFactor := 3, NumOfPartitions := 1 } fresh).w.trace
      = [{ controller := "", brokerConn := "b1:9094", call := Call.Open none },
         { controller := "", brokerConn := "b1:9094", call := Call.Connected none }]
    ∧ (createKafkaTopic (scripted fun _ => SUCCESS) twoBrokers "b1:9094"
        { Name := "", ReplicationFactor := 3, NumOfPartitions := 1 } fresh).w.trace ≠ []
    ∧ (createKafkaTopic (scripted fun _ => SUCCESS) twoBrokers "b1:9094"
        { Name := "", ReplicationFactor := 3, NumOfPartitions := 1 } fresh).err
      = some "An empty string was provided for topic name. Exiting." := by
  refine ⟨by decide, by decide, by decide⟩

/-- C4, as the code has it: a probe with an empty topic name returns an error, leaves the
session as it was and sends no creation request; the calls it makes are the opening of
the connection and, when that succeeds, the connectivity check. -/
theorem createKafkaTopic_empty_name (net : Sarama σ) (k : Kafka) (b : String)
    (conf : kafkaTopicConfig) (w : World σ) (hname : conf.Name = "") :
    (createKafkaTopic net k b conf w).err ≠ none
      ∧ (createKafkaTopic net k b conf w).k = k
      ∧ attempts (createKafkaTopic net k b conf w).w.trace = attempts w.trace
      ∧ ((createKafkaTopic net k b conf w).w.trace
            = w.trace ++ [{ controller := k.BrokerController, brokerConn := b,
                            call := Call.Open (net.Open b w.st).1 }]
          ∨ (createKafkaTopic net k b conf w).w.trace
            = w.trace ++ [{ controller := k.BrokerController, brokerConn := b,
                            call := Call.Open none },
                          { controller := k.BrokerController, brokerConn := b,
                            call := Call.Connected (net.Connected b (net.Open b w.st).2).1 }])
      ∧ ((net.Open b w.st).1 = none → (net.Connected b (net.Open b w.st).2).1 = none →
          (createKafkaTopic net k b conf w).err
            = some "An empty string was provided for topic name. Exiting.") := by
  simp only [createKafkaTopic, World.record, hname, if_true]
  cases ho : (net.Open b w.st).1 with
  | some e => simp [attempts, List.filterMap_append]
  | none =>
    cases hc : (net.Connected b (net.Open b w.st).2).1 with
    | some e => simp [attempts, List.filterMap_append]
    | none => simp [attempts, List.filterMap_append]

/-- Witness of C4 as amended: an empty topic name on a broker that connects. -/
theorem createKafkaTopic_empty_name_witness :
    attempts (createKafkaTopic (scripted fun _ => SUCCESS) twoBrokers "b1:9094"
        { Name := "", ReplicationFactor := 3, NumOfPartitions := 1 } fresh).w.trace
      = attempts fresh.trace :=
  (createKafkaTopic_empty_name (scripted fun _ => SUCCESS) twoBrokers "b1:9094"
    { Name := "", ReplicationFactor := 3, NumOfPartitions := 1 } fresh rfl).2.2.1

/-- C5: when the response to the creation request of a probe carries success or topic
already exists, `createKafkaTopic` returns no error and the controller handle of the
session is the broker address that was probed. -/
theorem createKafkaTopic_sets_controller (net : Sarama σ) (k : Kafka) (b : String)
    (conf : kafkaTopicConfig) (w : World σ)
    (hopen : (net.Open b w.st).1 = none)
    (hconn : (net.Connected b (net.Open b w.st).2).1 = none)
    (hname : conf.Name ≠ "")
    (hcode : (net.response b conf w.st).code = some SUCCESS
      ∨ (net.response b conf w.st).code = some TOPIC_ALREADY_EXISTS) :
    (createKafkaTopic net k b conf w).err = none
      ∧ (createKafkaTopic net k b conf w).k.BrokerController = b
      ∧ (createKafkaTopic net k b conf w).k = { k with BrokerController := b } := by
  simp only [createKafkaTopic, World.record, hopen, hconn, hname, if_false]
  unfold Sarama.response at hcode
  rcases hcode with h | h
  · obtain ⟨n, val, rest, hr, hval⟩ := code_eq_some h
    simp [hr, createKafkaTopic.topicErrors, hval, SUCCESS, NOT_CONTROLLER, TOPIC_ALREADY_EXISTS]
  · obtain ⟨n, val, rest, hr, hval⟩ := code_eq_some h
    simp [hr, createKafkaTopic.topicErrors, hval, SUCCESS, NOT_CONTROLLER, TOPIC_ALREADY_EXISTS]

/-- Witness of C5: the controller of `twoBrokers` answers success. -/
theorem createKafkaTopic_sets_controller_witness :
    (createKafkaTopic (scripted secondIsController) twoBrokers "b2:9094"
        { Name := "orders", ReplicationFactor := 3, NumOfPartitions := 1 } fresh).err = none
      ∧ (createKafkaTopic (scripted secondIsController) twoBrokers "b2:9094"
        { Name := "orders", ReplicationFactor := 3, NumOfPartitions := 1 }
          fresh).k.BrokerController = "b2:9094" :=
  have h := createKafkaTopic_sets_controller (scripted secondIsController) twoBrokers "b2:9094"
    { Name := "orders", ReplicationFactor := 3, NumOfPartitions := 1 } fresh rfl rfl
    (by decide) (Or.inl rfl)
  ⟨h.1, h.2.1⟩

/-- C6: `createKafkaTopic` never changes the broker string or the topic list; it changes
the controller handle only when the connection opened, the name was not empty and the
response carried success or topic already exists; whenever it returns an error the
session is as before; and on not controller it returns no error and the session is as
before. -/
theorem createKafkaTopic_frame_controller (net : Sarama σ) (k : Kafka) (b : String)
    (conf : kafkaTopicConfig) (w : World σ) :
    (createKafkaTopic net k b conf w).k.BrokerConn = k.BrokerConn
      ∧ (createKafkaTopic net k b conf w).k.Topics = k.Topics
      ∧ ((createKafkaTopic net k b conf w).k.BrokerController ≠ k.BrokerController →
          (net.Open b w.st).1 = none ∧ (net.Connected b (net.Open b w.st).2).1 = none
            ∧ conf.Name ≠ ""
            ∧ ((net.response b conf w.st).code = some SUCCESS
                ∨ (net.response b conf w.st).code = some TOPIC_ALREADY_EXISTS)
            ∧ (createKafkaTopic net k b conf w).k.BrokerController = b)
      ∧ ((createKafkaTopic net k b conf w).err ≠ none → (createKafkaTopic net k b conf w).k = k)
      ∧ ((net.Open b w.st).1 = none → (net.Connected b (net.Open b w.st).2).1 = none →
          conf.Name ≠ "" → (net.response b conf w.st).code = some NOT_CONTROLLER →
          (createKafkaTopic net k b conf w).err = none
            ∧ (createKafkaTopic net k b conf w).k = k) := by
  simp only [createKafkaTopic, World.record, Sarama.response]
  cases ho : (net.Open b w.st).1 with
  | some e => simp
  | none =>
    cases hc : (net.Connected b (net.Open b w.st).2).1 with
    | some e => simp
    | none =>
      by_cases hname : conf.Name = ""
      · simp [hname]
      · cases hr : (net.CreateTopics b (createTopicsRequest conf)
            (net.Connected b (net.Open b w.st).2).2).1 with
        | error e => simp [hname, CreateTopicsResult.code]
        | ok response =>
          obtain ⟨errs⟩ := response
          rcases errs with _ | ⟨⟨n, val⟩, rest⟩
          · simp [hname, createKafkaTopic.topicErrors, CreateTopicsResult.code]
          · simp only [hname, createKafkaTopic.topicErrors, CreateTopicsResult.code]
            by_cases h41 : val.Err = NOT_CONTROLLER
            · simp [h41]
            · by_cases h36 : val.Err = TOPIC_ALREADY_EXISTS
              · simp [h36, hname, NOT_CONTROLLER, TOPIC_ALREADY_EXISTS]
              · by_cases h0 : val.Err = SUCCESS
                · simp [h0, hname, NOT_CONTROLLER, TOPIC_ALREADY_EXISTS, SUCCESS]
                · simp [h41, h36, h0]


/-! ## Invariants of a run -/

theorem topics_cons (net : Sarama σ) (b : String) (t : kafkaTopicConfig)
    (rest : List kafkaTopicConfig) (k : Kafka) (w : World σ) :
    createTopic.topics net b (t :: rest) k w
      = match (createKafkaTopic net k b t w).err with
        | some err => { err := some err, k := (createKafkaTopic net k b t w).k,
                        w := (createKafkaTopic net k b t w).w }
        | none => createTopic.topics net b rest (createKafkaTopic net k b t w).k
                    (createKafkaTopic net k b t w).w := by
  simp only [createTopic.topics]
  split_ifs with h
  · rw [← h.2]
  · rfl

theorem createKafkaTopic_events (net : Sarama σ) (k : Kafka) (b : String)
    (conf : kafkaTopicConfig) (w : World σ) :
    ∃ evs, (createKafkaTopic net k b conf w).w.trace = w.trace ++ evs
      ∧ ∀ e ∈ evs, e.controller = k.BrokerController ∧ e.brokerConn = b := by
  simp only [createKafkaTopic, World.record]
  split
  · exact ⟨_, rfl, by simp⟩
  · split
    · exact ⟨_, by simp only [List.append_assoc]; rfl, by simp⟩
    · split
      · exact ⟨_, by simp only [List.append_assoc]; rfl, by simp⟩
      · split
        · exact ⟨_, by simp only [List.append_assoc]; rfl, by simp⟩
        · rename_i response _
          rcases response.TopicErrors with _ | ⟨⟨n, val⟩, rest⟩
          · simp only [createKafkaTopic.topicErrors, World.record]
            exact ⟨_, by simp only [List.append_assoc]; rfl, by simp⟩
          · simp only [createKafkaTopic.topicErrors]
            split_ifs <;> exact ⟨_, by simp only [List.append_assoc]; rfl, by simp⟩

theorem topics_preserve (net : Sarama σ) (I : Kafka → World σ → Prop) (b : String)
    (hstep : ∀ k conf w, (k.BrokerController = "" ∨ k.BrokerController = b) → I k w →
      I (createKafkaTopic net k b conf w).k (createKafkaTopic net k b conf w).w)
    (ts : List kafkaTopicConfig) :
    ∀ (k : Kafka) (w : World σ), (k.BrokerController = "" ∨ k.BrokerController = b) → I k w →
      I (createTopic.topics net b ts k w).k (createTopic.topics net b ts k w).w := by
  induction ts with
  | nil => intro k w _ h; exact h
  | cons t rest ih =>
    intro k w hj hi
    rw [topics_cons]
    have h1 := hstep k t w hj hi
    have hj2 : (createKafkaTopic net k b t w).k.BrokerController = ""
        ∨ (createKafkaTopic net k b t w).k.BrokerController = b := by
      rcases createKafkaTopic_frame net k b t w with h | h
      · rw [h]; exact hj
      · rw [h]; exact Or.inr rfl
    cases he : (createKafkaTopic net k b t w).err with
    | some e => exact h1
    | none => exact ih _ _ hj2 h1

theorem brokers_preserve (net : Sarama σ) (I : Kafka → World σ → Prop) (B : String → Prop)
    (hstep : ∀ b k conf w, B b → (k.BrokerController = "" ∨ k.BrokerController = b) → I k w →
      I (createKafkaTopic net k b conf w).k (createKafkaTopic net k b conf w).w)
    (bs : List String) :
    ∀ (k : Kafka) (w : World σ), (∀ b ∈ bs, B b) → I k w →
      I (createTopic.brokers net bs k w).k (createTopic.brokers net bs k w).w := by
  induction bs with
  | nil => intro k w _ h; exact h
  | cons b rest ih =>
    intro k w hB hi
    simp only [createTopic.brokers]
    split_ifs with hg
    · exact ih k w (fun b hb => hB b (List.mem_cons_of_mem _ hb)) hi
    · have hj : k.BrokerController = "" ∨ k.BrokerController = b := by
        by_cases h : k.BrokerController = ""
        · exact Or.inl h
        · right
          by_contra hne
          exact hg ⟨h, fun e => hne e.symm⟩
      have h1 := topics_preserve net I b
        (fun k conf w hj hi => hstep b k conf w (hB b (List.mem_cons_self _ _)) hj hi)
        k.Topics k w hj hi
      cases he : (createTopic.topics net b k.Topics k w).err with
      | some e => exact h1
      | none => exact ih _ _ (fun b hb => hB b (List.mem_cons_of_mem _ hb)) h1

/-- C7: in a run of `createTopic`, every call made on a broker while the controller handle
is known, a creation request in particular, is made on the broker the handle names; and a
broker address that differs from a known handle is passed over with no call at all. -/
theorem createTopic_calls_only_known_controller (net : Sarama σ) (k : Kafka) (st : σ) :
    (∀ e ∈ (createTopic net k { st := st, trace := [] }).w.trace,
        e.controller ≠ "" → e.brokerConn = e.controller)
      ∧ ∀ (b : String) (rest : List String) (k1 : Kafka) (w1 : World σ),
          k1.BrokerController ≠ "" → b ≠ k1.BrokerController →
          createTopic.brokers net (b :: rest) k1 w1 = createTopic.brokers net rest k1 w1 := by
  constructor
  · refine brokers_preserve net
      (fun _ w => ∀ e ∈ w.trace, e.controller ≠ "" → e.brokerConn = e.controller)
      (fun _ => True) ?_ _ k { st := st, trace := [] } (fun _ _ => trivial) (by simp)
    intro b k conf w _ hj hi e he hne
    obtain ⟨evs, htr, hev⟩ := createKafkaTopic_events net k b conf w
    rw [htr, List.mem_append] at he
    rcases he with he | he
    · exact hi e he hne
    · obtain ⟨hc, hb⟩ := hev e he
      rw [hc] at hne ⊢
      rcases hj with hj | hj
      · exact absurd hj hne
      · rw [hb, hj]
  · intro b rest k1 w1 h1 h2
    simp only [createTopic.brokers, ne_eq, h1, not_false_eq_true, h2, and_self, if_true]


theorem firstAccepted_snoc_plain (tr : List Event) (e : Event) (h : e.accepted = false) :
    firstAccepted (tr ++ [e]) = firstAccepted tr := by
  unfold firstAccepted
  rw [List.find?_append, List.find?_singleton, h]
  cases List.find? Event.accepted tr <;> simp

theorem firstAccepted_append_some (tr post : List Event) (b : String)
    (h : firstAccepted tr = some b) : firstAccepted (tr ++ post) = some b := by
  unfold firstAccepted at h ⊢
  rw [List.find?_append]
  cases hf : List.find? Event.accepted tr with
  | none => simp [hf] at h
  | some e => simpa [hf] using h

theorem consistent_snoc (tr : List Event) (e : Event) (hc : Consistent tr)
    (he : e.controller = handleOf (firstAccepted tr)) : Consistent (tr ++ [e]) := by
  intro pre e1 post heq
  rcases List.eq_nil_or_concat' post with hp | ⟨L, x, hp⟩
  · subst hp
    obtain ⟨h1, h2⟩ := List.append_inj' heq rfl
    simp only [List.cons.injEq, and_true] at h2
    rw [← h1, ← h2]; exact he
  · subst hp
    have heq2 : tr ++ [e] = (pre ++ e1 :: L) ++ [x] := by simpa using heq
    obtain ⟨h1, -⟩ := List.append_inj' heq2 rfl
    exact hc pre e1 L h1

theorem sessionInv_snoc_plain (h : String) (tr : List Event) (e : Event)
    (hi : SessionInv h tr) (hc : e.controller = h) (hb : e.brokerConn ≠ "")
    (ha : e.accepted = false) : SessionInv h (tr ++ [e]) := by
  obtain ⟨h1, h2, h3⟩ := hi
  refine ⟨?_, consistent_snoc tr e h2 (hc.trans h1), ?_⟩
  · rw [firstAccepted_snoc_plain tr e ha]; exact h1
  · intro e1 he1
    rcases List.mem_append.1 he1 with h | h
    · exact h3 e1 h
    · rw [List.mem_singleton.1 h]; exact hb

theorem sessionInv_snoc_accepted (h : String) (tr : List Event) (e : Event)
    (hi : SessionInv h tr) (hc : e.controller = h) (hb : e.brokerConn ≠ "")
    (ha : e.accepted = true) (hj : h = "" ∨ h = e.brokerConn) :
    SessionInv e.brokerConn (tr ++ [e]) := by
  obtain ⟨h1, h2, h3⟩ := hi
  refine ⟨?_, consistent_snoc tr e h2 (hc.trans h1), ?_⟩
  · cases hf : firstAccepted tr with
    | some b =>
      rw [firstAccepted_append_some tr [e] b hf]
      rw [hf] at h1
      simp only [handleOf] at h1 ⊢
      rcases hj with hj | hj
      · exfalso
        unfold firstAccepted at hf
        cases hfind : List.find? Event.accepted tr with
        | none => simp [hfind] at hf
        | some e0 =>
          simp only [hfind, Option.map_some', Option.some.injEq] at hf
          exact h3 e0 (List.mem_of_find?_eq_some hfind) (by rw [hf, ← h1, hj])
      · rw [← h1, hj]
    | none =>
      unfold firstAccepted at hf ⊢
      cases hfind : List.find? Event.accepted tr with
      | some e0 => simp [hfind] at hf
      | none => simp [List.find?_append, hfind, List.find?_singleton, ha, handleOf]
  · intro e1 he1
    rcases List.mem_append.1 he1 with h | h
    · exact h3 e1 h
    · rw [List.mem_singleton.1 h]; exact hb

theorem createKafkaTopic_sessionInv (net : Sarama σ) (k : Kafka) (b : String)
    (conf : kafkaTopicConfig) (w : World σ) (hb : b ≠ "")
    (hj : k.BrokerController = "" ∨ k.BrokerController = b)
    (hi : SessionInv k.BrokerController w.trace) :
    SessionInv (createKafkaTopic net k b conf w).k.BrokerController
      (createKafkaTopic net k b conf w).w.trace := by
  simp only [createKafkaTopic, World.record]
  have i1 := sessionInv_snoc_plain _ _
    { controller := k.BrokerController, brokerConn := b, call := Call.Open (net.Open b w.st).1 }
    hi rfl hb rfl
  split
  · exact i1
  · have i2 := sessionInv_snoc_plain _ _
      { controller := k.BrokerController, brokerConn := b,
        call := Call.Connected (net.Connected b (net.Open b w.st).2).1 } i1 rfl hb rfl
    split
    · exact i2
    · split
      · exact i2
      · split
        · rename_i e hr
          exact sessionInv_snoc_plain _ _ _ i2 rfl hb
            (by simp [Event.accepted, hr, CreateTopicsResult.code])
        · rename_i response hr
          obtain ⟨errs⟩ := response
          rcases errs with _ | ⟨⟨n, val⟩, rest⟩
          · simp only [createKafkaTopic.topicErrors, World.record]
            have i3 := sessionInv_snoc_plain _ _
              { controller := k.BrokerController, brokerConn := b,
                call := Call.CreateTopics (createTopicsRequest conf)
                  (net.CreateTopics b (createTopicsRequest conf)
                    (net.Connected b (net.Open b w.st).2).2).1 } i2 rfl hb
              (by simp [Event.accepted, hr, CreateTopicsResult.code])
            exact sessionInv_snoc_plain _ _
              { controller := k.BrokerController, brokerConn := b, call := Call.Close }
              i3 rfl hb rfl
          · simp only [createKafkaTopic.topicErrors]
            by_cases h41 : val.Err = NOT_CONTROLLER
            · simp only [h41, if_true]
              exact sessionInv_snoc_plain _ _ _ i2 rfl hb
                (by simp [Event.accepted, hr, CreateTopicsResult.code, h41, NOT_CONTROLLER,
                  SUCCESS, TOPIC_ALREADY_EXISTS])
            · by_cases h36 : val.Err = TOPIC_ALREADY_EXISTS
              · simp only [h41, h36, if_true, if_false]
                exact sessionInv_snoc_accepted _ _
                  { controller := k.BrokerController, brokerConn := b,
                    call := Call.CreateTopics (createTopicsRequest conf)
                      (net.CreateTopics b (createTopicsRequest conf)
                        (net.Connected b (net.Open b w.st).2).2).1 } i2 rfl hb
                  (by simp [Event.accepted, hr, CreateTopicsResult.code, h36]) hj
              · by_cases h0 : val.Err = SUCCESS
                · simp only [h41, h36, h0, if_true, if_false]
                  exact sessionInv_snoc_accepted _ _
                    { controller := k.BrokerController, brokerConn := b,
                      call := Call.CreateTopics (createTopicsRequest conf)
                        (net.CreateTopics b (createTopicsRequest conf)
                          (net.Connected b (net.Open b w.st).2).2).1 } i2 rfl hb
                    (by simp [Event.accepted, hr, CreateTopicsResult.code, h0]) hj
                · simp only [h41, h36, h0, if_false]
                  exact sessionInv_snoc_plain _ _ _ i2 rfl hb
                    (by simp [Event.accepted, hr, CreateTopicsResult.code, h36, h0])

theorem createTopic_sessionInv (net : Sarama σ) (k : Kafka) (w : World σ)
    (hne : ∀ b ∈ strings.Split k.BrokerConn ',', b ≠ "")
    (hi : SessionInv k.BrokerController w.trace) :
    SessionInv (createTopic net k w).k.BrokerController (createTopic net k w).w.trace :=
  brokers_preserve net (fun k w => SessionInv k.BrokerController w.trace) (fun b => b ≠ "")
    (fun b k conf w hb hj hi => createKafkaTopic_sessionInv net k b conf w hb hj hi)
    _ k w hne hi

/-- C8: in a session that starts without a known controller, over non-empty broker
addresses, the controller handle is at every call, and at the end of `createTopic`, the
address of the first broker that answered a creation request with success or topic already
exists (unknown while none has); so once a call sees a known handle, every later call sees
the same handle, and so does the end of the run. -/
theorem controller_handle_first_accepted (net : Sarama σ) (k : Kafka) (st : σ)
    (hstart : k.BrokerController = "")
    (hne : ∀ b ∈ strings.Split k.BrokerConn ',', b ≠ "") :
    (createTopic net k { st := st, trace := [] }).k.BrokerController
        = handleOf (firstAccepted (createTopic net k { st := st, trace := [] }).w.trace)
      ∧ (∀ pre e post, (createTopic net k { st := st, trace := [] }).w.trace = pre ++ e :: post →
          e.controller = handleOf (firstAccepted pre))
      ∧ (∀ pre e post, (createTopic net k { st := st, trace := [] }).w.trace = pre ++ e :: post →
          e.controller ≠ "" →
          (∀ e1 ∈ post, e1.controller = e.controller)
            ∧ (createTopic net k { st := st, trace := [] }).k.BrokerController = e.controller) := by
  have hinit : SessionInv k.BrokerController ({ st := st, trace := [] } : World σ).trace := by
    refine ⟨?_, ?_, by simp⟩
    · rw [hstart]; rfl
    · intro pre e post h; simp at h
  obtain ⟨h1, h2, -⟩ := createTopic_sessionInv net k { st := st, trace := [] } hne hinit
  refine ⟨h1, h2, ?_⟩
  intro pre e post htr hknown
  have he := h2 pre e post htr
  obtain ⟨b, hb⟩ : ∃ b, firstAccepted pre = some b := by
    cases hf : firstAccepted pre with
    | none => rw [hf] at he; exact absurd he hknown
    | some b => exact ⟨b, rfl⟩
  have heb : e.controller = b := by rw [he, hb]; rfl
  constructor
  · intro e1 he1
    obtain ⟨p1, p2, hp⟩ := List.mem_iff_append.1 he1
    have htr2 : (createTopic net k { st := st, trace := [] }).w.trace
        = (pre ++ e :: p1) ++ e1 :: p2 := by rw [htr, hp]; simp
    rw [h2 _ e1 p2 htr2, firstAccepted_append_some pre (e :: p1) b hb, heb]; rfl
  · rw [h1, htr, firstAccepted_append_some pre (e :: post) b hb, heb]; rfl

/-- Witness of C8: two brokers, the second of which accepts the first topic. -/
theorem controller_handle_first_accepted_witness :
    (createTopic (scripted secondIsController) twoBrokers fresh).k.BrokerController
        = handleOf (firstAccepted (createTopic (scripted secondIsController) twoBrokers
            fresh).w.trace)
      ∧ (createTopic (scripted secondIsController) twoBrokers fresh).k.BrokerController
        = "b2:9094" :=
  ⟨(controller_handle_first_accepted (scripted secondIsController) twoBrokers () rfl
      (by decide)).1, by decide⟩


/-! ## Idempotence against a cluster -/

theorem cluster_probe_other (c : String) (k : Kafka) (b : String) (conf : kafkaTopicConfig)
    (w : World (List String)) (hname : conf.Name ≠ "") (hb : b ≠ c) :
    createKafkaTopic (cluster c) k b conf w
      = { err := none, k := k
          w := { st := w.st
                 trace := w.trace ++
                  [{ controller := k.BrokerController, brokerConn := b, call := Call.Open none },
                   { controller := k.BrokerController, brokerConn := b,
                     call := Call.Connected none },
                   { controller := k.BrokerController, brokerConn := b,
                     call := Call.CreateTopics (createTopicsRequest conf)
                      (CreateTopicsResult.ok
                        { TopicErrors := [(conf.Name, { Err := NOT_CONTROLLER })] }) }] } } := by
  simp [createKafkaTopic, cluster, World.record, hname, hb, createTopicsRequest,
    createKafkaTopic.topicErrors]

theorem cluster_probe_held (c : String) (k : Kafka) (conf : kafkaTopicConfig)
    (w : World (List String)) (hname : conf.Name ≠ "") (hm : conf.Name ∈ w.st) :
    createKafkaTopic (cluster c) k c conf w
      = { err := none, k := { k with BrokerController := c }
          w := { st := w.st
                 trace := w.trace ++
                  [{ controller := k.BrokerController, brokerConn := c, call := Call.Open none },
                   { controller := k.BrokerController, brokerConn := c,
                     call := Call.Connected none },
                   { controller := k.BrokerController, brokerConn := c,
                     call := Call.CreateTopics (createTopicsRequest conf)
                      (CreateTopicsResult.ok
                        { TopicErrors := [(conf.Name, { Err := TOPIC_ALREADY_EXISTS })] }) }] } } := by
  simp [createKafkaTopic, cluster, World.record, hname, hm, createTopicsRequest,
    createKafkaTopic.topicErrors, TOPIC_ALREADY_EXISTS, NOT_CONTROLLER]

theorem cluster_probe_new (c : String) (k : Kafka) (conf : kafkaTopicConfig)
    (w : World (List String)) (hname : conf.Name ≠ "") (hm : conf.Name ∉ w.st) :
    createKafkaTopic (cluster c) k c conf w
      = { err := none, k := { k with BrokerController := c }
          w := { st := w.st ++ [conf.Name]
                 trace := w.trace ++
                  [{ controller := k.BrokerController, brokerConn := c, call := Call.Open none },
                   { controller := k.BrokerController, brokerConn := c,
                     call := Call.Connected none },
                   { controller := k.BrokerController, brokerConn := c,
                     call := Call.CreateTopics (createTopicsRequest conf)
                      (CreateTopicsResult.ok
                        { TopicErrors := [(conf.Name, { Err := SUCCESS })] }) }] } } := by
  simp [createKafkaTopic, cluster, World.record, hname, hm, createTopicsRequest,
    createKafkaTopic.topicErrors, TOPIC_ALREADY_EXISTS, NOT_CONTROLLER, SUCCESS]

theorem alreadyExistsAt_probe (c b h : String) (tr : List Event) (request : CreateTopicsRequest)
    (result : CreateTopicsResult) (hp : AlreadyExistsAt c tr)
    (hr : b = c → result.code = some TOPIC_ALREADY_EXISTS) :
    AlreadyExistsAt c (tr ++
      [{ controller := h, brokerConn := b, call := Call.Open none },
       { controller := h, brokerConn := b, call := Call.Connected none },
       { controller := h, brokerConn := b, call := Call.CreateTopics request result }]) := by
  intro e he hc req res hcall
  simp only [List.mem_append, List.mem_cons, List.mem_singleton, List.not_mem_nil,
    or_false] at he
  rcases he with he | he | he | he
  · exact hp e he hc req res hcall
  · subst he; simp at hcall
  · subst he; simp at hcall
  · subst he
    simp only [Call.CreateTopics.injEq] at hcall
    rw [← hcall.2]; exact hr hc

theorem cluster_probe (c : String) (k : Kafka) (b : String) (conf : kafkaTopicConfig)
    (w : World (List String)) (hname : conf.Name ≠ "") :
    (createKafkaTopic (cluster c) k b conf w).err = none
      ∧ (createKafkaTopic (cluster c) k b conf w).k
          = (if b = c then { k with BrokerController := b } else k)
      ∧ (∀ n ∈ w.st, n ∈ (createKafkaTopic (cluster c) k b conf w).w.st)
      ∧ (b = c → conf.Name ∈ (createKafkaTopic (cluster c) k b conf w).w.st)
      ∧ attempts (createKafkaTopic (cluster c) k b conf w).w.trace
          = attempts w.trace ++ [(b, createTopicsRequest conf)]
      ∧ (conf.Name ∈ w.st → AlreadyExistsAt c w.trace →
          AlreadyExistsAt c (createKafkaTopic (cluster c) k b conf w).w.trace) := by
  by_cases hb : b = c
  · subst hb
    by_cases hm : conf.Name ∈ w.st
    · rw [cluster_probe_held b k conf w hname hm]
      refine ⟨rfl, by simp, fun n hn => hn, fun _ => hm, ?_, ?_⟩
      · simp [attempts, List.filterMap_append]
      · intro _ hp
        exact alreadyExistsAt_probe b b _ _ _ _ hp (fun _ => rfl)
    · rw [cluster_probe_new b k conf w hname hm]
      refine ⟨rfl, by simp, fun n hn => List.mem_append_left _ hn, fun _ => by simp, ?_, ?_⟩
      · simp [attempts, List.filterMap_append]
      · intro h; exact absurd h hm
  · rw [cluster_probe_other c k b conf w hname hb]
    refine ⟨rfl, by simp [hb], fun n hn => hn, fun h => absurd h hb, ?_, ?_⟩
    · simp [attempts, List.filterMap_append]
    · intro _ hp
      exact alreadyExistsAt_probe c b _ _ _ _ hp (fun h => absurd h hb)


theorem cluster_topics (c b : String) (ts : List kafkaTopicConfig) :
    ∀ (k : Kafka) (w : World (List String)), (∀ t ∈ ts, t.Name ≠ "") →
      (createTopic.topics (cluster c) b ts k w).err = none
        ∧ ((createTopic.topics (cluster c) b ts k w).k = k
            ∨ (b = c ∧ (createTopic.topics (cluster c) b ts k w).k
                = { k with BrokerController := c }))
        ∧ (∀ n ∈ w.st, n ∈ (createTopic.topics (cluster c) b ts k w).w.st)
        ∧ (b = c → ∀ t ∈ ts, t.Name ∈ (createTopic.topics (cluster c) b ts k w).w.st)
        ∧ attempts (createTopic.topics (cluster c) b ts k w).w.trace
            = attempts w.trace ++ ts.map (fun t => (b, createTopicsRequest t))
        ∧ ((∀ t ∈ ts, t.Name ∈ w.st) → AlreadyExistsAt c w.trace →
            AlreadyExistsAt c (createTopic.topics (cluster c) b ts k w).w.trace) := by
  induction ts with
  | nil => intro k w _; simp [createTopic.topics]
  | cons t rest ih =>
    intro k w hn
    obtain ⟨p1, p2, p3, p4, p5, p6⟩ := cluster_probe c k b t w (hn t (List.mem_cons_self _ _))
    obtain ⟨q1, q2, q3, q4, q5, q6⟩ := ih (createKafkaTopic (cluster c) k b t w).k
      (createKafkaTopic (cluster c) k b t w).w (fun t ht => hn t (List.mem_cons_of_mem _ ht))
    rw [topics_cons, p1]
    simp only []
    generalize createKafkaTopic (cluster c) k b t w = r1 at p1 p2 p3 p4 p5 p6 q1 q2 q3 q4 q5 q6 ⊢
    refine ⟨q1, ?_, fun n hn => q3 n (p3 n hn), ?_, ?_, ?_⟩
    · by_cases hb : b = c
      · right
        refine ⟨hb, ?_⟩
        rw [if_pos hb] at p2
        rcases q2 with q2 | q2
        · rw [q2, p2, hb]
        · rw [q2.2, p2]
      · rw [if_neg hb] at p2
        rcases q2 with q2 | q2
        · left; rw [q2, p2]
        · exact absurd q2.1 hb
    · intro hb t1 ht1
      rcases List.mem_cons.1 ht1 with h | h
      · rw [h]; exact q3 _ (p4 hb)
      · exact q4 hb t1 h
    · rw [q5, p5]; simp
    · intro hheld hp
      exact q6 (fun t1 ht1 => p3 _ (hheld t1 (List.mem_cons_of_mem _ ht1)))
        (p6 (hheld t (List.mem_cons_self _ _)) hp)

theorem cluster_brokers (c : String) (T : List kafkaTopicConfig) (hT : ∀ t ∈ T, t.Name ≠ "")
    (bs : List String) :
    ∀ (k : Kafka) (w : World (List String)), k.Topics = T →
      (k.BrokerController = "" ∨ k.BrokerController = c) →
      (createTopic.brokers (cluster c) bs k w).err = none
        ∧ (∀ n ∈ w.st, n ∈ (createTopic.brokers (cluster c) bs k w).w.st)
        ∧ (∀ a ∈ attempts w.trace,
            a ∈ attempts (createTopic.brokers (cluster c) bs k w).w.trace)
        ∧ (c ∈ bs →
            (∀ t ∈ T, t.Name ∈ (createTopic.brokers (cluster c) bs k w).w.st)
              ∧ ∀ t ∈ T, (c, createTopicsRequest t)
                  ∈ attempts (createTopic.brokers (cluster c) bs k w).w.trace)
        ∧ ((∀ t ∈ T, t.Name ∈ w.st) → AlreadyExistsAt c w.trace →
            AlreadyExistsAt c (createTopic.brokers (cluster c) bs k w).w.trace) := by
  induction bs with
  | nil => intro k w _ _; simp [createTopic.brokers]
  | cons b rest ih =>
    intro k w hk hj
    simp only [createTopic.brokers]
    split_ifs with hg
    · obtain ⟨i1, i2, i3, i4, i5⟩ := ih k w hk hj
      refine ⟨i1, i2, i3, ?_, i5⟩
      intro hc
      have hbc : b ≠ c := by
        rcases hj with hj | hj
        · exact absurd hj hg.1
        · rw [← hj]; exact hg.2
      rcases List.mem_cons.1 hc with h | h
      · exact absurd h.symm hbc
      · exact i4 h
    · obtain ⟨q1, q2, q3, q4, q5, q6⟩ := cluster_topics c b k.Topics k w (hk ▸ hT)
      have hk2 : (createTopic.topics (cluster c) b k.Topics k w).k.Topics = T := by
        rcases q2 with q2 | q2
        · rw [q2]; exact hk
        · rw [q2.2]; exact hk
      have hj2 : (createTopic.topics (cluster c) b k.Topics k w).k.BrokerController = ""
          ∨ (createTopic.topics (cluster c) b k.Topics k w).k.BrokerController = c := by
        rcases q2 with q2 | q2
        · rw [q2]; exact hj
        · rw [q2.2]; exact Or.inr rfl
      obtain ⟨i1, i2, i3, i4, i5⟩ := ih _ (createTopic.topics (cluster c) b k.Topics k w).w
        hk2 hj2
      rw [q1]
      refine ⟨i1, fun n hn => i2 n (q3 n hn), ?_, ?_, ?_⟩
      · intro a ha
        exact i3 a (by rw [q5]; exact List.mem_append_left _ ha)
      · intro hc
        rcases List.mem_cons.1 hc with h | h
        · refine ⟨fun t ht => i2 _ (q4 h.symm t (hk ▸ ht)), fun t ht => i3 _ ?_⟩
          rw [q5, hk, ← h]
          exact List.mem_append_right _ (List.mem_map_of_mem _ ht)
        · exact i4 h
      · intro hheld hp
        exact i5 (fun t ht => q3 _ (hheld t ht)) (q6 (hk ▸ hheld) hp)

/-- C9: against a cluster whose controller answers success for a topic it does not hold,
holds it afterwards and answers topic already exists for a topic it holds, while every
other broker answers not controller, two runs of `createTopic` in succession, each from a
session without a known controller, both return no error; in the second run every topic is
sent to the controller, and every answer of the controller is topic already exists. -/
theorem provisioning_idempotent (controller : String) (held : List String) (k : Kafka)
    (hstart : k.BrokerController = "")
    (hspec : ∀ t ∈ k.Topics, t.Name ≠ "" ∧ 0 < t.NumOfPartitions ∧ 0 < t.ReplicationFactor)
    (hmem : controller ∈ strings.Split k.BrokerConn ',') :
    (createTopic (cluster controller) k { st := held, trace := [] }).err = none
      ∧ (createTopic (cluster controller) k
          { st := (createTopic (cluster controller) k { st := held, trace := [] }).w.st,
            trace := [] }).err = none
      ∧ (∀ t ∈ k.Topics, (controller, createTopicsRequest t)
          ∈ attempts (createTopic (cluster controller) k
              { st := (createTopic (cluster controller) k { st := held, trace := [] }).w.st,
                trace := [] }).w.trace)
      ∧ ∀ e ∈ (createTopic (cluster controller) k
          { st := (createTopic (cluster controller) k { st := held, trace := [] }).w.st,
            trace := [] }).w.trace,
          e.brokerConn = controller → ∀ request result,
            e.call = Call.CreateTopics request result →
            result.code = some TOPIC_ALREADY_EXISTS := by
  have hT : ∀ t ∈ k.Topics, t.Name ≠ "" := fun t ht => (hspec t ht).1
  obtain ⟨a1, -, -, a4, -⟩ := cluster_brokers controller k.Topics hT
    (strings.Split k.BrokerConn ',') k { st := held, trace := [] } rfl (Or.inl hstart)
  obtain ⟨b1, -, -, b4, b5⟩ := cluster_brokers controller k.Topics hT
    (strings.Split k.BrokerConn ',') k
    { st := (createTopic (cluster controller) k { st := held, trace := [] }).w.st, trace := [] }
    rfl (Or.inl hstart)
  refine ⟨a1, b1, (b4 hmem).2, ?_⟩
  exact b5 (a4 hmem).1 (by intro e he; simp at he)

/-- Witness of C9: two topics against a cluster of two brokers, the second the controller,
that holds no topic at first. -/
theorem provisioning_idempotent_witness :
    (createTopic (cluster "b2:9094") twoBrokers { st := [], trace := [] }).err = none
      ∧ (createTopic (cluster "b2:9094") twoBrokers
          { st := (createTopic (cluster "b2:9094") twoBrokers { st := [], trace := [] }).w.st,
            trace := [] }).err = none
      ∧ (createTopic (cluster "b2:9094") twoBrokers { st := [], trace := [] }).w.st
          = ["orders", "events"] :=
  have h := provisioning_idempotent "b2:9094" [] twoBrokers rfl (by decide) (by decide)
  ⟨h.1, h.2.1, by decide⟩


/-! ## Connections: release and failure -/

/-- C11 at failing inputs: a probe that is answered success, one that is answered not
controller, one that is answered another code and one with an empty topic name each open
the connection, and the trace of none of them holds a `Close`. -/
theorem createKafkaTopic_leaves_connection_open :
    ((createKafkaTopic (scripted secondIsController) twoBrokers "b2:9094" orders
        fresh).w.trace.map Event.call
      = [Call.Open none, Call.Connected none,
         Call.CreateTopics (createTopicsRequest orders)
          (CreateTopicsResult.ok { TopicErrors := [("orders", { Err := SUCCESS })] })])
    ∧ Call.Close ∉ (createKafkaTopic (scripted secondIsController) twoBrokers "b2:9094" orders
        fresh).w.trace.map Event.call
    ∧ Call.Close ∉ (createKafkaTopic (scripted secondIsController) twoBrokers "b1:9094" orders
        fresh).w.trace.map Event.call
    ∧ Call.Close ∉ (createKafkaTopic (scripted fun _ => 38) twoBrokers "b1:9094" orders
        fresh).w.trace.map Event.call
    ∧ Call.Close ∉ (createKafkaTopic (scripted secondIsController) twoBrokers "b1:9094"
        { Name := "", ReplicationFactor := 3, NumOfPartitions := 1 }
        fresh).w.trace.map Event.call := by
  refine ⟨by decide, by decide, by decide, by decide, by decide⟩

theorem createKafkaTopic_close_only_without_entry (net : Sarama σ) (k : Kafka) (b : String)
    (conf : kafkaTopicConfig) (w : World σ) (code : Int)
    (hopen : (net.Open b w.st).1 = none)
    (hconn : (net.Connected b (net.Open b w.st).2).1 = none)
    (hname : conf.Name ≠ "")
    (hcode : (net.response b conf w.st).code = some code) :
    (createKafkaTopic net k b conf w).w.trace
      = w.trace ++
          [{ controller := k.BrokerController, brokerConn := b, call := Call.Open none },
           { controller := k.BrokerController, brokerConn := b, call := Call.Connected none },
           { controller := k.BrokerController, brokerConn := b,
             call := Call.CreateTopics (createTopicsRequest conf) (net.response b conf w.st) }] := by
  unfold Sarama.response at hcode ⊢
  obtain ⟨n, val, rest, hr, hval⟩ := code_eq_some hcode
  simp only [createKafkaTopic, World.record, hopen, hconn, hname, if_false, hr,
    createKafkaTopic.topicErrors]
  split_ifs <;> simp

theorem createKafkaTopic_failureEnds (net : Sarama σ) (k : Kafka) (b : String)
    (conf : kafkaTopicConfig) (w : World σ) (hw : ∀ e ∈ w.trace, e.failure = none) :
    FailureEnds (createKafkaTopic net k b conf w) := by
  unfold FailureEnds
  simp only [createKafkaTopic, World.record]
  cases ho : (net.Open b w.st).1 with
  | some e =>
    simp only [List.dropLast_concat, List.getLast?_concat, Option.some.injEq]
    refine ⟨hw, ?_⟩
    rintro e1 m rfl hm
    simp only [Event.failure, Option.some.injEq] at hm
    rw [hm]
  | none =>
    cases hc : (net.Connected b (net.Open b w.st).2).1 with
    | some e =>
      simp only [List.dropLast_concat, List.getLast?_concat, Option.some.injEq]
      refine ⟨?_, ?_⟩
      · intro e1 he1
        rcases List.mem_append.1 he1 with h | h
        · exact hw e1 h
        · rw [List.mem_singleton.1 h]; rfl
      · rintro e1 m rfl hm
        simp only [Event.failure, Option.some.injEq] at hm
        rw [hm]
    | none =>
      by_cases hname : conf.Name = ""
      · simp only [hname, if_true, List.dropLast_concat, List.getLast?_concat,
          Option.some.injEq]
        refine ⟨?_, ?_⟩
        · intro e1 he1
          rcases List.mem_append.1 he1 with h | h
          · exact hw e1 h
          · rw [List.mem_singleton.1 h]; rfl
        · rintro e1 m rfl hm
          simp [Event.failure] at hm
      · simp only [hname, if_false]
        cases hr : (net.CreateTopics b (createTopicsRequest conf)
            (net.Connected b (net.Open b w.st).2).2).1 with
        | error e =>
          simp only [List.dropLast_concat, List.getLast?_concat, Option.some.injEq]
          refine ⟨?_, ?_⟩
          · intro e1 he1
            simp only [List.mem_append, List.mem_singleton] at he1
            rcases he1 with (h | h) | h
            · exact hw e1 h
            · rw [h]; rfl
            · rw [h]; rfl
          · rintro e1 m rfl hm
            simp [Event.failure] at hm
        | ok response =>
          obtain ⟨errs⟩ := response
          rcases errs with _ | ⟨⟨n, val⟩, rest⟩
          · simp only [createKafkaTopic.topicErrors, World.record, List.dropLast_concat,
              List.getLast?_concat, Option.some.injEq]
            refine ⟨?_, ?_⟩
            · intro e1 he1
              simp only [List.mem_append, List.mem_singleton] at he1
              rcases he1 with ((h | h) | h) | h
              · exact hw e1 h
              · rw [h]; rfl
              · rw [h]; rfl
              · rw [h]; rfl
            · rintro e1 m rfl hm
              simp [Event.failure] at hm
          · have hd : ∀ e1 ∈ (w.trace ++
                [{ controller := k.BrokerController, brokerConn := b, call := Call.Open none }]
                ++ [{ controller := k.BrokerController, brokerConn := b,
                      call := Call.Connected none }] : List Event), e1.failure = none := by
              intro e1 he1
              simp only [List.mem_append, List.mem_singleton] at he1
              rcases he1 with (h | h) | h
              · exact hw e1 h
              · rw [h]; rfl
              · rw [h]; rfl
            simp only [createKafkaTopic.topicErrors]
            split_ifs <;>
              simp only [List.dropLast_concat, List.getLast?_concat, Option.some.injEq] <;>
              refine ⟨hd, ?_⟩ <;>
              rintro e1 m rfl hm <;>
              simp [Event.failure] at hm

theorem failureEnds_ok (r : Result σ) (h : FailureEnds r) (hr : r.err = none) :
    ∀ e ∈ r.w.trace, e.failure = none := by
  intro e he
  cases hl : r.w.trace.getLast? with
  | none =>
    rw [List.getLast?_eq_none_iff] at hl
    rw [hl] at he; simp at he
  | some a =>
    have hsplit := List.dropLast_append_getLast? a (by rw [hl]; rfl)
    rw [← hsplit] at he
    rcases List.mem_append.1 he with h1 | h1
    · exact h.1 e h1
    · rw [List.mem_singleton.1 h1]
      cases hf : a.failure with
      | none => rfl
      | some m =>
        have := h.2 a m hl hf
        rw [hr] at this; simp at this

theorem topics_failureEnds (net : Sarama σ) (b : String) (ts : List kafkaTopicConfig) :
    ∀ (k : Kafka) (w : World σ), (∀ e ∈ w.trace, e.failure = none) →
      (createTopic.topics net b ts k w).err = none
        ∨ FailureEnds (createTopic.topics net b ts k w) := by
  induction ts with
  | nil => intro k w _; exact Or.inl rfl
  | cons t rest ih =>
    intro k w hw
    rw [topics_cons]
    have h1 := createKafkaTopic_failureEnds net k b t w hw
    cases he : (createKafkaTopic net k b t w).err with
    | some e =>
      right
      refine ⟨h1.1, ?_⟩
      intro e1 m hl hm
      have := h1.2 e1 m hl hm
      rw [he] at this
      exact this
    | none => exact ih _ _ (failureEnds_ok _ h1 he)

theorem topics_ok_noFailure (net : Sarama σ) (b : String) (ts : List kafkaTopicConfig) :
    ∀ (k : Kafka) (w : World σ), (∀ e ∈ w.trace, e.failure = none) →
      (createTopic.topics net b ts k w).err = none →
      ∀ e ∈ (createTopic.topics net b ts k w).w.trace, e.failure = none := by
  induction ts with
  | nil => intro k w hw _; exact hw
  | cons t rest ih =>
    intro k w hw
    rw [topics_cons]
    have h1 := createKafkaTopic_failureEnds net k b t w hw
    cases he : (createKafkaTopic net k b t w).err with
    | some e => intro h; simp at h
    | none => exact ih _ _ (failureEnds_ok _ h1 he)

theorem brokers_failureEnds (net : Sarama σ) (bs : List String) :
    ∀ (k : Kafka) (w : World σ), (∀ e ∈ w.trace, e.failure = none) →
      (createTopic.brokers net bs k w).err = none
        ∨ FailureEnds (createTopic.brokers net bs k w) := by
  induction bs with
  | nil => intro k w _; exact Or.inl rfl
  | cons b rest ih =>
    intro k w hw
    simp only [createTopic.brokers]
    split_ifs with hg
    · exact ih k w hw
    · cases he : (createTopic.topics net b k.Topics k w).err with
      | some e =>
        right
        rcases topics_failureEnds net b k.Topics k w hw with h | h
        · rw [he] at h; simp at h
        · refine ⟨h.1, ?_⟩
          intro e1 m hl hm
          have := h.2 e1 m hl hm
          rw [he] at this
          exact this
      | none => exact ih _ _ (topics_ok_noFailure net b k.Topics k w hw he)

theorem brokers_ok_noFailure (net : Sarama σ) (bs : List String) :
    ∀ (k : Kafka) (w : World σ), (∀ e ∈ w.trace, e.failure = none) →
      (createTopic.brokers net bs k w).err = none →
      ∀ e ∈ (createTopic.brokers net bs k w).w.trace, e.failure = none := by
  induction bs with
  | nil => intro k w hw _; exact hw
  | cons b rest ih =>
    intro k w hw
    simp only [createTopic.brokers]
    split_ifs with hg
    · exact ih k w hw
    · cases he : (createTopic.topics net b k.Topics k w).err with
      | some e => intro h; simp at h
      | none => exact ih _ _ (topics_ok_noFailure net b k.Topics k w hw he)

/-- C12: a probe whose connection fails to open, or fails the connectivity check, returns
an error that carries the cause, leaves the session as it was and sends no creation
request; and in a run of `createTopic` a call that failed in this way is the last call of
the run, whose error is the one `createTopic` returns. -/
theorem connection_failure_ends_run (net : Sarama σ) (k : Kafka) (st : σ) :
    (∀ (b : String) (conf : kafkaTopicConfig) (k1 : Kafka) (w : World σ) (e : String),
        (net.Open b w.st).1 = some e →
        (createKafkaTopic net k1 b conf w).err
            = some ("error occurred while opening broker connection : " ++ e)
          ∧ (createKafkaTopic net k1 b conf w).k = k1
          ∧ attempts (createKafkaTopic net k1 b conf w).w.trace = attempts w.trace)
      ∧ (∀ (b : String) (conf : kafkaTopicConfig) (k1 : Kafka) (w : World σ) (e : String),
        (net.Open b w.st).1 = none → (net.Connected b (net.Open b w.st).2).1 = some e →
        (createKafkaTopic net k1 b conf w).err
            = some ("error occurred while connecting to the broker : " ++ e)
          ∧ (createKafkaTopic net k1 b conf w).k = k1
          ∧ attempts (createKafkaTopic net k1 b conf w).w.trace = attempts w.trace)
      ∧ ∀ (pre : List Event) (ev : Event) (post : List Event) (m : String),
          (createTopic net k { st := st, trace := [] }).w.trace = pre ++ ev :: post →
          ev.failure = some m →
          post = [] ∧ (createTopic net k { st := st, trace := [] }).err = some m := by
  refine ⟨?_, ?_, ?_⟩
  · intro b conf k1 w e ho
    simp [createKafkaTopic, World.record, ho, attempts, List.filterMap_append]
  · intro b conf k1 w e ho hc
    simp [createKafkaTopic, World.record, ho, hc, attempts, List.filterMap_append]
  · intro pre ev post m htr hm
    have hfresh : ∀ e ∈ ({ st := st, trace := [] } : World σ).trace, e.failure = none := by
      intro e he; simp at he
    have hA : (createTopic net k { st := st, trace := [] }).err = none →
        ∀ e ∈ (createTopic net k { st := st, trace := [] }).w.trace, e.failure = none :=
      brokers_ok_noFailure net _ k _ hfresh
    have hB : (createTopic net k { st := st, trace := [] }).err = none
        ∨ FailureEnds (createTopic net k { st := st, trace := [] }) :=
      brokers_failureEnds net _ k _ hfresh
    have hev : ev ∈ (createTopic net k { st := st, trace := [] }).w.trace := by
      rw [htr]; simp
    have hF : FailureEnds (createTopic net k { st := st, trace := [] }) := by
      rcases hB with h | h
      · have := hA h ev hev
        rw [hm] at this; simp at this
      · exact h
    have hpost : post = [] := by
      by_contra hne
      have hmem : ev ∈ (createTopic net k { st := st, trace := [] }).w.trace.dropLast := by
        rw [htr, List.dropLast_append_cons, List.dropLast_cons_of_ne_nil hne]
        simp
      have := hF.1 ev hmem
      rw [hm] at this; simp at this
    subst hpost
    refine ⟨rfl, hF.2 ev m ?_ hm⟩
    rw [htr]; simp

/-- Witness of C12: the connectivity check of the first of two brokers fails, and this
call is the last of the run. -/
theorem connection_failure_ends_run_witness :
    (createTopic (refusing "b1:9094" secondIsController) twoBrokers fresh).w.trace
        = [{ controller := "", brokerConn := "b1:9094", call := Call.Open none }]
          ++ { controller := "", brokerConn := "b1:9094",
               call := Call.Connected (some "dial tcp: connection refused") } :: []
      ∧ (createTopic (refusing "b1:9094" secondIsController) twoBrokers fresh).err
        = some ("error occurred while connecting to the broker : "
            ++ "dial tcp: connection refused") :=
  ⟨by decide,
   ((connection_failure_ends_run (refusing "b1:9094" secondIsController) twoBrokers ()).2.2
      [{ controller := "", brokerConn := "b1:9094", call := Call.Open none }]
      { controller := "", brokerConn := "b1:9094",
        call := Call.Connected (some "dial tcp: connection refused") } []
      ("error occurred while connecting to the broker : " ++ "dial tcp: connection refused")
      (by decide) rfl).2⟩


/-! ## The creation request -/

theorem int32_of_range (n : Int) (h0 : 0 ≤ n) (h1 : n < 2 ^ 31) : int32 n = n := by
  unfold int32; omega

theorem int16_of_range (n : Int) (h0 : 0 ≤ n) (h1 : n < 2 ^ 15) : int16 n = n := by
  unfold int16; omega

theorem createKafkaTopic_sends_request (net : Sarama σ) (k : Kafka) (b : String)
    (conf : kafkaTopicConfig) (w : World σ)
    (hopen : (net.Open b w.st).1 = none)
    (hconn : (net.Connected b (net.Open b w.st).2).1 = none)
    (hname : conf.Name ≠ "") :
    attempts (createKafkaTopic net k b conf w).w.trace
      = attempts w.trace ++ [(b, createTopicsRequest conf)] := by
  simp only [createKafkaTopic, World.record, hopen, hconn, hname, if_false]
  cases hr : (net.CreateTopics b (createTopicsRequest conf)
      (net.Connected b (net.Open b w.st).2).2).1 with
  | error e => simp [attempts, List.filterMap_append]
  | ok response =>
    obtain ⟨errs⟩ := response
    rcases errs with _ | ⟨⟨n, val⟩, rest⟩
    · simp [createKafkaTopic.topicErrors, World.record, attempts, List.filterMap_append]
    · simp only [createKafkaTopic.topicErrors]
      split_ifs <;> simp [attempts, List.filterMap_append]

/-- C13 fails as stated: a replication factor of 32768 and a partition count of 2147483648
are positive, and the request that is sent carries -32768 and -2147483648. -/
theorem request_wraps_large_counts :
    attempts (createKafkaTopic (scripted secondIsController) twoBrokers "b2:9094"
        { Name := "orders", ReplicationFactor := 32768, NumOfPartitions := 2147483648 }
        fresh).w.trace
      = [("b2:9094",
          { Timeout := 15000000000
            TopicDetails := [("orders", { NumPartitions := -2147483648
                                          ReplicationFactor := -32768
                                          ConfigEntries := [] })] })] := by
  decide

/-- C13, as the code has it: for a topic with a non-empty name, a partition count from 1
to 2147483647 and a replication factor from 1 to 32767, the request that a probe sends
has one topic entry, keyed by the name, with that partition count and replication factor,
no config overrides and a timeout of 15 seconds. -/
theorem createKafkaTopic_request_in_range (net : Sarama σ) (k : Kafka) (b : String)
    (conf : kafkaTopicConfig) (w : World σ)
    (hopen : (net.Open b w.st).1 = none)
    (hconn : (net.Connected b (net.Open b w.st).2).1 = none)
    (hname : conf.Name ≠ "")
    (hp : 0 < conf.NumOfPartitions) (hp' : conf.NumOfPartitions < 2 ^ 31)
    (hr : 0 < conf.ReplicationFactor) (hr' : conf.ReplicationFactor < 2 ^ 15) :
    attempts (createKafkaTopic net k b conf w).w.trace
      = attempts w.trace ++
          [(b, { Timeout := 15 * time.Second
                 TopicDetails := [(conf.Name, { NumPartitions := conf.NumOfPartitions
                                                ReplicationFactor := conf.ReplicationFactor
                                                ConfigEntries := [] })] })] := by
  rw [createKafkaTopic_sends_request net k b conf w hopen hconn hname]
  simp only [createTopicsRequest, int32_of_range _ (le_of_lt hp) hp',
    int16_of_range _ (le_of_lt hr) hr', mul_comm]

/-- Witness of C13 as amended: the topic orders, with three replicas and one partition. -/
theorem createKafkaTopic_request_in_range_witness :
    attempts (createKafkaTopic (scripted secondIsController) twoBrokers "b2:9094" orders
        fresh).w.trace
      = attempts fresh.trace ++
          [("b2:9094", { Timeout := 15 * time.Second
                         TopicDetails := [(orders.Name,
                            { NumPartitions := orders.NumOfPartitions
                              ReplicationFactor := orders.ReplicationFactor
                              ConfigEntries := [] })] })] :=
  createKafkaTopic_request_in_range (scripted secondIsController) twoBrokers "b2:9094" orders
    fresh rfl rfl (by decide) (by decide) (by decide) (by decide) (by decide)


/-! ## The handler `createTopics` -/

theorem createTopics_create (svc : Services) (net : Sarama σ) (event : cfn.Event)
    (w : World σ) (h : event.RequestType = cfn.RequestCreate) :
    createTopics svc net event w = createTopics.create svc net event w := by
  rw [createTopics, if_pos h]

theorem createTopics_update (svc : Services) (net : Sarama σ) (event : cfn.Event)
    (w : World σ) (h : event.RequestType = cfn.RequestUpdate) :
    createTopics svc net event w = createTopics.create svc net event w := by
  have hne : event.RequestType ≠ cfn.RequestCreate := by
    rw [h]; decide
  rw [createTopics, if_neg hne, dif_pos h, createTopics_create _ _ _ _ rfl]
  rfl

theorem createTopics_other (svc : Services) (net : Sarama σ) (event : cfn.Event)
    (w : World σ) (h1 : event.RequestType ≠ cfn.RequestCreate)
    (h2 : event.RequestType ≠ cfn.RequestUpdate) :
    createTopics svc net event w
      = { physicalResourceId := "", data := none, err := none, calls := [], w := w } := by
  rw [createTopics, if_neg h1, dif_neg h2]

theorem create_err_data (svc : Services) (net : Sarama σ) (event : cfn.Event) (w : World σ) :
    (createTopics.create svc net event w).err ≠ none →
      (createTopics.create svc net event w).data = none := by
  simp only [createTopics.create]
  split
  · intro _; rfl
  · split
    · intro _; rfl
    · split
      · intro _; rfl
      · split
        · intro _; rfl
        · intro h; exact absurd rfl h

theorem create_ok (svc : Services) (net : Sarama σ) (event : cfn.Event) (w : World σ)
    (h : (createTopics.create svc net event w).err = none) :
    ∃ zoneName brokers zookeepers,
      svc.GetHostedZone event.HostedZone = Except.ok zoneName
        ∧ svc.GetBootstrapBrokers event.ClusterArn = Except.ok brokers
        ∧ svc.DescribeCluster event.ClusterArn = Except.ok zookeepers
        ∧ (createTopic net { BrokerConn := aws.StringValue brokers
                             Topics := listOfTopics event, BrokerController := "" } w).err = none
        ∧ (createTopics.create svc net event w).data
            = some [("Brokers", brokerListSsl (aws.StringValue brokers)),
                    ("Zookeepers",
                      strings.Join (zookeeperList svc (aws.StringValue zookeepers)) ","),
                    ("ZoneName", aws.StringValue zoneName)] := by
  simp only [createTopics.create, recordSet, brokerConString, zookeeperConString] at h ⊢
  cases hz : svc.GetHostedZone event.HostedZone with
  | error e => simp [hz] at h
  | ok zoneName =>
    cases hb : svc.GetBootstrapBrokers event.ClusterArn with
    | error e =>
      rcases hae : e.aerr with _ | ⟨code, message⟩ <;> simp [hz, hb, hae] at h
    | ok brokers =>
      cases hd : svc.DescribeCluster event.ClusterArn with
      | error e =>
        rcases hae : e.aerr with _ | ⟨code, message⟩ <;> simp [hz, hb, hd, hae] at h
      | ok zookeepers =>
        simp only [hz, hb, hd] at h ⊢
        split at h
        · simp at h
        · rename_i hc
          exact ⟨zoneName, brokers, zookeepers, rfl, rfl, rfl, hc, by simp [hc]⟩

theorem create_run (svc : Services) (net : Sarama σ) (event : cfn.Event) (w : World σ)
    (zoneName brokers zookeepers : Option String)
    (hzone : svc.GetHostedZone event.HostedZone = Except.ok zoneName)
    (hbrokers : svc.GetBootstrapBrokers event.ClusterArn = Except.ok brokers)
    (hzk : svc.DescribeCluster event.ClusterArn = Except.ok zookeepers) :
    (createTopics.create svc net event w).err
        = (createTopic net { BrokerConn := aws.StringValue brokers
                             Topics := listOfTopics event, BrokerController := "" } w).err
      ∧ (createTopics.create svc net event w).w
        = (createTopic net { BrokerConn := aws.StringValue brokers
                             Topics := listOfTopics event, BrokerController := "" } w).w := by
  simp only [createTopics.create, recordSet, brokerConString, zookeeperConString, hzone,
    hbrokers, hzk]
  split
  · rename_i e hc
    exact ⟨hc.symm, rfl⟩
  · rename_i hc
    exact ⟨hc.symm, rfl⟩

/-- C17: an update is handled as the creation with the same resource properties: the two
return the same physical id, data and error, and make the same calls on the services and
on the brokers.  So an update over a cluster that holds every topic of the list returns
no error, and every answer of the controller to it is topic already exists. -/
theorem update_handled_as_create (svc : Services) (net : Sarama σ) (event : cfn.Event)
    (w : World σ) :
    createTopics svc net { event with RequestType := cfn.RequestUpdate } w
        = createTopics svc net { event with RequestType := cfn.RequestCreate } w
      ∧ ∀ (controller : String) (held : List String) (zoneName brokers zookeepers : Option String),
          svc.GetHostedZone event.HostedZone = Except.ok zoneName →
          svc.GetBootstrapBrokers event.ClusterArn = Except.ok brokers →
          svc.DescribeCluster event.ClusterArn = Except.ok zookeepers →
          (∀ t ∈ listOfTopics event, t.Name ≠ "" ∧ t.Name ∈ held) →
          (createTopics svc (cluster controller) { event with RequestType := cfn.RequestUpdate }
              { st := held, trace := [] }).err = none
            ∧ AlreadyExistsAt controller
                (createTopics svc (cluster controller)
                  { event with RequestType := cfn.RequestUpdate }
                  { st := held, trace := [] }).w.trace := by
  constructor
  · rw [createTopics_update _ _ _ _ rfl, createTopics_create _ _ _ _ rfl]
    rfl
  · intro controller held zoneName brokers zookeepers hzone hbrokers hzk htopics
    rw [createTopics_update _ _ _ _ rfl]
    obtain ⟨he, hw⟩ := create_run svc (cluster controller)
      { event with RequestType := cfn.RequestUpdate } { st := held, trace := [] }
      zoneName brokers zookeepers hzone hbrokers hzk
    obtain ⟨c1, -, -, -, c5⟩ := cluster_brokers controller (listOfTopics event)
      (fun t ht => (htopics t ht).1) (strings.Split (aws.StringValue brokers) ',')
      { BrokerConn := aws.StringValue brokers, Topics := listOfTopics event,
        BrokerController := "" }
      { st := held, trace := [] } rfl (Or.inl rfl)
    refine ⟨he.trans c1, ?_⟩
    rw [hw]
    exact c5 (fun t ht => (htopics t ht).2) (by intro e he; simp at he)

theorem create_data_err (svc : Services) (net : Sarama σ) (event : cfn.Event) (w : World σ) :
    (createTopics.create svc net event w).data ≠ none →
      (createTopics.create svc net event w).err = none := by
  intro h
  by_contra he
  exact h (create_err_data svc net event w he)

/-- C18: whenever `createTopics` returns an error the data is nil; whenever it returns
data, the three lookups and the topic creation have succeeded, no error is returned, and
the data holds the keys `Brokers`, `Zookeepers` and `ZoneName`, bound to the formatted
broker list, the joined zookeeper addresses and the hosted zone name of the lookup; and a
creation that returns no error returns data. -/
theorem createTopics_payload (svc : Services) (net : Sarama σ) (event : cfn.Event)
    (w : World σ) :
    ((createTopics svc net event w).err ≠ none → (createTopics svc net event w).data = none)
      ∧ ((createTopics svc net event w).data ≠ none →
          (createTopics svc net event w).err = none
            ∧ ∃ zoneName brokers zookeepers,
              svc.GetHostedZone event.HostedZone = Except.ok zoneName
                ∧ svc.GetBootstrapBrokers event.ClusterArn = Except.ok brokers
                ∧ svc.DescribeCluster event.ClusterArn = Except.ok zookeepers
                ∧ (createTopic net { BrokerConn := aws.StringValue brokers
                                     Topics := listOfTopics event
                                     BrokerController := "" } w).err = none
                ∧ (createTopics svc net event w).data
                    = some [("Brokers", brokerListSsl (aws.StringValue brokers)),
                            ("Zookeepers",
                              strings.Join (zookeeperList svc (aws.StringValue zookeepers)) ","),
                            ("ZoneName", aws.StringValue zoneName)])
      ∧ (event.RequestType = cfn.RequestCreate → (createTopics svc net event w).err = none →
          (createTopics svc net event w).data ≠ none) := by
  refine ⟨?_, ?_, ?_⟩
  · by_cases h1 : event.RequestType = cfn.RequestCreate
    · rw [createTopics_create _ _ _ _ h1]; exact create_err_data svc net event w
    · by_cases h2 : event.RequestType = cfn.RequestUpdate
      · rw [createTopics_update _ _ _ _ h2]; exact create_err_data svc net event w
      · rw [createTopics_other _ _ _ _ h1 h2]; intro _; rfl
  · have hcreate : (createTopics svc net event w).data ≠ none →
        createTopics svc net event w = createTopics.create svc net event w := by
      intro hd
      by_cases h1 : event.RequestType = cfn.RequestCreate
      · exact createTopics_create _ _ _ _ h1
      · by_cases h2 : event.RequestType = cfn.RequestUpdate
        · exact createTopics_update _ _ _ _ h2
        · rw [createTopics_other _ _ _ _ h1 h2] at hd
          exact absurd rfl hd
    intro hd
    have heq := hcreate hd
    rw [heq] at hd ⊢
    exact ⟨create_data_err svc net event w hd,
      create_ok svc net event w (create_data_err svc net event w hd)⟩
  · intro h1
    rw [createTopics_create _ _ _ _ h1]
    intro he
    obtain ⟨_, _, _, _, _, _, _, hdata⟩ := create_ok svc net event w he
    rw [hdata]
    exact fun h => Option.noConfusion h

theorem atoi_not_number (s : String) (h : isNumber s = false) :
    strconv.Atoi s = (0, some "invalid syntax") := by
  simp [strconv.Atoi, h]

set_option maxRecDepth 100000 in
/-- C16 fails as stated: the replication factor of the topic is the string three, and the
creation goes on to the brokers, sends the creation request with a replication factor of 0
and, the controller accepting it, returns no error. -/
theorem non_numeric_factor_reaches_brokers :
    isNumber "three" = false
      ∧ (createTopics sampleServices (scripted secondIsController) sampleEvent fresh).err = none
      ∧ attempts (createTopics sampleServices (scripted secondIsController) sampleEvent
          fresh).w.trace
        = [("b1:9094", { Timeout := 15000000000
                         TopicDetails := [("orders", { NumPartitions := 1
                                                       ReplicationFactor := 0
                                                       ConfigEntries := [] })] }),
           ("b2:9094", { Timeout := 15000000000
                         TopicDetails := [("orders", { NumPartitions := 1
                                                       ReplicationFactor := 0
                                                       ConfigEntries := [] })] })] := by
  rw [createTopics_create _ _ _ _ rfl]
  refine ⟨by decide, by decide, by decide⟩

/-- C16, as the code has it: the error of `strconv.Atoi` is dropped, so a replication
factor or a partition count that is not a number is read as 0, and a creation whose
lookups succeed returns the error of the run of `createTopic` over the topics so read, and
has made the calls of that run on the brokers. -/
theorem createTopics_reads_non_number_as_zero (svc : Services) (net : Sarama σ)
    (event : cfn.Event) (w : World σ) (topics : List TopicProperties)
    (zoneName brokers zookeepers : Option String)
    (hcreate : event.RequestType = cfn.RequestCreate)
    (hzone : svc.GetHostedZone event.HostedZone = Except.ok zoneName)
    (hbrokers : svc.GetBootstrapBrokers event.ClusterArn = Except.ok brokers)
    (hzk : svc.DescribeCluster event.ClusterArn = Except.ok zookeepers)
    (htopics : event.TopicList = some topics) :
    (∀ t ∈ topics, isNumber t.ReplicationFactor = false → (thisTopic t).ReplicationFactor = 0)
      ∧ (∀ t ∈ topics, isNumber t.NumOfPartitions = false → (thisTopic t).NumOfPartitions = 0)
      ∧ (createTopics svc net event w).err
          = (createTopic net { BrokerConn := aws.StringValue brokers
                               Topics := topics.map thisTopic, BrokerController := "" } w).err
      ∧ (createTopics svc net event w).w
          = (createTopic net { BrokerConn := aws.StringValue brokers
                               Topics := topics.map thisTopic, BrokerController := "" } w).w := by
  refine ⟨?_, ?_, ?_⟩
  · intro t _ h
    simp [thisTopic, atoi_not_number _ h]
  · intro t _ h
    simp [thisTopic, atoi_not_number _ h]
  · rw [createTopics_create _ _ _ _ hcreate]
    have h := create_run svc net event w zoneName brokers zookeepers hzone hbrokers hzk
    have hl : listOfTopics event = topics.map thisTopic := by
      simp [listOfTopics, htopics]
    rw [hl] at h
    exact h

/-- Witness of C16 as amended: the sample event, whose replication factor is the string
three. -/
theorem createTopics_reads_non_number_as_zero_witness :
    (thisTopic { Name := "orders", ReplicationFactor := "three",
                 NumOfPartitions := "1" }).ReplicationFactor = 0 :=
  (createTopics_reads_non_number_as_zero sampleServices (scripted secondIsController)
    sampleEvent fresh
    [{ Name := "orders", ReplicationFactor := "three", NumOfPartitions := "1" }]
    (some "simple.abc.com") (some "b1:9094,b2:9094") (some "z1:2181,z2:2181")
    rfl rfl rfl rfl rfl).1 _ (List.mem_singleton.2 rfl) (by decide)

/-! ## Splitting and joining -/

theorem splitOnP_go_no_sep {α : Type} (p : α → Bool) (xs : List α) :
    ∀ acc : List α, (∀ x ∈ acc, p x = false) →
      ∀ l ∈ List.splitOnP.go p xs acc, ∀ x ∈ l, p x = false := by
  induction xs with
  | nil =>
    intro acc hacc l hl x hx
    simp only [List.splitOnP.go, List.mem_singleton] at hl
    subst hl
    exact hacc x (List.mem_reverse.1 hx)
  | cons a t ih =>
    intro acc hacc l hl x hx
    simp only [List.splitOnP.go] at hl
    by_cases hpa : p a = true
    · simp only [hpa, if_true, List.mem_cons] at hl
      rcases hl with hl | hl
      · subst hl
        exact hacc x (List.mem_reverse.1 hx)
      · exact ih [] (by simp) l hl x hx
    · simp only [hpa, if_false] at hl
      refine ih (a :: acc) ?_ l hl x hx
      intro y hy
      rcases List.mem_cons.1 hy with h | h
      · rw [h]; simpa using hpa
      · exact hacc y h

theorem split_no_sep (s b : String) (hb : b ∈ strings.Split s ',') : ',' ∉ b.toList := by
  unfold strings.Split at hb
  obtain ⟨l, hl, rfl⟩ := List.mem_map.1 hb
  intro hmem
  have := splitOnP_go_no_sep (fun c => c == ',') s.toList [] (by simp) l hl ',' hmem
  simp at this

theorem split_ne_nil (s : String) : strings.Split s ',' ≠ [] := by
  unfold strings.Split
  intro h
  exact List.splitOnP_ne_nil _ _ (List.map_eq_nil_iff.1 h)

theorem split_join (L : List String) (hL : L ≠ []) (h : ∀ s ∈ L, ',' ∉ s.toList) :
    strings.Split (strings.Join L ",") ',' = L := by
  induction L with
  | nil => exact absurd rfl hL
  | cons a rest ih =>
    have ha : ∀ x ∈ a.toList, ¬ ((fun c => c == ',') x = true) := by
      intro x hx hp
      have : x = ',' := by simpa using hp
      exact h a (List.mem_cons_self _ _) (this ▸ hx)
    cases rest with
    | nil =>
      simp only [strings.Join, strings.Split, List.splitOn]
      rw [List.splitOnP_eq_single _ _ ha]
      rfl
    | cons b rest2 =>
      have ih2 := ih (by simp) (fun s hs => h s (List.mem_cons_of_mem _ hs))
      simp only [strings.Join, strings.Split, List.splitOn] at ih2 ⊢
      have hdata : (a ++ "," ++ strings.Join (b :: rest2) ",").toList
          = a.toList ++ ',' :: (strings.Join (b :: rest2) ",").toList := by
        simp [String.toList, String.data_append]
      rw [hdata, List.splitOnP_first _ _ ha ',' (by simp), List.map_cons, ih2]
      rfl

/-! ## The broker list of the response -/

theorem join_snoc (f : String → String) (xs : List String) (last : String) :
    strings.Join ((xs ++ [last]).map f) ","
      = xs.foldr (fun b s => f b ++ "," ++ s) (f last) := by
  induction xs with
  | nil => rfl
  | cons x rest ih =>
    cases rest with
    | nil => rfl
    | cons y rest2 =>
      simp only [List.cons_append, List.map_cons, strings.Join, List.foldr_cons,
        List.append_eq] at ih ⊢
      rw [ih]

theorem brokerListSsl_loop (n : Nat) (init : List String) (last : String) :
    ∀ (i : Nat) (acc : String), i + (init.length + 1) = n →
      brokerListSsl.loop n i (init ++ [last]) acc
        = init.reverse.foldr (fun b s => "SSL://" ++ b ++ "," ++ s) (acc ++ "SSL://" ++ last) := by
  induction init with
  | nil =>
    intro i acc hi
    have : i = n - 1 := by simp at hi; omega
    simp [brokerListSsl.loop, this]
  | cons b rest ih =>
    intro i acc hi
    have hne : i ≠ n - 1 := by simp at hi; omega
    simp only [List.cons_append, brokerListSsl.loop, if_neg hne, List.append_eq]
    rw [ih (i + 1) _ (by simp at hi ⊢; omega)]
    simp only [List.reverse_cons, List.foldr_append, List.foldr_cons, List.foldr_nil,
      String.append_assoc]

/-- Order of the formatted broker list: all but the last address in reverse, then the
last address. -/
theorem brokerListSsl_eq (brokers : String) (init : List String) (last : String)
    (h : strings.Split brokers ',' = init ++ [last]) :
    brokerListSsl brokers
      = strings.Join ((init.reverse ++ [last]).map fun b => "SSL://" ++ b) "," := by
  unfold brokerListSsl
  rw [h, brokerListSsl_loop _ init last 0 "" (by simp), join_snoc]
  simp

theorem split_snoc (s : String) : ∃ init last, strings.Split s ',' = init ++ [last] := by
  rcases List.eq_nil_or_concat' (strings.Split s ',') with h | ⟨init, last, h⟩
  · exact absurd h (split_ne_nil s)
  · exact ⟨init, last, h⟩

theorem join_head (L : List String) (a : String) :
    ∃ rest, (strings.Join (("SSL://" ++ a) :: L) ",").toList = 'S' :: rest := by
  cases L with
  | nil => exact ⟨"SL://".toList ++ a.toList, by simp [strings.Join, String.toList]⟩
  | cons b rest =>
    exact ⟨"SL://".toList ++ a.toList ++ ",".toList ++ (strings.Join (b :: rest) ",").toList,
      by simp [strings.Join, String.toList]⟩


theorem foldr_tail (f : String → String) (xs : List String) (z : String) :
    ∃ p, (xs.foldr (fun b s => f b ++ "," ++ s) z).toList = p ++ z.toList := by
  induction xs with
  | nil => exact ⟨[], rfl⟩
  | cons x rest ih =>
    obtain ⟨p, hp⟩ := ih
    refine ⟨(f x).toList ++ ",".toList ++ p, ?_⟩
    simp only [List.foldr_cons, String.toList, String.data_append] at hp ⊢
    rw [hp]; simp

/-- C14: the formatted broker list, split at commas, has as many elements as the broker
string has addresses, these elements are a permutation of the addresses each prefixed with
`SSL://`, and the formatted list neither begins nor ends with a comma; for
`b1:9094,b2:9094` it holds `SSL://b1:9094` and `SSL://b2:9094`. -/
theorem brokerListSsl_permutation (brokers : String) :
    (strings.Split (brokerListSsl brokers) ',').length = (strings.Split brokers ',').length
      ∧ List.Perm (strings.Split (brokerListSsl brokers) ',')
          ((strings.Split brokers ',').map fun b => "SSL://" ++ b)
      ∧ (brokerListSsl brokers).toList.head? ≠ some ','
      ∧ (brokerListSsl brokers).toList.getLast? ≠ some ','
      ∧ "SSL://b1:9094" ∈ strings.Split (brokerListSsl "b1:9094,b2:9094") ','
      ∧ "SSL://b2:9094" ∈ strings.Split (brokerListSsl "b1:9094,b2:9094") ',' := by
  obtain ⟨init, last, h⟩ := split_snoc brokers
  have heq := brokerListSsl_eq brokers init last h
  have hmem : ∀ b ∈ init.reverse ++ [last], ',' ∉ b.toList := by
    intro b hb
    refine split_no_sep brokers b ?_
    rw [h]
    simpa using hb
  have hsplit : strings.Split (brokerListSsl brokers) ','
      = (init.reverse ++ [last]).map fun b => "SSL://" ++ b := by
    rw [heq]
    refine split_join _ (by simp) ?_
    intro s hs
    obtain ⟨b, hb, rfl⟩ := List.mem_map.1 hs
    have hb2 := hmem b hb
    intro hc
    simp only [String.toList, String.data_append, List.mem_append] at hc
    rcases hc with hc | hc
    · revert hc; decide
    · exact hb2 hc
  have hperm : List.Perm (strings.Split (brokerListSsl brokers) ',')
      ((strings.Split brokers ',').map fun b => "SSL://" ++ b) := by
    rw [hsplit, h]
    exact ((List.reverse_perm init).append_right [last]).map _
  refine ⟨hperm.length_eq.trans (by simp), hperm, ?_, ?_, by decide, by decide⟩
  · rw [heq]
    cases hl : init.reverse ++ [last] with
    | nil => simp at hl
    | cons a rest =>
      obtain ⟨tl, htl⟩ := join_head (rest.map fun b => "SSL://" ++ b) a
      rw [List.map_cons, htl]
      simp
  · rw [heq, join_snoc]
    obtain ⟨p, hp⟩ := foldr_tail (fun b => "SSL://" ++ b) init.reverse ("SSL://" ++ last)
    rw [hp]
    intro hlast
    have hdata : ("SSL://" ++ last).toList = "SSL://".toList ++ last.toList := by
      simp [String.toList, String.data_append]
    have hne : ("SSL://" ++ last).toList ≠ [] := by
      rw [hdata]; simp [String.toList]
    rw [List.getLast?_append_of_ne_nil _ hne, hdata] at hlast
    by_cases hl : last.toList = []
    · rw [hl] at hlast
      revert hlast; decide
    · rw [List.getLast?_append_of_ne_nil _ hl] at hlast
      exact hmem last (by simp) (List.mem_of_getLast?_eq_some hlast)


/-! ## The zookeeper addresses of the response -/

theorem scan_host (h rest : List Char) (hc : ':' ∉ h) :
    strings.ReplaceAll.scan ":2181".toList [] 0 (h ++ rest)
      = h ++ strings.ReplaceAll.scan ":2181".toList [] 0 rest := by
  induction h with
  | nil => rfl
  | cons c cs ih =>
    have hne : ¬ (':' = c) := fun e => hc (e ▸ List.mem_cons_self _ _)
    have hcs : ':' ∉ cs := fun hm => hc (List.mem_cons_of_mem _ hm)
    have step : strings.ReplaceAll.scan ":2181".toList [] 0 (c :: (cs ++ rest))
        = c :: strings.ReplaceAll.scan ":2181".toList [] 0 (cs ++ rest) := by
      simp [strings.ReplaceAll.scan, String.toList, hne]
    rw [List.cons_append, step, ih hcs]
    rfl

theorem scan_port (rest : List Char) :
    strings.ReplaceAll.scan ":2181".toList [] 0 (":2181".toList ++ rest)
      = strings.ReplaceAll.scan ":2181".toList [] 0 rest := by
  simp [String.toList, strings.ReplaceAll.scan, List.isPrefixOf]

theorem scan_comma (rest : List Char) :
    strings.ReplaceAll.scan ":2181".toList [] 0 (',' :: rest)
      = ',' :: strings.ReplaceAll.scan ":2181".toList [] 0 rest := by
  simp [String.toList, strings.ReplaceAll.scan, List.isPrefixOf]

theorem scan_entries (hosts : List String) (h : ∀ s ∈ hosts, ':' ∉ s.toList) :
    strings.ReplaceAll.scan ":2181".toList [] 0
        (strings.Join (hosts.map fun s => s ++ ":2181") ",").toList
      = (strings.Join hosts ",").toList := by
  induction hosts with
  | nil => rfl
  | cons a rest ih =>
    have ha := h a (List.mem_cons_self _ _)
    cases rest with
    | nil =>
      simp only [List.map_cons, List.map_nil, strings.Join]
      have hd : (a ++ ":2181").toList = a.toList ++ (":2181".toList ++ []) := by
        simp [String.toList, String.data_append]
      rw [hd, scan_host _ _ ha, scan_port]
      simp [strings.ReplaceAll.scan]
    | cons b rest2 =>
      have ih2 := ih (fun s hs => h s (List.mem_cons_of_mem _ hs))
      simp only [List.map_cons, strings.Join] at ih2 ⊢
      have hd : (a ++ ":2181" ++ "," ++ strings.Join ((b ++ ":2181")
            :: List.map (fun s => s ++ ":2181") rest2) ",").toList
          = a.toList ++ (":2181".toList ++ (',' :: (strings.Join ((b ++ ":2181")
            :: List.map (fun s => s ++ ":2181") rest2) ",").toList)) := by
        simp [String.toList, String.data_append]
      rw [hd, scan_host _ _ ha, scan_port, scan_comma, ih2]
      simp [String.toList, String.data_append]

theorem replaceAll_entries (hosts : List String) (h : ∀ s ∈ hosts, ':' ∉ s.toList) :
    strings.ReplaceAll (strings.Join (hosts.map fun s => s ++ ":2181") ",") ":2181" ""
      = strings.Join hosts "," := by
  have hold : ¬ (":2181".toList = []) := by decide
  simp only [strings.ReplaceAll, if_neg hold]
  have := scan_entries hosts h
  simp only [String.toList] at this ⊢
  rw [this]

/-- C15: for a zookeeper string of entries `host:2181` joined by commas, the hosts holding
neither a colon nor a comma, the names looked up are the hosts, with the port stripped, in
order, and the zookeeper output is the comma-join of what the lookups return, host after
host, a host without an address adding nothing; with `z1` resolving to `10.0.0.1` and
`z2` failing, `z1:2181,z2:2181` yields `10.0.0.1`. -/
theorem zookeepers_joined (svc : Services) (hosts : List String) (hne : hosts ≠ [])
    (hhost : ∀ s ∈ hosts, ':' ∉ s.toList ∧ ',' ∉ s.toList) :
    zkList (strings.Join (hosts.map fun s => s ++ ":2181") ",") = hosts
      ∧ strings.Join (zookeeperList svc (strings.Join (hosts.map fun s => s ++ ":2181") ",")) ","
          = strings.Join (hosts.flatMap fun s => (svc.LookupIP s).1) ","
      ∧ (sampleServices.LookupIP "z2").2 ≠ none
      ∧ strings.Join (zookeeperList sampleServices "z1:2181,z2:2181") "," = "10.0.0.1" := by
  have hzk : zkList (strings.Join (hosts.map fun s => s ++ ":2181") ",") = hosts := by
    unfold zkList
    rw [replaceAll_entries hosts (fun s hs => (hhost s hs).1)]
    exact split_join hosts hne (fun s hs => (hhost s hs).2)
  refine ⟨hzk, ?_, by decide, by decide⟩
  unfold zookeeperList
  rw [hzk]

/-- Witness of C15: the hosts `z1` and `z2`. -/
theorem zookeepers_joined_witness :
    zkList (strings.Join (["z1", "z2"].map fun s => s ++ ":2181") ",") = ["z1", "z2"]
      ∧ strings.Join (zookeeperList sampleServices
          (strings.Join (["z1", "z2"].map fun s => s ++ ":2181") ",")) ","
        = strings.Join (["z1", "z2"].flatMap fun s => (sampleServices.LookupIP s).1) "," :=
  have h := zookeepers_joined sampleServices ["z1", "z2"] (by decide) (by decide)
  ⟨h.1, h.2.1⟩

/-! ## The order of the broker list -/

theorem split_join_ssl (L : List String) (hL : L ≠ []) (h : ∀ b ∈ L, ',' ∉ b.toList) :
    strings.Split (strings.Join (L.map fun b => "SSL://" ++ b) ",") ','
      = L.map fun b => "SSL://" ++ b := by
  refine split_join _ (by simpa using hL) ?_
  intro s hs
  obtain ⟨b, hb, rfl⟩ := List.mem_map.1 hs
  have hb2 := h b hb
  intro hc
  simp only [String.toList, String.data_append, List.mem_append] at hc
  rcases hc with hc | hc
  · revert hc; decide
  · exact hb2 hc

theorem ssl_injective : Function.Injective fun b : String => "SSL://" ++ b := by
  intro a b hab
  have h := congrArg String.data hab
  simp only [String.data_append] at h
  exact String.ext (List.append_cancel_left h)

theorem reverse_ne_of_nodup (init : List String) (hnd : init.Nodup) (hlen : 2 ≤ init.length) :
    init.reverse ≠ init := by
  intro hrev
  cases init with
  | nil => simp at hlen
  | cons a rest =>
    rcases List.eq_nil_or_concat' rest with hr | ⟨mid, z, hr⟩
    · subst hr; simp at hlen
    · subst hr
      have h1 : (a :: (mid ++ [z])).reverse = z :: (mid.reverse ++ [a]) := by simp
      rw [h1] at hrev
      have hza : z = a := (List.cons.inj hrev).1
      have hmem : a ∈ mid ++ [z] := by simp [hza]
      exact (List.nodup_cons.1 hnd).1 hmem

/-- C26, counterexample: a connection string of three endpoints, the first two of which are
the same, whose formatted broker list is the comma-join of the endpoints in input
order. -/
theorem repeated_endpoint_keeps_order :
    strings.Split "b1:9094,b1:9094,b2:9094" ',' = ["b1:9094", "b1:9094", "b2:9094"]
      ∧ ¬ (strings.Split "b1:9094,b1:9094,b2:9094" ',').length ≤ 2
      ∧ brokerListSsl "b1:9094,b1:9094,b2:9094"
        = strings.Join ((strings.Split "b1:9094,b1:9094,b2:9094" ',').map
            fun b => "SSL://" ++ b) "," := by
  decide

/-- C26, amended: when splitting the connection string at commas gives the endpoints
`init` followed by `last`, the formatted broker list is the comma-join of the endpoints of
`init` in reverse order followed by `last`, each behind `SSL://`; it is the comma-join in
input order exactly when `init` reads the same in both directions, which is so whenever
there are at most two endpoints and is not so when there are three or more and the
endpoints of `init` are pairwise distinct. -/
theorem brokerListSsl_order (brokers : String) (init : List String) (last : String)
    (h : strings.Split brokers ',' = init ++ [last]) :
    brokerListSsl brokers
        = strings.Join ((init.reverse ++ [last]).map fun b => "SSL://" ++ b) ","
      ∧ (brokerListSsl brokers
            = strings.Join ((strings.Split brokers ',').map fun b => "SSL://" ++ b) ","
          ↔ init.reverse = init)
      ∧ ((strings.Split brokers ',').length ≤ 2 → init.reverse = init)
      ∧ (3 ≤ (strings.Split brokers ',').length → init.Nodup → init.reverse ≠ init) := by
  have heq := brokerListSsl_eq brokers init last h
  have hmem : ∀ b ∈ init ++ [last], ',' ∉ b.toList := by
    intro b hb
    refine split_no_sep brokers b ?_
    rw [h]
    exact hb
  have hmemr : ∀ b ∈ init.reverse ++ [last], ',' ∉ b.toList := by
    intro b hb
    exact hmem b (by simpa using hb)
  refine ⟨heq, ?_, ?_, ?_⟩
  · rw [heq, h]
    constructor
    · intro hj
      have hs := congrArg (fun s => strings.Split s ',') hj
      simp only at hs
      rw [split_join_ssl _ (by simp) hmemr, split_join_ssl _ (by simp) hmem] at hs
      have := List.map_injective_iff.2 ssl_injective hs
      exact List.append_cancel_right this
    · intro hrev
      rw [hrev]
  · intro hlen
    rw [h] at hlen
    simp only [List.length_append, List.length_singleton] at hlen
    cases init with
    | nil => rfl
    | cons a rest =>
      cases rest with
      | nil => rfl
      | cons b rest2 => simp at hlen
  · intro hlen hnd
    rw [h] at hlen
    simp only [List.length_append, List.length_singleton] at hlen
    exact reverse_ne_of_nodup init hnd (by omega)

set_option maxRecDepth 100000 in
/-- Witness of C26: three distinct endpoints, formatted as the second, the first and the
third, which is not the input order. -/
theorem brokerListSsl_order_witness :
    strings.Split "b1:9094,b2:9094,b3:9094" ',' = ["b1:9094", "b2:9094"] ++ ["b3:9094"]
      ∧ brokerListSsl "b1:9094,b2:9094,b3:9094" = "SSL://b2:9094,SSL://b1:9094,SSL://b3:9094"
      ∧ brokerListSsl "b1:9094,b2:9094,b3:9094"
          ≠ strings.Join ((strings.Split "b1:9094,b2:9094,b3:9094" ',').map
              fun b => "SSL://" ++ b) "," :=
  ⟨by decide,
   (brokerListSsl_order "b1:9094,b2:9094,b3:9094" ["b1:9094", "b2:9094"] "b3:9094"
      (by decide)).1.trans (by decide),
   fun hj => (brokerListSsl_order "b1:9094,b2:9094,b3:9094" ["b1:9094", "b2:9094"] "b3:9094"
      (by decide)).2.2.2 (by decide) (by decide)
        (((brokerListSsl_order "b1:9094,b2:9094,b3:9094" ["b1:9094", "b2:9094"] "b3:9094"
          (by decide)).2.1).1 hj)⟩

/-! ## What a run that found the controller sent to it -/

theorem answeredAt_append_left {net : Sarama σ} {c : String} {t : kafkaTopicConfig}
    {evs : List Event} (more : List Event) (h : AnsweredAt net c t evs) :
    AnsweredAt net c t (evs ++ more) := by
  obtain ⟨e, he, rest⟩ := h
  exact ⟨e, List.mem_append_left _ he, rest⟩

theorem answeredAt_append_right {net : Sarama σ} {c : String} {t : kafkaTopicConfig}
    {evs : List Event} (before : List Event) (h : AnsweredAt net c t evs) :
    AnsweredAt net c t (before ++ evs) := by
  obtain ⟨e, he, rest⟩ := h
  exact ⟨e, List.mem_append_right _ he, rest⟩

theorem createKafkaTopic_answeredAt (net : Sarama σ) (k : Kafka) (b : String)
    (conf : kafkaTopicConfig) (w : World σ)
    (herr : (createKafkaTopic net k b conf w).err = none) :
    ∃ evs, (createKafkaTopic net k b conf w).w.trace = w.trace ++ evs
      ∧ AnsweredAt net b conf evs := by
  simp only [createKafkaTopic, World.record] at herr ⊢
  cases ho : (net.Open b w.st).1 with
  | some e => simp [ho] at herr
  | none =>
    cases hc : (net.Connected b (net.Open b w.st).2).1 with
    | some e => simp [ho, hc] at herr
    | none =>
      by_cases hname : conf.Name = ""
      · simp [ho, hc, hname] at herr
      · simp only [ho, hc, hname, if_false] at herr ⊢
        cases hr : (net.CreateTopics b (createTopicsRequest conf)
            (net.Connected b (net.Open b w.st).2).2).1 with
        | error e => simp [hr] at herr
        | ok response =>
          obtain ⟨errs⟩ := response
          simp only [hr] at herr ⊢
          rcases errs with _ | ⟨⟨n, val⟩, rest⟩
          · refine ⟨_, by simp only [createKafkaTopic.topicErrors, World.record,
              List.append_assoc]; rfl, ?_⟩
            refine ⟨{ controller := k.BrokerController, brokerConn := b,
                      call := Call.CreateTopics (createTopicsRequest conf)
                        (CreateTopicsResult.ok { TopicErrors := [] }) }, by simp,
              (net.Connected b (net.Open b w.st).2).2, rfl, by rw [hr], ?_⟩
            right; right; right; exact hr
          · simp only [createKafkaTopic.topicErrors] at herr ⊢
            have hev : AnsweredAt net b conf
                ([{ controller := k.BrokerController, brokerConn := b,
                    call := Call.Open none },
                  { controller := k.BrokerController, brokerConn := b,
                    call := Call.Connected none },
                  { controller := k.BrokerController, brokerConn := b,
                    call := Call.CreateTopics (createTopicsRequest conf)
                      (CreateTopicsResult.ok { TopicErrors := (n, val) :: rest }) }]) := by
              refine ⟨{ controller := k.BrokerController, brokerConn := b,
                        call := Call.CreateTopics (createTopicsRequest conf)
                          (CreateTopicsResult.ok { TopicErrors := (n, val) :: rest }) },
                by simp, (net.Connected b (net.Open b w.st).2).2, rfl, by rw [hr], ?_⟩
              rw [hr]
              simp only [CreateTopicsResult.code]
              by_cases h41 : val.Err = NOT_CONTROLLER
              · right; right; left; rw [h41]
              · by_cases h36 : val.Err = TOPIC_ALREADY_EXISTS
                · right; left; rw [h36]
                · by_cases h0 : val.Err = SUCCESS
                  · left; rw [h0]
                  · simp [h41, h36, h0] at herr
            split_ifs <;> exact ⟨_, by simp only [List.append_assoc]; rfl, hev⟩

theorem topics_answeredAt (net : Sarama σ) (b : String) (ts : List kafkaTopicConfig) :
    ∀ (k : Kafka) (w : World σ), (createTopic.topics net b ts k w).err = none →
      ∃ evs, (createTopic.topics net b ts k w).w.trace = w.trace ++ evs
        ∧ ∀ t ∈ ts, AnsweredAt net b t evs := by
  induction ts with
  | nil => intro k w _; exact ⟨[], by simp [createTopic.topics], by simp⟩
  | cons t rest ih =>
    intro k w herr
    rw [topics_cons] at herr ⊢
    cases he : (createKafkaTopic net k b t w).err with
    | some e => simp [he] at herr
    | none =>
      simp only [he] at herr ⊢
      obtain ⟨evs1, htr1, h1⟩ := createKafkaTopic_answeredAt net k b t w he
      obtain ⟨evs2, htr2, h2⟩ := ih _ _ herr
      refine ⟨evs1 ++ evs2, by rw [htr2, htr1, List.append_assoc], ?_⟩
      intro t2 ht2
      rcases List.mem_cons.1 ht2 with rfl | hmem
      · exact answeredAt_append_left _ h1
      · exact answeredAt_append_right _ (h2 t2 hmem)

theorem topics_controller_frame (net : Sarama σ) (b : String) (ts : List kafkaTopicConfig)
    (k : Kafka) (w : World σ) (hk : k.BrokerController = "") :
    (createTopic.topics net b ts k w).k.Topics = k.Topics
      ∧ ((createTopic.topics net b ts k w).k.BrokerController = ""
        ∨ (createTopic.topics net b ts k w).k.BrokerController = b) := by
  refine topics_preserve net
    (fun k2 _ => k2.Topics = k.Topics ∧ (k2.BrokerController = "" ∨ k2.BrokerController = b))
    b ?_ ts k w (Or.inl hk) ⟨rfl, Or.inl hk⟩
  intro k2 conf w2 _ hi
  rcases createKafkaTopic_frame net k2 b conf w2 with h | h
  · rw [h]; exact hi
  · rw [h]; exact ⟨hi.1, Or.inr rfl⟩

theorem brokers_known_controller (net : Sarama σ) (bs : List String) (k : Kafka)
    (w : World σ) (hk : k.BrokerController ≠ "") :
    (createTopic.brokers net bs k w).k.BrokerController = k.BrokerController
      ∧ ∃ evs, (createTopic.brokers net bs k w).w.trace = w.trace ++ evs := by
  refine brokers_preserve net
    (fun k2 w2 => k2.BrokerController = k.BrokerController
      ∧ ∃ evs, w2.trace = w.trace ++ evs)
    (fun _ => True) ?_ bs k w (fun _ _ => trivial) ⟨rfl, [], by simp⟩
  intro b k2 conf w2 _ hj hi
  obtain ⟨hc, evs, htr⟩ := hi
  obtain ⟨evs2, htr2, _⟩ := createKafkaTopic_events net k2 b conf w2
  refine ⟨?_, evs ++ evs2, by rw [htr2, htr, List.append_assoc]⟩
  rcases createKafkaTopic_frame net k2 b conf w2 with h | h
  · rw [h]; exact hc
  · rw [h]
    rcases hj with hj | hj
    · rw [hc] at hj; exact absurd hj hk
    · rw [← hc, hj]

theorem brokers_answeredAt (net : Sarama σ) (bs : List String) :
    ∀ (k : Kafka) (w : World σ), k.BrokerController = "" →
      (createTopic.brokers net bs k w).err = none →
      (createTopic.brokers net bs k w).k.BrokerController ≠ "" →
      ∃ evs, (createTopic.brokers net bs k w).w.trace = w.trace ++ evs
        ∧ ∀ t ∈ k.Topics,
            AnsweredAt net (createTopic.brokers net bs k w).k.BrokerController t evs := by
  induction bs with
  | nil =>
    intro k w hk _ hne
    exact absurd hk hne
  | cons b rest ih =>
    intro k w hk herr hne
    have hstep : createTopic.brokers net (b :: rest) k w
        = match (createTopic.topics net b k.Topics k w).err with
          | some err => { err := some err, k := (createTopic.topics net b k.Topics k w).k,
                          w := (createTopic.topics net b k.Topics k w).w }
          | none => createTopic.brokers net rest (createTopic.topics net b k.Topics k w).k
                      (createTopic.topics net b k.Topics k w).w := by
      simp [createTopic.brokers, hk]
    rw [hstep] at herr hne ⊢
    cases he : (createTopic.topics net b k.Topics k w).err with
    | some e => simp [he] at herr
    | none =>
      simp only [he] at herr hne ⊢
      obtain ⟨evs1, htr1, h1⟩ := topics_answeredAt net b k.Topics k w he
      obtain ⟨htop, hctl⟩ := topics_controller_frame net b k.Topics k w hk
      by_cases h0 : (createTopic.topics net b k.Topics k w).k.BrokerController = ""
      · obtain ⟨evs2, htr2, h2⟩ := ih _ _ h0 herr hne
        refine ⟨evs1 ++ evs2, by rw [htr2, htr1, List.append_assoc], ?_⟩
        intro t ht
        exact answeredAt_append_right _ (h2 t (by rw [htop]; exact ht))
      · have hb : (createTopic.topics net b k.Topics k w).k.BrokerController = b := by
          rcases hctl with h | h
          · exact absurd h h0
          · exact h
        obtain ⟨hkeep, evs2, htr2⟩ := brokers_known_controller net rest _
          (createTopic.topics net b k.Topics k w).w h0
        refine ⟨evs1 ++ evs2, by rw [htr2, htr1, List.append_assoc], ?_⟩
        intro t ht
        rw [hkeep, hb]
        exact answeredAt_append_left _ (h1 t ht)

/-- C25, counterexample: the broker at b1:9094 answers not controller when it is asked for
the topic orders and success when it is asked for the topic events; the run over
`twoBrokers` starts with no known controller, returns no error and ends with b1:9094 as the
known controller, and no creation request of its trace was answered with success or with
topic already exists for the topic orders. -/
theorem earlier_topic_left_uncreated :
    twoBrokers.BrokerController = ""
      ∧ orders ∈ twoBrokers.Topics
      ∧ (createTopic (scriptedBy lateController) twoBrokers fresh).err = none
      ∧ (createTopic (scriptedBy lateController) twoBrokers fresh).k.BrokerController
          = "b1:9094"
      ∧ ∀ e ∈ (createTopic (scriptedBy lateController) twoBrokers fresh).w.trace,
          ¬ (e.accepted = true ∧ ∃ result,
              e.call = Call.CreateTopics (createTopicsRequest orders) result) := by
  refine ⟨rfl, by decide, by decide, by decide, ?_⟩
  have htr : (createTopic (scriptedBy lateController) twoBrokers fresh).w.trace
      = [{ controller := "", brokerConn := "b1:9094", call := Call.Open none },
         { controller := "", brokerConn := "b1:9094", call := Call.Connected none },
         { controller := "", brokerConn := "b1:9094",
           call := Call.CreateTopics (createTopicsRequest orders)
             (CreateTopicsResult.ok { TopicErrors := [("orders", { Err := NOT_CONTROLLER })] }) },
         { controller := "", brokerConn := "b1:9094", call := Call.Open none },
         { controller := "", brokerConn := "b1:9094", call := Call.Connected none },
         { controller := "", brokerConn := "b1:9094",
           call := Call.CreateTopics
             (createTopicsRequest { Name := "events", ReplicationFactor := 3, NumOfPartitions := 2 })
             (CreateTopicsResult.ok { TopicErrors := [("events", { Err := SUCCESS })] }) }] := by
    decide
  rw [htr]
  intro e he
  simp only [List.mem_cons, List.mem_singleton, List.not_mem_nil, or_false] at he
  rintro ⟨hacc, result, hcall⟩
  rcases he with rfl | rfl | rfl | rfl | rfl | rfl
  · revert hacc; decide
  · revert hacc; decide
  · revert hacc; decide
  · revert hacc; decide
  · revert hacc; decide
  · injection hcall with hreq _
    revert hreq; decide

/-- C25, amended: if a run of `createTopic` that starts with no known controller returns no
error and ends with a known controller, then for every topic of the topic list the run sent
a creation request to that controller, which the controller answered with success, topic
already exists, not controller, or a response without entries; and if the controller
answers every creation request with success or topic already exists, then every topic of
the list received one of these two responses from the controller during the run. -/
theorem createTopic_controller_answered (net : Sarama σ) (k : Kafka) (w : World σ)
    (hstart : k.BrokerController = "")
    (herr : (createTopic net k w).err = none)
    (hknown : (createTopic net k w).k.BrokerController ≠ "") :
    (∀ t ∈ k.Topics, AnsweredAt net (createTopic net k w).k.BrokerController t
        ((createTopic net k w).w.trace.drop w.trace.length))
      ∧ ((∀ conf st,
            (net.CreateTopics (createTopic net k w).k.BrokerController
                (createTopicsRequest conf) st).1.code = some SUCCESS
            ∨ (net.CreateTopics (createTopic net k w).k.BrokerController
                (createTopicsRequest conf) st).1.code = some TOPIC_ALREADY_EXISTS) →
          ∀ t ∈ k.Topics, ∃ e ∈ (createTopic net k w).w.trace.drop w.trace.length,
            e.brokerConn = (createTopic net k w).k.BrokerController
              ∧ e.accepted = true
              ∧ ∃ result, e.call = Call.CreateTopics (createTopicsRequest t) result) := by
  obtain ⟨evs, htr, hall⟩ := brokers_answeredAt net (strings.Split k.BrokerConn ',') k w
    hstart herr hknown
  have htr2 : (createTopic net k w).w.trace = w.trace ++ evs := htr
  have hall2 : ∀ t ∈ k.Topics, AnsweredAt net (createTopic net k w).k.BrokerController t evs :=
    hall
  rw [htr2, List.drop_left]
  refine ⟨hall2, ?_⟩
  intro hsteady t ht
  obtain ⟨e, he, st, hb, hcall, _⟩ := hall2 t ht
  refine ⟨e, he, hb, ?_, _, hcall⟩
  simp only [Event.accepted, hcall]
  rcases hsteady t st with h | h <;> simp [h]

/-- Witness of C25: the run over `twoBrokers` in which the second broker is the controller
ends with it as the known controller, and both topics were accepted by it. -/
theorem createTopic_controller_answered_witness :
    twoBrokers.BrokerController = ""
      ∧ (createTopic (scripted secondIsController) twoBrokers fresh).err = none
      ∧ (createTopic (scripted secondIsController) twoBrokers fresh).k.BrokerController
          = "b2:9094"
      ∧ ∀ t ∈ twoBrokers.Topics,
          ∃ e ∈ (createTopic (scripted secondIsController) twoBrokers fresh).w.trace.drop
              fresh.trace.length,
            e.brokerConn
                = (createTopic (scripted secondIsController) twoBrokers fresh).k.BrokerController
              ∧ e.accepted = true
              ∧ ∃ result, e.call = Call.CreateTopics (createTopicsRequest t) result :=
  ⟨rfl, by decide, by decide,
   (createTopic_controller_answered (scripted secondIsController) twoBrokers fresh rfl
      (by decide) (by decide)).2 (by
        have hc : (createTopic (scripted secondIsController) twoBrokers fresh).k.BrokerController
            = "b2:9094" := by decide
        rw [hc]
        intro conf st
        left
        rfl)⟩

end PostProcessKafka

namespace PreProcessKafka

open Sdk

/-! ## `listConfigurations` and `vpcCidr` -/

theorem listConfigurations_loop_eq (name : String) (out : List Configuration) :
    listConfigurations.loop name out
      = match out.find? (Configuration.matches name) with
        | some config => (aws.StringValue config.Arn, none)
        | none => ("", some ("Unable to list MSK cluster configuration by name " ++ name)) := by
  induction out with
  | nil => rfl
  | cons config rest ih =>
    by_cases h : name = aws.StringValue config.Name
        ∧ aws.Int64Value config.LatestRevision.Revision = 1
    · have hm : Configuration.matches name config = true := by
        simpa [Configuration.matches] using h
      simp only [listConfigurations.loop, if_pos h, List.find?_cons, hm]
    · have hm : Configuration.matches name config = false := by
        simpa [Configuration.matches] using h
      simp only [listConfigurations.loop, if_neg h, List.find?_cons, hm, ih]

/-- C19: when the listing call returns a listing, `listConfigurations` returns, with no
error, the ARN of the first configuration of the listing that has the given name and
latest revision 1, and returns an empty ARN with an error exactly when no configuration of
the listing has that name with revision 1. -/
theorem listConfigurations_first_match (k : MSKclient) (name : String)
    (out : List Configuration) (hout : k.ListConfigurations = Except.ok out) :
    listConfigurations k name
        = (match out.find? (Configuration.matches name) with
          | some config => (aws.StringValue config.Arn, none)
          | none => ("", some ("Unable to list MSK cluster configuration by name " ++ name)))
      ∧ ((listConfigurations k name).2 ≠ none ↔
          ∀ config ∈ out, ¬ (name = aws.StringValue config.Name
            ∧ aws.Int64Value config.LatestRevision.Revision = 1))
      ∧ ((listConfigurations k name).2 ≠ none → (listConfigurations k name).1 = "") := by
  have heq : listConfigurations k name = listConfigurations.loop name out := by
    simp [listConfigurations, hout]
  rw [heq, listConfigurations_loop_eq]
  refine ⟨rfl, ?_, ?_⟩
  · cases hf : out.find? (Configuration.matches name) with
    | some config =>
      have hmem := List.mem_of_find?_eq_some hf
      have hp := List.find?_some hf
      simp only [ne_eq, not_true_eq_false, false_iff, not_forall]
      refine ⟨config, hmem, ?_⟩
      simpa [Configuration.matches] using hp
    | none =>
      simp only [ne_eq, reduceCtorEq, not_false_eq_true, true_iff]
      intro config hmem
      have := List.find?_eq_none.1 hf config hmem
      simpa [Configuration.matches] using this
  · cases hf : out.find? (Configuration.matches name) with
    | some config => intro h; exact absurd rfl h
    | none => intro _; rfl

/-- Witness of C19: the configuration of the test, behind one of another revision. -/
theorem listConfigurations_first_match_witness :
    listConfigurations mockMsk "SampleConfig1"
      = ("arn:aws:msk:us-west-2:1234567891:mymskconfig", none) :=
  (listConfigurations_first_match mockMsk "SampleConfig1" _ rfl).1.trans (by decide)

/-- C20 at a failing input: the response holds the VPC vpc-1234 in second place, and
`vpcCidr`, which looks at the first VPC only, returns an empty CIDR and the error that no
VPC matches. -/
theorem vpcCidr_misses_later_vpc :
    (∃ vpc ∈ [({ VpcId := some "vpc-5678", CidrBlock := some "10.16.0.0/12" } : Vpc),
              { VpcId := some "vpc-1234", CidrBlock := some "10.0.0.0/12" }],
        aws.StringValue vpc.VpcId = "vpc-1234")
      ∧ vpcCidr mockEc2 "vpc-1234"
        = ("", some "vpc matching the ID vpc-1234 could not be found") := by
  refine ⟨⟨_, List.mem_cons_of_mem _ (List.mem_singleton.2 rfl), rfl⟩, by decide⟩

/-! ## `createConfig` -/

/-- C21: `createConfig` sends one creation request made of the description, the versions
and the name of the config and of the server properties; when the call succeeds it returns
the ARN of the response and no error; when the call fails with an AWS error of code
ConflictException it returns what `listConfigurations` returns for the name of the config;
on every other failure it returns an empty ARN and an error. -/
theorem createConfig_cases (k : MSKclient) (conf : ClusterConfig) (serverProps : String) :
    (∀ out, k.CreateConfiguration
          { Description := conf.Description, KafkaVersions := conf.Kafka_Versions
            Name := conf.Name, ServerProperties := serverProps } = Except.ok out →
        createConfig k conf serverProps = (aws.StringValue out, none))
      ∧ (∀ err message, k.CreateConfiguration
          { Description := conf.Description, KafkaVersions := conf.Kafka_Versions
            Name := conf.Name, ServerProperties := serverProps } = Except.error err →
        err.aerr = some (kafka.ErrCodeConflictException, message) →
        createConfig k conf serverProps = listConfigurations k conf.Name)
      ∧ (∀ err, k.CreateConfiguration
          { Description := conf.Description, KafkaVersions := conf.Kafka_Versions
            Name := conf.Name, ServerProperties := serverProps } = Except.error err →
        (∀ message, err.aerr ≠ some (kafka.ErrCodeConflictException, message)) →
        (createConfig k conf serverProps).1 = ""
          ∧ (createConfig k conf serverProps).2 ≠ none) := by
  refine ⟨?_, ?_, ?_⟩
  · intro out h
    simp [createConfig, h]
  · intro err message h haerr
    simp [createConfig, h, haerr]
  · intro err h hno
    cases haerr : err.aerr with
    | none => simp [createConfig, h, haerr]
    | some cm =>
      obtain ⟨code, message⟩ := cm
      have hcode : code ≠ kafka.ErrCodeConflictException := by
        intro hc
        exact hno message (by rw [haerr, hc])
      simp [createConfig, h, haerr, hcode]

/-- Witness of C21: the creation is refused with a conflict, and `createConfig` returns the
ARN of the configuration of that name that the listing holds with revision 1. -/
theorem createConfig_cases_witness :
    createConfig mockMsk sampleConfig "auto.create.topics.enable = true"
      = ("arn:aws:msk:us-west-2:1234567891:mymskconfig", none) :=
  ((createConfig_cases mockMsk sampleConfig "auto.create.topics.enable = true").2.1
    _ "A resource with this name already exists." rfl rfl).trans (by decide)

/-! ## `vpcCidr` on a response without VPCs -/

/-- C29 at a failing input: the call succeeds with a response that holds no VPC, so no VPC
of the response has the requested id, and `vpcCidr` returns an empty CIDR together with no
error. -/
theorem vpcCidr_empty_response_no_error :
    emptyEc2.DescribeVpcs ["vpc-1234"] = Except.ok []
      ∧ (∀ vpc ∈ ([] : List Vpc), aws.StringValue vpc.VpcId ≠ "vpc-1234")
      ∧ vpcCidr emptyEc2 "vpc-1234" = ("", none) := by
  refine ⟨rfl, ?_, by decide⟩
  intro vpc h
  cases h

end PreProcessKafka

namespace PublishLogOptions

open Sdk

/-! ## The resource policies -/

/-- C22: for the log kinds Search-logs, Index-logs and Application-logs, `resourcePolicy`
submits, under the given policy name, the text that `json.Marshal` gives for the policy of
version 2012-10-17 with the single statement that allows the principal es.amazonaws.com the
actions logs:PutLogEvents and logs:CreateLogStream on the search slow, index slow and
application log ARN of the domain config; it makes this one call, and returns no error
exactly when the call returns none.  For every other log kind it returns the error invalid
log type and makes no call. -/
theorem resourcePolicy_document (svc : Services) (config : esDomainConfig)
    (policyConfig : resPolicyInput) (calls : List ApiCall) :
    (∀ resource b,
        (policyConfig.logKind = "Search-logs" ∧ resource = config.SearchSlowLogsArn)
          ∨ (policyConfig.logKind = "Index-logs" ∧ resource = config.IndexSlowLogsArn)
          ∨ (policyConfig.logKind = "Application-logs"
              ∧ resource = config.ESApplicationLogsArn) →
        svc.Marshal
            { Version := "2012-10-17",
              Statement := [{ Effect := "Allow",
                              Principal := { Service := "es.amazonaws.com" },
                              Action := ["logs:PutLogEvents", "logs:CreateLogStream"],
                              Resource := resource }] } = Except.ok b →
        (resourcePolicy svc config policyConfig calls).2
            = calls ++ [ApiCall.PutResourcePolicy policyConfig.policyName b]
          ∧ ((resourcePolicy svc config policyConfig calls).1 = none
              ↔ svc.PutResourcePolicy calls policyConfig.policyName b = none))
      ∧ (policyConfig.logKind ≠ "Search-logs" → policyConfig.logKind ≠ "Index-logs" →
          policyConfig.logKind ≠ "Application-logs" →
          resourcePolicy svc config policyConfig calls = (some "invalid log type", calls)) := by
  constructor
  · intro resource b hkind hm
    have hres : resourcePolicy.resource config policyConfig = some resource := by
      rcases hkind with ⟨hk, hr⟩ | ⟨hk, hr⟩ | ⟨hk, hr⟩
      · simp [resourcePolicy.resource, hk, hr, SEARCHSLOWLOGS]
      · simp [resourcePolicy.resource, hk, hr, SEARCHSLOWLOGS, INDEXSLOWLOGS]
      · simp [resourcePolicy.resource, hk, hr, SEARCHSLOWLOGS, INDEXSLOWLOGS, ESAPPLOGS]
    have hm2 : svc.Marshal (resourcePolicy.policy resource) = Except.ok b := hm
    simp only [resourcePolicy, hres, hm2]
    cases hp : svc.PutResourcePolicy calls policyConfig.policyName b with
    | none => simp
    | some err => simp
  · intro h1 h2 h3
    have hres : resourcePolicy.resource config policyConfig = none := by
      simp [resourcePolicy.resource, SEARCHSLOWLOGS, INDEXSLOWLOGS, ESAPPLOGS, h1, h2, h3]
    simp only [resourcePolicy, hres]

set_option maxRecDepth 100000 in
/-- Witness of C22: the call of the test `Test_MockPutResourcePolicy`, for the log kind
Index-logs, and a call for a log kind that is none of the three. -/
theorem resourcePolicy_document_witness :
    resourcePolicy (policyStore []) sampleDomain
        { policyName := "MLSPolicy1", logKind := INDEXSLOWLOGS } []
      = (none, [ApiCall.PutResourcePolicy "MLSPolicy1"
          ("\x7b\x22Version\x22:\x222012-10-17\x22,\x22Statement\x22:[\x7b\x22Effect\x22:\x22Allow\x22,"
            ++ "\x22Principal\x22:\x7b\x22Service\x22:\x22es.amazonaws.com\x22\x7d,"
            ++ "\x22Action\x22:[\x22logs:PutLogEvents\x22,\x22logs:CreateLogStream\x22],"
            ++ "\x22Resource\x22:\x22arn:aws:logs:us-west-2:508718283261:log-group:index-logs:*\x22\x7d]\x7d")])
      ∧ resourcePolicy (policyStore []) sampleDomain
          { policyName := "MLSPolicy1", logKind := "Audit-logs" } []
        = (some "invalid log type", []) :=
  ⟨by decide,
   (resourcePolicy_document (policyStore []) sampleDomain
      { policyName := "MLSPolicy1", logKind := "Audit-logs" } []).2
      (by decide) (by decide) (by decide)⟩

theorem delResourcePolicy_calls (svc : Services) (policyName : String) (calls : List ApiCall) :
    (delResourcePolicy svc policyName calls).2
      = calls ++ [ApiCall.DeleteResourcePolicy policyName] := by
  simp only [delResourcePolicy]
  split
  · split
    · split_ifs <;> rfl
    · rfl
  · rfl

theorem policiesAfter_delete (initial : List String) (calls : List ApiCall) (name : String) :
    policiesAfter initial (calls ++ [ApiCall.DeleteResourcePolicy name])
      = (policiesAfter initial calls).filter fun n => n ≠ name := by
  simp [policiesAfter, List.foldl_append]

theorem policyStore_delete (initial : List String) (policyName : String)
    (calls : List ApiCall) :
    (delResourcePolicy (policyStore initial) policyName calls).1 = none := by
  simp only [delResourcePolicy, policyStore]
  split_ifs <;> simp

theorem policyStore_not_found (initial : List String) (calls : List ApiCall) (name : String)
    (h : name ∉ policiesAfter initial calls) :
    (policyStore initial).DeleteResourcePolicy calls name
      = some { Error := "ResourceNotFoundException: Policy with name [" ++ name
                          ++ "] does not exist."
               aerr := some ("ResourceNotFoundException",
                             "Policy with name [" ++ name ++ "] does not exist.") } := by
  simp only [policyStore, if_neg h]

/-- C23: `delResourcePolicy` returns no error when the delete call succeeds and when it
fails with an AWS error of code ResourceNotFoundException; on services that keep policies
by name, two deletions of the same name in succession both return no error, the policy does
not exist after the first, and the second is answered with ResourceNotFoundException. -/
theorem delResourcePolicy_idempotent (svc : Services) (policyName : String)
    (calls : List ApiCall) :
    (svc.DeleteResourcePolicy calls policyName = none →
        (delResourcePolicy svc policyName calls).1 = none)
      ∧ (∀ err message, svc.DeleteResourcePolicy calls policyName = some err →
          err.aerr = some ("ResourceNotFoundException", message) →
          (delResourcePolicy svc policyName calls).1 = none)
      ∧ ∀ initial,
          (delResourcePolicy (policyStore initial) policyName calls).1 = none
            ∧ (delResourcePolicy (policyStore initial) policyName
                (delResourcePolicy (policyStore initial) policyName calls).2).1 = none
            ∧ policyName ∉ policiesAfter initial
                (delResourcePolicy (policyStore initial) policyName calls).2
            ∧ ∃ err message, (policyStore initial).DeleteResourcePolicy
                  (delResourcePolicy (policyStore initial) policyName calls).2 policyName
                  = some err
                ∧ err.aerr = some ("ResourceNotFoundException", message) := by
  refine ⟨?_, ?_, ?_⟩
  · intro h
    simp [delResourcePolicy, h]
  · intro err message h haerr
    simp [delResourcePolicy, h, haerr]
  · intro initial
    have hgone : policyName ∉ policiesAfter initial
        (delResourcePolicy (policyStore initial) policyName calls).2 := by
      rw [delResourcePolicy_calls, policiesAfter_delete]
      simp
    refine ⟨policyStore_delete _ _ _, policyStore_delete _ _ _, hgone, ?_⟩
    have hans : (policyStore initial).DeleteResourcePolicy
        (delResourcePolicy (policyStore initial) policyName calls).2 policyName
        = some { Error := "ResourceNotFoundException: Policy with name [" ++ policyName
                            ++ "] does not exist."
                 aerr := some ("ResourceNotFoundException",
                               "Policy with name [" ++ policyName ++ "] does not exist.") } := by
      exact policyStore_not_found _ _ _ hgone
    exact ⟨_, _, hans, rfl⟩

/-- Witness of C23: a policy that exists is deleted twice from an empty history. -/
theorem delResourcePolicy_idempotent_witness :
    (delResourcePolicy (policyStore ["AES-mlsdataplatform-qa-Index-logs"])
        "AES-mlsdataplatform-qa-Index-logs" []).1 = none
      ∧ (delResourcePolicy (policyStore ["AES-mlsdataplatform-qa-Index-logs"])
          "AES-mlsdataplatform-qa-Index-logs"
          [ApiCall.DeleteResourcePolicy "AES-mlsdataplatform-qa-Index-logs"]).1 = none :=
  ⟨(delResourcePolicy_idempotent (policyStore ["AES-mlsdataplatform-qa-Index-logs"])
      "AES-mlsdataplatform-qa-Index-logs" []).1 (by simp [policyStore, policiesAfter]),
   (delResourcePolicy_idempotent (policyStore ["AES-mlsdataplatform-qa-Index-logs"])
      "AES-mlsdataplatform-qa-Index-logs"
      [ApiCall.DeleteResourcePolicy "AES-mlsdataplatform-qa-Index-logs"]).2.1 _ _ rfl rfl⟩

/-- C28 at a failing input: the delete call fails with an error that is not an AWS error,
hence not one of code ResourceNotFoundException, and `delResourcePolicy` returns no
error. -/
theorem delResourcePolicy_drops_plain_error :
    (∃ err, unreachableLogs.DeleteResourcePolicy [] "AES-mlsdataplatform-qa-Index-logs"
          = some err
        ∧ err.aerr = none
        ∧ err.Error = "dial tcp: lookup logs.us-west-2.amazonaws.com: no such host")
      ∧ delResourcePolicy unreachableLogs "AES-mlsdataplatform-qa-Index-logs" []
        = (none, [ApiCall.DeleteResourcePolicy "AES-mlsdataplatform-qa-Index-logs"]) :=
  ⟨⟨_, rfl, rfl, rfl⟩, by decide⟩

/-! ## The handler `publishLog` -/

/-- C27 fails for an update: whatever the fuel, the handler does not return on an event of
request type Update, because the case of an update calls the handler again with the request
type set to Update; on an event of request type Create or Delete one call of the handler
returns. -/
theorem publishLog_update_never_returns (svc : Services) (event : cfn.Event)
    (calls : List ApiCall) :
    (event.RequestType = cfn.RequestUpdate → ∀ fuel, publishLog svc fuel event calls = none)
      ∧ (event.RequestType = cfn.RequestCreate →
          ∀ fuel, (publishLog svc (fuel + 1) event calls).isSome = true)
      ∧ (event.RequestType = cfn.RequestDelete →
          ∀ fuel, (publishLog svc (fuel + 1) event calls).isSome = true) := by
  refine ⟨?_, ?_, ?_⟩
  · intro h fuel
    induction fuel generalizing event with
    | zero => rfl
    | succ n ih =>
      have hne : event.RequestType ≠ cfn.RequestCreate := by
        rw [h]; decide
      simp only [publishLog, if_neg hne, if_pos h]
      exact ih _ rfl
  · intro h fuel
    simp [publishLog, h]
  · intro h fuel
    have h1 : event.RequestType ≠ cfn.RequestCreate := by rw [h]; decide
    have h2 : event.RequestType ≠ cfn.RequestUpdate := by rw [h]; decide
    simp only [publishLog, if_neg h1, if_neg h2, if_pos h]
    rfl

/-- Witness of C27: an update event for the domain of the tests, with fuel for a thousand
calls of the handler. -/
theorem publishLog_update_never_returns_witness :
    publishLog (policyStore []) 1000 updateEvent [] = none :=
  (publishLog_update_never_returns (policyStore []) updateEvent []).1 rfl 1000

end PublishLogOptions

namespace EksCluster

open Sdk

/-! ## `removeElbIngressTags` -/

theorem allDeleted_nil (e : Ec2Client) (commonTag : Tag) (calls : List Ec2Call) :
    AllDeleted e commonTag calls [] := by
  intro pre subnet post h
  cases pre <;> simp at h

theorem allDeleted_cons (e : Ec2Client) (commonTag : Tag) (calls : List Ec2Call)
    (s : String) (rest : List String)
    (h1 : e.DeleteTags calls [commonTag] [s] = none)
    (h2 : AllDeleted e commonTag (calls ++ [Ec2Call.DeleteTags [commonTag] [s]]) rest) :
    AllDeleted e commonTag calls (s :: rest) := by
  intro pre subnet post h
  cases pre with
  | nil =>
    simp only [List.nil_append, List.cons.injEq] at h
    rw [← h.1]
    simpa using h1
  | cons p pre2 =>
    simp only [List.cons_append, List.cons.injEq] at h
    have := h2 pre2 subnet post h.2
    rw [← h.1]
    simpa [List.append_assoc] using this

theorem loop_spec (e : Ec2Client) (commonTag : Tag) :
    ∀ (subnets : List String) (calls : List Ec2Call),
      (removeElbIngressTags.loop e commonTag subnets calls
            = (none, calls ++ subnets.map fun s => Ec2Call.DeleteTags [commonTag] [s])
          ∧ AllDeleted e commonTag calls subnets)
        ∨ ∃ pre subnet post err, subnets = pre ++ subnet :: post
            ∧ AllDeleted e commonTag calls pre
            ∧ e.DeleteTags (calls ++ pre.map fun s => Ec2Call.DeleteTags [commonTag] [s])
                [commonTag] [subnet] = some err
            ∧ removeElbIngressTags.loop e commonTag subnets calls
                = (some ("unable to create tags for subnet " ++ subnet ++ ": " ++ err.Error),
                   calls ++ (pre ++ [subnet]).map fun s => Ec2Call.DeleteTags [commonTag] [s]) := by
  intro subnets
  induction subnets with
  | nil =>
    intro calls
    left
    exact ⟨by simp [removeElbIngressTags.loop], allDeleted_nil e commonTag calls⟩
  | cons s rest ih =>
    intro calls
    cases hd : e.DeleteTags calls [commonTag] [s] with
    | some err =>
      right
      refine ⟨[], s, rest, err, rfl, allDeleted_nil e commonTag calls, by simpa using hd, ?_⟩
      simp [removeElbIngressTags.loop, hd]
    | none =>
      rcases ih (calls ++ [Ec2Call.DeleteTags [commonTag] [s]]) with ⟨heq, hall⟩ | hfail
      · left
        refine ⟨?_, allDeleted_cons e commonTag calls s rest hd hall⟩
        simp only [removeElbIngressTags.loop, hd, heq]
        simp
      · right
        obtain ⟨pre, subnet, post, err, hsplit, hall, hcall, heq⟩ := hfail
        refine ⟨s :: pre, subnet, post, err, by rw [hsplit]; rfl,
          allDeleted_cons e commonTag calls s pre hd hall, ?_, ?_⟩
        · simpa [List.append_assoc] using hcall
        · simp only [removeElbIngressTags.loop, hd, heq]
          simp

theorem loop_append (e : Ec2Client) (commonTag : Tag) (l2 : List String) :
    ∀ (l1 : List String) (calls : List Ec2Call),
      removeElbIngressTags.loop e commonTag (l1 ++ l2) calls
        = match (removeElbIngressTags.loop e commonTag l1 calls).1 with
          | some err => (some err, (removeElbIngressTags.loop e commonTag l1 calls).2)
          | none => removeElbIngressTags.loop e commonTag l2
                      (removeElbIngressTags.loop e commonTag l1 calls).2 := by
  intro l1
  induction l1 with
  | nil => intro calls; simp [removeElbIngressTags.loop]
  | cons s rest ih =>
    intro calls
    cases hd : e.DeleteTags calls [commonTag] [s] with
    | some err => simp [removeElbIngressTags.loop, hd]
    | none =>
      simp only [List.cons_append, removeElbIngressTags.loop, hd]
      exact ih _

theorem removeElbIngressTags_eq_loop (e : Ec2Client) (config : EksClusterConfig)
    (calls : List Ec2Call) :
    removeElbIngressTags e config calls
      = removeElbIngressTags.loop e { Key := "kubernetes.io/cluster/" ++ config.Name,
                                      Value := "shared" }
          (config.PublicSubnets.elems ++ config.PrivateSubnets.elems) calls := by
  rw [loop_append]
  rfl

theorem cluster_key_ne (name : String) (role : String)
    (h : role.data.take 15 ≠ "kubernetes.io/c".data) :
    "kubernetes.io/cluster/" ++ name ≠ role := by
  intro heq
  apply h
  rw [← heq, String.data_append]
  rfl

/-- C24: `removeElbIngressTags` makes its requests for the public subnets in order and then
for the private subnets in order, each for one subnet and for the one tag of key
kubernetes.io/cluster/ followed by the cluster name and of value shared.  Either every
request is answered without error, and then there is one request for each subnet and no
error is returned; or the requests end with the first one that fails, and the error of that
request is returned.  The key of the tag is neither kubernetes.io/role/elb nor
kubernetes.io/role/internal-elb. -/
theorem removeElbIngressTags_requests (e : Ec2Client) (config : EksClusterConfig)
    (calls : List Ec2Call) :
    ((removeElbIngressTags e config calls
            = (none, calls ++ (config.PublicSubnets.elems ++ config.PrivateSubnets.elems).map
                fun s => Ec2Call.DeleteTags
                  [{ Key := "kubernetes.io/cluster/" ++ config.Name, Value := "shared" }] [s])
          ∧ AllDeleted e { Key := "kubernetes.io/cluster/" ++ config.Name, Value := "shared" }
              calls (config.PublicSubnets.elems ++ config.PrivateSubnets.elems))
        ∨ ∃ pre subnet post err,
            config.PublicSubnets.elems ++ config.PrivateSubnets.elems = pre ++ subnet :: post
            ∧ AllDeleted e { Key := "kubernetes.io/cluster/" ++ config.Name, Value := "shared" }
                calls pre
            ∧ e.DeleteTags
                (calls ++ pre.map fun s => Ec2Call.DeleteTags
                  [{ Key := "kubernetes.io/cluster/" ++ config.Name, Value := "shared" }] [s])
                [{ Key := "kubernetes.io/cluster/" ++ config.Name, Value := "shared" }] [subnet]
                = some err
            ∧ removeElbIngressTags e config calls
                = (some ("unable to create tags for subnet " ++ subnet ++ ": " ++ err.Error),
                   calls ++ (pre ++ [subnet]).map fun s => Ec2Call.DeleteTags
                    [{ Key := "kubernetes.io/cluster/" ++ config.Name, Value := "shared" }] [s]))
      ∧ "kubernetes.io/cluster/" ++ config.Name ≠ "kubernetes.io/role/elb"
      ∧ "kubernetes.io/cluster/" ++ config.Name ≠ "kubernetes.io/role/internal-elb" := by
  refine ⟨?_, cluster_key_ne _ _ (by decide), cluster_key_ne _ _ (by decide)⟩
  rw [removeElbIngressTags_eq_loop]
  exact loop_spec e _ _ calls

/-- Run of `removeElbIngressTags` over one public and two private subnets in which the
request for the first private subnet fails: no request is made for the second. -/
theorem removeElbIngressTags_stops_at_failure :
    removeElbIngressTags (failingEc2 "subnet-2")
        { demoConfig with PrivateSubnets := sliceOf ["subnet-2", "subnet-3"] } []
      = (some "unable to create tags for subnet subnet-2: InvalidID: The ID subnet-2 is not valid",
         [Ec2Call.DeleteTags [{ Key := "kubernetes.io/cluster/demo", Value := "shared" }]
            ["subnet-1"],
          Ec2Call.DeleteTags [{ Key := "kubernetes.io/cluster/demo", Value := "shared" }]
            ["subnet-2"]]) := by
  decide

/-! ## `createCluster` on a cluster that exists -/

/-- C30 at a failing input: the cluster exists with the subnets of the config, public
before private, with the security groups of the config, of which there are none, and with
the version of the config; `createCluster` calls `upgradeConfig` all the same, because the
list of security groups of the config is a nil slice and that of the description is an
empty slice that is not nil.  With an empty slice that is not nil in the config, it makes
neither update. -/
theorem createCluster_updates_equal_config :
    (aws.StringValueSlice demoCluster.SubnetIds).elems
        = demoConfig.PublicSubnets.elems ++ demoConfig.PrivateSubnets.elems
      ∧ (aws.StringValueSlice demoCluster.SecurityGroupIds).elems
          = demoConfig.SecurityGroupIds.elems
      ∧ aws.StringValue demoCluster.Version = demoConfig.Version
      ∧ (createCluster (existing demoCluster) demoConfig []).calls
          = [EksCall.CreateCluster
               { Name := "demo", Version := "1.14", RoleArn := "arn:aws:iam::1234567891:role/eks",
                 ResourcesVpcConfig :=
                   { SecurityGroupIds := [], SubnetIds := ["subnet-1", "subnet-2"],
                     EndpointPrivateAccess := false, EndpointPublicAccess := true },
                 LoggingTypes := ["api", "audit", "authenticator", "controllerManager",
                                  "scheduler"] },
             EksCall.DescribeCluster "demo",
             EksCall.UpdateClusterConfig
               { Name := "demo",
                 ResourcesVpcConfig :=
                   { SecurityGroupIds := [], SubnetIds := ["subnet-2", "subnet-1"],
                     EndpointPrivateAccess := false, EndpointPublicAccess := true } },
             EksCall.DescribeCluster "demo"]
      ∧ (createCluster (existing demoCluster) demoConfig []).err = none
      ∧ (createCluster (existing demoCluster)
            { demoConfig with SecurityGroupIds := some [] } []).calls
          = [EksCall.CreateCluster
               { Name := "demo", Version := "1.14", RoleArn := "arn:aws:iam::1234567891:role/eks",
                 ResourcesVpcConfig :=
                   { SecurityGroupIds := [], SubnetIds := ["subnet-1", "subnet-2"],
                     EndpointPrivateAccess := false, EndpointPublicAccess := true },
                 LoggingTypes := ["api", "audit", "authenticator", "controllerManager",
                                  "scheduler"] },
             EksCall.DescribeCluster "demo",
             EksCall.DescribeCluster "demo"] := by
  decide

end EksCluster
